import Mathlib

/-!
# ZILMiner pool subsystem: PoolManager and EthGetworkClient

A shallow embedding of `libpoolprotocols/PoolManager.cpp` and
`libpoolprotocols/getwork/EthGetworkClient.cpp`, followed by theorems about it.

Conventions of the embedding

* `unsigned` fields are natural numbers; every increment the source performs on
  them is taken modulo `2^32` (`UINT_MOD`).
* `h256` values are natural numbers (the big-endian value of the 32 bytes);
  `h256()` is `0`.
* Calls the code makes on its collaborators (the pool client, the farm, the
  process) are appended, in program order, to a `trace` carried by the state.
* An operation that can leave through a C++ exception returns an `Outcome`:
  the state reached when the exception left (C++ does not roll back) and the
  exception, if any.
-/

namespace ZILMiner

/-- The modulus of `unsigned` arithmetic. -/
def UINT_MOD : Nat := 2 ^ 32

/-- The kind of host name of a `URI` (`dev::UriHostNameType`). -/
inductive UriHostNameType
  | Unknown
  | Basic
  | Dns
  | IPV4
  | IPV6
  deriving DecidableEq

/-- Modelled from the spec: the `URI` class is declared outside the two source
files; its fields are those of the data model (section 3 of the spec), read
through the accessors the source calls (`Host()`, `Port()`, `Path()`, `User()`,
`Workername()`, `HostNameType()`, `IsUnrecoverable()`). -/
structure URI where
  Scheme : String
  Host : String
  Port : Nat
  Path : String
  User : String
  Workername : String
  Password : String
  HostNameType : UriHostNameType
  IsUnrecoverable : Bool
  accumulatedDuration : Nat
  deriving DecidableEq

/-- Modelled from the spec: `WorkPackage` is declared outside the two source
files; fields as in the data model (`block` is a signed int, `epoch` an
unsigned one). A package is present iff `header ≠ 0`. -/
structure WorkPackage where
  header : Nat
  seed : Nat
  boundary : Nat
  job : String
  block : Int
  epoch : Nat
  exSizeBytes : Nat
  deriving DecidableEq

/-- The conversion `explicit operator bool()`: the package is present. -/
def WorkPackage.toBool (wp : WorkPackage) : Bool := wp.header != 0

/-- C++ exceptions the modelled code can leave through. -/
inductive Exn
  /-- The `std::out_of_range` thrown by `std::vector::at`. -/
  | outOfRange
  /-- The `std::overflow_error` thrown by the multiprecision division by zero. -/
  | divisionByZero
  deriving DecidableEq

/-- Calls PoolManager makes on its collaborators. -/
inductive Call
  | clientSetConnection (u : URI)
  | clientUnsetConnection
  | clientConnect
  | clientDisconnect
  | farmStop
  | farmPause
  | farmShuffle
  | farmSetWork (wp : WorkPackage)
  | findEpochNumber (seed : Nat)
  | raiseSIGTERM
  | postRotateConnect
  | failoverTimerCancel
  | submithrTimerCancel
  | failoverTimerArm (minutes : Nat)
  | submithrTimerArm (seconds : Nat)
  | farmStart (kind : String) (mixed : Bool)
  | farmResume
  | clientSubmitHashrate (rate : String)
  deriving DecidableEq

/-- The kind of miners to start (`MinerType`). -/
inductive MinerType
  | CL
  | CUDA
  | Mixed
  deriving DecidableEq

/-- The state of `PoolManager`, with what it reads from its collaborators
(`p_client->isConnected()`, `Farm::f().isMining()`) and the trace of the calls
it made on them. -/
structure PoolManager where
  m_connections : List URI
  m_activeConnectionIdx : Nat
  m_connectionAttempt : Nat
  m_maxConnectionAttempts : Nat
  m_failoverTimeout : Nat
  m_ergodicity : Nat
  m_selectedHost : String
  m_currentWp : WorkPackage
  m_connectionSwitches : Nat
  m_epochChanges : Nat
  m_running : Bool
  m_stopping : Bool
  clientConnected : Bool
  farmMining : Bool
  trace : List Call
  m_minerType : MinerType := MinerType.Mixed
  m_hrReportingInterval : Nat := 60
  deriving DecidableEq

/-- The result of an operation that may throw. -/
structure Outcome where
  state : PoolManager
  raised : Option Exn
  deriving DecidableEq

namespace PoolManager

/-- The manager right after construction: no connection, index 0, counters 0,
`m_currentWp.header = h256()`. -/
def init (maxTries failoverTimeout ergodicity : Nat) : PoolManager :=
  { m_connections := []
    m_activeConnectionIdx := 0
    m_connectionAttempt := 0
    m_maxConnectionAttempts := maxTries
    m_failoverTimeout := failoverTimeout
    m_ergodicity := ergodicity
    m_selectedHost := ""
    m_currentWp := ⟨0, 0, 0, "", -1, 0, 0⟩
    m_connectionSwitches := 0
    m_epochChanges := 0
    m_running := false
    m_stopping := false
    clientConnected := false
    farmMining := false
    trace := [] }

/-- `PoolManager::addConnection`. -/
def addConnection (s : PoolManager) (conn : URI) : PoolManager :=
  { s with m_connections := s.m_connections ++ [conn] }

/-- `PoolManager::removeConnection`: the returned int and the new state. -/
def removeConnection (s : PoolManager) (idx : Nat) : Int × PoolManager :=
  if idx ≥ s.m_connections.length then (-1, s)
  else if idx = s.m_activeConnectionIdx then (-2, s)
  else
    let s1 := { s with m_connections := s.m_connections.eraseIdx idx }
    let s2 :=
      if s1.m_activeConnectionIdx > idx then
        { s1 with m_activeConnectionIdx := s1.m_activeConnectionIdx - 1 }
      else s1
    (0, s2)

/-- `PoolManager::setActiveConnection`: the returned int and the new state. -/
def setActiveConnection (s : PoolManager) (idx : Nat) : Int × PoolManager :=
  if idx ≥ s.m_connections.length then (-1, s)
  else if idx = s.m_activeConnectionIdx then (0, s)
  else
    (0, { s with
            m_connectionSwitches := (s.m_connectionSwitches + 1) % UINT_MOD
            m_activeConnectionIdx := idx
            m_connectionAttempt := 0
            trace := s.trace ++ [Call.clientDisconnect, Call.farmPause] })

/-- `PoolManager::start`. -/
def start (s : PoolManager) : PoolManager :=
  { s with
      m_running := true
      m_connectionSwitches := (s.m_connectionSwitches + 1) % UINT_MOD
      trace := s.trace ++ [Call.postRotateConnect] }

/-- The final `else` branch of `rotateConnect`: stop mining if applicable, clear
`m_running`, raise SIGTERM. -/
def rotateTerminate (s : PoolManager) : PoolManager :=
  let s1 :=
    if s.farmMining then
      { s with farmMining := false, trace := s.trace ++ [Call.farmStop] }
    else s
  { s1 with m_running := false, trace := s1.trace ++ [Call.raiseSIGTERM] }

/-- The tail of `rotateConnect`, from the test
`!m_connections.empty() && m_connections.at(m_activeConnectionIdx).Host() != "exit"`. -/
def rotateSelect (s : PoolManager) : Outcome :=
  if s.m_connections.isEmpty then ⟨rotateTerminate s, none⟩
  else
    match s.m_connections[s.m_activeConnectionIdx]? with
    | none => ⟨s, some Exn.outOfRange⟩
    | some u =>
      if u.Host ≠ "exit" then
        ⟨{ s with
             m_connectionAttempt := (s.m_connectionAttempt + 1) % UINT_MOD
             m_selectedHost := u.Host ++ ":" ++ toString u.Port
             trace := s.trace ++ [Call.clientSetConnection u, Call.clientConnect] },
          none⟩
      else ⟨rotateTerminate s, none⟩

/-- The bounds check opening `rotateConnect`. -/
def normalizeIdx (s : PoolManager) : PoolManager :=
  if s.m_activeConnectionIdx ≥ s.m_connections.length then
    { s with m_activeConnectionIdx := 0 }
  else s

/-- The branch of `rotateConnect` discarding an unrecoverable connection. -/
def rotateDiscard (s : PoolManager) : PoolManager :=
  let s1 := { s with
                m_connections := s.m_connections.eraseIdx s.m_activeConnectionIdx
                m_connectionAttempt := 0 }
  let s2 := normalizeIdx s1
  { s2 with m_connectionSwitches := (s2.m_connectionSwitches + 1) % UINT_MOD }

/-- The branch of `rotateConnect` taken when
`m_connectionAttempt >= m_maxConnectionAttempts`. -/
def rotateExhausted (s : PoolManager) : PoolManager :=
  if s.m_connections.length = 1 then
    { s with m_connections := s.m_connections.eraseIdx s.m_activeConnectionIdx }
  else
    let s1 := { s with
                  m_connectionAttempt := 0
                  m_activeConnectionIdx := (s.m_activeConnectionIdx + 1) % UINT_MOD }
    let s2 := normalizeIdx s1
    { s2 with m_connectionSwitches := (s2.m_connectionSwitches + 1) % UINT_MOD }

/-- `PoolManager::rotateConnect`. -/
def rotateConnect (s : PoolManager) : Outcome :=
  if s.clientConnected then ⟨s, none⟩
  else
    let s1 := normalizeIdx s
    match s1.m_connections[s1.m_activeConnectionIdx]? with
    | none => ⟨s1, some Exn.outOfRange⟩
    | some u =>
      if u.IsUnrecoverable then rotateSelect (rotateDiscard s1)
      else if s1.m_connectionAttempt ≥ s1.m_maxConnectionAttempts then
        rotateSelect (rotateExhausted s1)
      else rotateSelect s1

/-- The `onDisconnected` handler installed by the constructor. -/
def onDisconnected (s : PoolManager) : PoolManager :=
  let s1 := { s with
                m_currentWp := { s.m_currentWp with header := 0 }
                trace := s.trace ++
                  [Call.clientUnsetConnection, Call.failoverTimerCancel,
                   Call.submithrTimerCancel] }
  if s1.m_stopping then
    let s2 :=
      if s1.farmMining then
        { s1 with farmMining := false, trace := s1.trace ++ [Call.farmStop] }
      else s1
    { s2 with m_running := false }
  else
    { s1 with trace := s1.trace ++ [Call.farmPause, Call.postRotateConnect] }

/-- The dividend of `getCurrentDifficulty`: `0xffff` followed by 60 zero hex
digits. -/
def difficultyDividend : Nat := 0xffff * 2 ^ 240

/-- `PoolManager::getCurrentDifficulty`, up to the final conversion to double:
the 256-bit integer quotient. The multiprecision division throws on a zero
divisor. -/
def getCurrentDifficulty (s : PoolManager) : Except Exn Nat :=
  if !s.m_currentWp.toBool then .ok 0
  else if s.m_currentWp.boundary = 0 then .error Exn.divisionByZero
  else .ok (difficultyDividend / s.m_currentWp.boundary)

/-- `PoolManager::getCurrentEpoch`. -/
def getCurrentEpoch (s : PoolManager) : Nat :=
  if !s.m_currentWp.toBool then 0 else s.m_currentWp.epoch

/-- The conversion of an `int` to `unsigned`. -/
def toUnsigned (i : Int) : Nat := (i % (UINT_MOD : Int)).toNat

/-- The `if (newEpoch)` block of the `onWorkReceived` handler. `findEpoch` is
`ethash::find_epoch_number` applied to the seed (an external library). -/
def updateEpoch (findEpoch : Nat → Int) (s : PoolManager) : PoolManager :=
  let s1 := { s with m_epochChanges := (s.m_epochChanges + 1) % UINT_MOD }
  if s1.m_currentWp.block > 0 then
    { s1 with m_currentWp :=
        { s1.m_currentWp with epoch := toUnsigned (Int.tdiv s1.m_currentWp.block 30000) } }
  else
    { s1 with
        m_currentWp :=
          { s1.m_currentWp with epoch := toUnsigned (findEpoch s1.m_currentWp.seed) }
        trace := s1.trace ++ [Call.findEpochNumber s1.m_currentWp.seed] }

/-- The tail of the `onWorkReceived` handler: shuffle if needed, then
`Farm::f().setWork`. -/
def deliverWork (s : PoolManager) : PoolManager :=
  let s1 :=
    if s.m_ergodicity = 2 ∧ s.m_currentWp.exSizeBytes = 0 then
      { s with trace := s.trace ++ [Call.farmShuffle] }
    else s
  { s1 with trace := s1.trace ++ [Call.farmSetWork s1.m_currentWp] }

/-- The `onWorkReceived` handler installed by the constructor. `showDifficulty`
evaluates `getCurrentDifficulty`, whose exception leaves the handler. -/
def onWorkReceived (findEpoch : Nat → Int) (s : PoolManager) (wp : WorkPackage) :
    Outcome :=
  if !wp.toBool then ⟨s, none⟩
  else
    let newEpoch := wp.seed != s.m_currentWp.seed
    let newDiff := wp.boundary != s.m_currentWp.boundary
    let s1 := { s with m_currentWp := wp }
    let s2 := if newEpoch then updateEpoch findEpoch s1 else s1
    if newDiff then
      match getCurrentDifficulty s2 with
      | .error e => ⟨s2, some e⟩
      | .ok _ => ⟨deliverWork s2, none⟩
    else ⟨deliverWork s2, none⟩

/-- The three list-editing operations of the public interface. -/
inductive Op
  | add (conn : URI)
  | remove (idx : Nat)
  | setActive (idx : Nat)
  deriving DecidableEq

/-- One call of the public interface. -/
def applyOp (s : PoolManager) : Op → PoolManager
  | Op.add conn => addConnection s conn
  | Op.remove idx => (removeConnection s idx).2
  | Op.setActive idx => (setActiveConnection s idx).2

/-- A finite sequence of calls, first call first. -/
def applyOps (s : PoolManager) (ops : List Op) : PoolManager :=
  ops.foldl applyOp s

/-- The index invariant: the active index addresses an element, or the list is
empty and the index is 0. -/
def IdxOk (s : PoolManager) : Prop :=
  s.m_activeConnectionIdx < s.m_connections.length ∨
    (s.m_connections = [] ∧ s.m_activeConnectionIdx = 0)

/-- A sample URI with the given host. -/
def sampleURI (host : String) : URI :=
  ⟨"http", host, 80, "", "", "", "", UriHostNameType.Dns, false, 0⟩

/-- A sample state: pools `a`, `b`, `c`, the second one active. -/
def sample3 : PoolManager :=
  { init 2 0 0 with
      m_connections := [sampleURI "a", sampleURI "b", sampleURI "c"]
      m_activeConnectionIdx := 1 }

/-- A sample state: pools `a`, `b`, the first one active, already attempted
twice with `maxTries = 2`. -/
def sampleAB : PoolManager :=
  { init 2 0 0 with
      m_connections := [sampleURI "a", sampleURI "b"]
      m_connectionAttempt := 2 }

/-- The scenario of pools `[a, b]` with `maxTries = 2`: `start()`, then three
rotations, the client reporting a disconnection after each of the first two
(both connects to `a` fail). -/
def scenarioRotation (a b : URI) : Outcome :=
  let s0 := addConnection (addConnection (init 2 0 0) a) b
  let o1 := rotateConnect (start s0)
  let o2 := rotateConnect (onDisconnected o1.state)
  rotateConnect (onDisconnected o2.state)

/-- A sample state: pools `a` (marked unrecoverable) and `b`, `a` active. -/
def sampleUnrec : PoolManager :=
  { init 2 0 0 with
      m_connections := [{ sampleURI "a" with IsUnrecoverable := true }, sampleURI "b"] }

/-- The seeds `ethash::find_epoch_number` was called on, in call order. -/
def oracleCalls (t : List Call) : List Nat :=
  t.filterMap fun c =>
    match c with
    | Call.findEpochNumber seed => some seed
    | _ => none

/-- A sample package: header 1, seed 7, boundary 5, block 60000, no epoch set. -/
def sampleWp : WorkPackage := ⟨1, 7, 5, "", 60000, 0, 0⟩

/-- The next package of the same epoch: header 2, same seed, boundary and block. -/
def sampleWpNext : WorkPackage := ⟨2, 7, 5, "", 60000, 0, 0⟩

/-- An empty package (header 0) carrying seed 7. -/
def sampleWpEmpty : WorkPackage := ⟨0, 7, 5, "", 60000, 0, 0⟩

/-- A sample package of unknown block (-1), seed 9. -/
def sampleWpNoBlock : WorkPackage := ⟨1, 9, 5, "", -1, 0, 0⟩

/-- The call `rotateConnect` on `s` issued `client.connect()`. -/
def issuedConnect (s : PoolManager) : Bool :=
  decide (Call.clientConnect ∈ (rotateConnect s).state.trace.drop s.trace.length)

/-- The call `rotateConnect` on `s` left the selected list entry as it was: same
list, same active index. -/
def keptEntry (s : PoolManager) : Bool :=
  decide ((rotateConnect s).state.m_connections = s.m_connections ∧
    (rotateConnect s).state.m_activeConnectionIdx = s.m_activeConnectionIdx)

/-- A run of `n` consecutive `rotateConnect` invocations from `s`: the state
reached, and the number of connects issued in a row, up to the last call, to the
list entry now selected (0 when the last call issued none). -/
def rotateRun : Nat → PoolManager → PoolManager × Nat
  | 0, s => (s, 0)
  | n + 1, s =>
    let r := rotateRun n s
    ((rotateConnect r.1).state,
      if issuedConnect r.1 then (if keptEntry r.1 then r.2 + 1 else 1) else 0)

/-- A sample state: pools `a`, `b`, `maxTries = 0`, no attempt made yet. -/
def sampleNoTries : PoolManager :=
  { init 0 0 0 with m_connections := [sampleURI "a", sampleURI "b"] }

/-- A sample state: pools `a`, `b`, `maxTries = 2`, no attempt made yet. -/
def sampleFresh : PoolManager :=
  { init 2 0 0 with m_connections := [sampleURI "a", sampleURI "b"] }

/-- What the branches of `rotateConnect` before the final selection establish
about the state `m` handed to the selection, relative to the entry state `s`. -/
def MidOf (s m : PoolManager) : Prop :=
  m.trace = s.trace ∧ m.m_maxConnectionAttempts = s.m_maxConnectionAttempts ∧
  m.clientConnected = s.clientConnected ∧
  m.m_connectionAttempt ≤ s.m_connectionAttempt ∧
  ((m.m_connectionAttempt = 0 ∧
      (m.m_connections ≠ s.m_connections ∨
        m.m_activeConnectionIdx ≠ s.m_activeConnectionIdx)) ∨
    m.m_connections = [] ∨
    (m.m_connectionAttempt = s.m_connectionAttempt ∧
      s.m_connectionAttempt < s.m_maxConnectionAttempts))

end PoolManager

/-! ## EthGetworkClient -/

/-- Modelled from the spec: `Solution` is declared outside the two source files;
fields as in the data model (`midx` is the miner index). -/
structure Solution where
  nonce : Nat
  mixHash : Nat
  work : WorkPackage
  midx : Nat
  deriving DecidableEq

/-- Modelled from the spec: the `Session` of a connected client. -/
structure Session where
  subscribed : Bool
  authorized : Bool
  startedAt : Nat
  deriving DecidableEq

/-- One element of the `params` array of a request: a hexadecimal rendering
(`"0x"` followed by the digits of a value) or a plain string. -/
inductive Param
  | hex (value : Nat)
  | str (s : String)
  deriving DecidableEq

/-- A JSON-RPC request as the client composes it (`jsonrpc` is always "2.0"). -/
structure Request where
  id : Nat
  method : String
  params : List Param
  deriving DecidableEq

/-- The error code handed to a completion handler. -/
inductive ErrorCode
  | success
  | eof
  | operationAborted
  | failure
  deriving DecidableEq

/-- What the client does to the outside: the events it raises on its owner and
the operations it starts on its socket and timers, in program order. -/
inductive ClientCall
  | onConnected
  | onDisconnected
  | onWorkReceived (wp : WorkPackage)
  | onSolutionAccepted (minerIndex : Nat)
  | onSolutionRejected (minerIndex : Nat)
  | onPoWStart
  | onPoWEnd
  | getworkTimerCancel
  | getworkTimerArm (ms : Nat)
  | connectTimerCancel
  | connectTimerArm (sec : Nat)
  | asyncConnect (endpoint : Nat)
  | asyncWrite
  | asyncRead
  | socketClose
  deriving DecidableEq

/-- The state of `EthGetworkClient`. Endpoints are numbered; `handlers*` tell
whether the owner installed the corresponding callback; `zilMode` is the value
of `isZILMode()` and `now` the reading of the steady clock (both come from
outside the two source files). -/
structure GetworkClient where
  zilMode : Bool
  now : Nat
  m_conn : URI
  m_session : Option Session
  m_connected : Bool
  m_connecting : Bool
  m_txPending : Bool
  socketOpen : Bool
  m_endpoints : List Nat
  m_endpoint : Nat
  m_txQueue : List Request
  m_pendingJReq : Option Request
  m_current : WorkPackage
  m_current_tstamp : Nat
  m_pending_tstamp : Nat
  m_zil_pow_running : Bool
  m_pow_window_timeout : Bool
  m_solution_submitted_max_id : Nat
  m_farmRecheckPeriod : Nat
  m_worktimeout : Int
  m_powend_timeout : Int
  m_powstart_seconds : Nat
  handlerWorkReceived : Bool
  handlerDisconnected : Bool
  handlerConnected : Bool
  handlerSolutionAccepted : Bool
  handlerSolutionRejected : Bool
  handlerPoWStart : Bool
  handlerPoWEnd : Bool
  calls : List ClientCall
  deriving DecidableEq

namespace GetworkClient

/-- The header of the dummy work package, `h256(0xDEADBEEF)`. -/
def dummyHeader : Nat := 0xDEADBEEF

/-- `EthGetworkClient::stop_work`. -/
def stop_work (s : GetworkClient) : GetworkClient :=
  if s.handlerWorkReceived then
    let s1 := { s with m_current := { s.m_current with header := 0 } }
    { s1 with calls := s1.calls ++ [ClientCall.onWorkReceived s1.m_current] }
  else s

/-- `EthGetworkClient::disconnect`. -/
def disconnect (s : GetworkClient) : GetworkClient :=
  let s1 := { s with m_connected := false }
  let s2 :=
    match s1.m_session with
    | some sess =>
      { s1 with m_conn :=
          { s1.m_conn with
              accumulatedDuration := s1.m_conn.accumulatedDuration + (s1.now - sess.startedAt) } }
    | none => s1
  let s3 := { s2 with
                m_session := none
                m_connecting := false
                m_txPending := false
                m_txQueue := []
                calls := s2.calls ++
                  [ClientCall.getworkTimerCancel, ClientCall.connectTimerCancel] }
  if s3.handlerDisconnected then
    { s3 with calls := s3.calls ++ [ClientCall.onDisconnected] }
  else s3

/-- `EthGetworkClient::begin_connect`. Starting the asynchronous connect opens
the socket. -/
def begin_connect (s : GetworkClient) : GetworkClient :=
  match s.m_endpoints with
  | ep :: _ =>
    { s with
        m_endpoint := ep
        socketOpen := true
        calls := s.calls ++
          [ClientCall.connectTimerCancel, ClientCall.connectTimerArm 10,
           ClientCall.asyncConnect ep] }
  | [] => disconnect s

/-- `EthGetworkClient::send`. -/
def send (s : GetworkClient) (req : Request) : GetworkClient :=
  let s1 := { s with m_txQueue := s.m_txQueue ++ [req] }
  if s1.m_txPending = false then begin_connect { s1 with m_txPending := true }
  else s1

/-- The `eth_submitWork` request `submitSolution` composes. -/
def submitWorkRequest (s : GetworkClient) (solution : Solution) : Request :=
  { id := (40 + solution.midx) % UINT_MOD
    method := "eth_submitWork"
    params :=
      [Param.hex solution.nonce, Param.hex solution.work.header, Param.hex solution.mixHash] ++
      (if s.zilMode then
        [Param.hex solution.work.boundary, Param.str s.m_conn.User,
         Param.str s.m_conn.Workername]
      else []) }

/-- The `if (m_session)` block closing `submitSolution`: compose the
`eth_submitWork` request, update `m_solution_submitted_max_id`, send. -/
def sendSolution (s : GetworkClient) (solution : Solution) : GetworkClient :=
  match s.m_session with
  | some _ =>
    let id := (40 + solution.midx) % UINT_MOD
    send { s with m_solution_submitted_max_id := max s.m_solution_submitted_max_id id }
      (submitWorkRequest s solution)
  | none => s

/-- `EthGetworkClient::submitSolution`. -/
def submitSolution (s : GetworkClient) (solution : Solution) : GetworkClient :=
  let s1 := if s.zilMode && !s.m_zil_pow_running then stop_work s else s
  if solution.work.header = dummyHeader then stop_work s1
  else sendSolution s1 solution

/-- The line delimiter of the HTTP response. -/
def linedelimiter : List Char := ['\r', '\n']

/-- The search `std::string::find(pattern)`: the first position at which
`pattern` occurs, `none` for `npos`. -/
def strFind (pattern : List Char) : List Char → Option Nat
  | [] => if pattern = [] then some 0 else none
  | c :: cs =>
    if pattern <+: (c :: cs) then some 0
    else (strFind pattern cs).map (· + 1)

/-- The check of the HTTP status line in `handle_read`: `true` when the line is
accepted (starts with `HTTP/1.`, has a space, and what follows the first space
starts with `200`). -/
def statusLineOk (line : List Char) : Bool :=
  if line.take 7 ≠ "HTTP/1.".toList then false
  else
    match strFind [' '] line with
    | none => false
    | some spaceoffset => decide ((line.drop (spaceoffset + 1)).take 3 = "200".toList)

/-- The body branch of the loop of `handle_read`: parse the chunk and process
it; an invalid chunk is only logged. -/
def processBody {J : Type} (parse : List Char → Option J)
    (processResponse : GetworkClient → J → GetworkClient) (s : GetworkClient)
    (line : List Char) : GetworkClient :=
  match parse line with
  | some jRes => processResponse s jRes
  | none => s

/-- The `while` loop of `handle_read` over the local variables `rx_message`,
`delimiteroffset`, `linenum` and `isHeader`. The result is the client state and
whether the function returned from inside the loop (after `disconnect()`);
`none` when the fuel does not cover the iterations. -/
def readLoop {J : Type} (parse : List Char → Option J)
    (processResponse : GetworkClient → J → GetworkClient) :
    Nat → GetworkClient → List Char → Option Nat → Nat → Bool →
      Option (GetworkClient × Bool)
  | 0, _, _, _, _, _ => none
  | fuel + 1, s, rx_message, delimiteroffset, linenum, isHeader =>
    match delimiteroffset with
    | none => some (s, false)
    | some off =>
      if rx_message.length = 0 then some (s, false)
      else
        let linenum := linenum + 1
        let line := rx_message.take off
        let rx := rx_message.drop (off + 2)
        if line.isEmpty then
          -- beginning of body
          match strFind linedelimiter rx with
          | some off2 => readLoop parse processResponse fuel s rx (some off2) linenum false
          | none =>
            let rx2 := rx.filter (· ≠ '\n')
            let s1 := processBody parse processResponse s rx2
            readLoop parse processResponse fuel s1 rx2 (strFind linedelimiter rx2) linenum false
        else if isHeader && linenum == 1 then
          if statusLineOk line then
            readLoop parse processResponse fuel s rx (strFind linedelimiter rx) linenum isHeader
          else some (disconnect s, true)
        else if !isHeader then
          let s1 := processBody parse processResponse s line
          readLoop parse processResponse fuel s1 rx (strFind linedelimiter rx) linenum isHeader
        else
          readLoop parse processResponse fuel s rx (strFind linedelimiter rx) linenum isHeader

/-- The opening of `handle_read` on success or end of file: cancel the connect
timer and close the socket if it is open. -/
def readPrologue (s : GetworkClient) : GetworkClient :=
  let s1 := { s with calls := s.calls ++ [ClientCall.connectTimerCancel] }
  if s1.socketOpen then
    { s1 with socketOpen := false, calls := s1.calls ++ [ClientCall.socketClose] }
  else s1

/-- The closing of `handle_read` after the loop: flush the next queued request,
or signal the end of the send/receive operations. -/
def readEpilogue (s : GetworkClient) : GetworkClient :=
  if !s.m_txQueue.isEmpty then begin_connect s
  else { s with m_txPending := false }

/-- `EthGetworkClient::handle_read` on the error code `ec` and the received
bytes `rx_message`. `parse` is `Json::Reader::parse` (an external library) and
`processResponse` the handler of a parsed document. `none` only if the loop ran
out of fuel. -/
def handle_read {J : Type} (parse : List Char → Option J)
    (processResponse : GetworkClient → J → GetworkClient) (s : GetworkClient)
    (ec : ErrorCode) (rx_message : List Char) : Option GetworkClient :=
  if ec = ErrorCode.success ∨ ec = ErrorCode.eof then
    let s1 := readPrologue s
    if rx_message.length = 0 then some (disconnect s1)
    else
      match readLoop parse processResponse (rx_message.length + 1) s1 rx_message
          (strFind linedelimiter rx_message) 0 true with
      | none => none
      | some (s2, true) => some s2
      | some (s2, false) => some (readEpilogue s2)
  else if ec ≠ ErrorCode.operationAborted then some (disconnect s)
  else some s

/-- A sample client in ZIL mode, connected with a session, outside the PoW
window, one request in flight (`m_txPending`), every handler installed. -/
def sampleClient : GetworkClient :=
  { zilMode := true
    now := 100
    m_conn := ⟨"zil", "pool", 80, "", "wallet", "rig", "", UriHostNameType.Dns, false, 0⟩
    m_session := some ⟨true, true, 10⟩
    m_connected := true
    m_connecting := false
    m_txPending := true
    socketOpen := true
    m_endpoints := [1]
    m_endpoint := 1
    m_txQueue := []
    m_pendingJReq := none
    m_current := ⟨0, 7, 5, "", -1, 0, 0⟩
    m_current_tstamp := 50
    m_pending_tstamp := 50
    m_zil_pow_running := false
    m_pow_window_timeout := false
    m_solution_submitted_max_id := 0
    m_farmRecheckPeriod := 500
    m_worktimeout := 180
    m_powend_timeout := 300
    m_powstart_seconds := 10
    handlerWorkReceived := true
    handlerDisconnected := true
    handlerConnected := true
    handlerSolutionAccepted := true
    handlerSolutionRejected := true
    handlerPoWStart := true
    handlerPoWEnd := true
    calls := [] }

/-- A sample solution of a real package (header 5), found by miner 3. -/
def sampleSolution : Solution := ⟨99, 77, ⟨5, 7, 5, "", -1, 0, 0⟩, 3⟩


/-! ### Responses -/

/-- Ticks of the steady clock per second (timestamps are in nanoseconds). -/
def ticksPerSecond : Nat := 1000000000

/-- The `result` array of an `eth_getWork` reply as `processResponse` reads it
through the JSON accessors (an external library): elements 0 to 2 converted to
`h256`, whether the seed string is non-empty, and the two ZIL elements
(`asBool` of element 3, `asUInt` of element 4, with their defaults). -/
structure GetWorkResult where
  header : Nat
  seedGiven : Bool
  seed : Nat
  boundary : Nat
  powRunning : Bool
  secsToNextPoW : Nat
  deriving DecidableEq

/-- The `result` member of a reply as `processResponse` reads it: as the
`eth_getWork` array, and as a boolean (`isConvertibleTo(booleanValue)`,
`asBool()`). -/
structure ResultView where
  work : GetWorkResult
  convertibleToBool : Bool
  asBool : Bool
  deriving DecidableEq

/-- A parsed JSON reply as `processResponse` reads it: the `id` member if
present (its value is whatever the pool echoed), whether the `error` member is
empty (`JRes.get("error", null).empty()`), and the `result` member if present. -/
structure Response where
  id : Option Nat
  errorEmpty : Bool
  result : Option ResultView
  deriving DecidableEq

/-- The 64 hexadecimal digits of an `h256` (`h256::hex()`). -/
def hex256 (v : Nat) : String :=
  String.mk (List.replicate (64 - (Nat.toDigits 16 v).length) '0' ++ Nat.toDigits 16 v)

/-- The id of the pending request, `m_pendingJReq.get("id", unsigned(0)).asUInt()`. -/
def pendingId (s : GetworkClient) : Nat :=
  match s.m_pendingJReq with
  | some req => req.id
  | none => 0

/-- The package `newWp` built from an `eth_getWork` result, with its job id. -/
def newWorkPackage (w : GetWorkResult) : WorkPackage :=
  { header := w.header
    seed := w.seed
    boundary := w.boundary
    job := hex256 w.header
    block := -1
    epoch := 0
    exSizeBytes := 0 }

/-- The dummy package sent to initialise the DAG: header `0xDEADBEEF`, the seed
given, boundary zero except byte 3 (counted from the most significant byte)
set to `0x04`. -/
def dummyWork (seed : Nat) : WorkPackage :=
  { header := dummyHeader
    seed := seed
    boundary := 0x04 * 2 ^ (8 * 28)
    job := ""
    block := -1
    epoch := 0
    exSizeBytes := 0 }

/-- The test opening the PoW window, on the state after a present package
cleared `m_pow_window_timeout`. -/
def windowStartCond (s : GetworkClient) (w : GetWorkResult) : Bool :=
  (w.powRunning || decide (w.secsToNextPoW ≤ s.m_powstart_seconds)) &&
    !s.m_pow_window_timeout && !s.m_zil_pow_running

/-- The opening of the ZIL block of `processResponse`: a present package
refreshes `m_current_tstamp` and clears `m_pow_window_timeout`. -/
def noteWork (s : GetworkClient) (w : GetWorkResult) : GetworkClient :=
  if w.header ≠ 0 then
    { s with m_current_tstamp := s.now, m_pow_window_timeout := false }
  else s

/-- The body run when the PoW window opens: set `m_zil_pow_running`, raise
`onPoWStart`, send the dummy work if the package is empty, refresh
`m_current_tstamp`. -/
def openWindow (s : GetworkClient) (w : GetWorkResult) : GetworkClient :=
  let s2 := { s with m_zil_pow_running := true }
  let s3 :=
    if s2.handlerPoWStart then { s2 with calls := s2.calls ++ [ClientCall.onPoWStart] }
    else s2
  let s4 :=
    if w.header = 0 ∧ s3.handlerWorkReceived = true then
      { s3 with calls := s3.calls ++
          [ClientCall.onWorkReceived
            (dummyWork (if w.seedGiven then w.seed else s3.m_current.seed))] }
    else s3
  { s4 with m_current_tstamp := s4.now }

/-- The ZIL block of `processResponse` before the work is forwarded: note a
present package, and open the PoW window if this is its first work. -/
def zilWindowEntry (s : GetworkClient) (w : GetWorkResult) : GetworkClient :=
  let s1 := noteWork s w
  if windowStartCond s1 w then openWindow s1 w else s1

/-- The byte of index `i` of an `h256`, index 0 being the most significant. -/
def h256Byte (v i : Nat) : Nat := (v / 2 ^ (8 * (31 - i))) % 256

/-- The block of `processResponse` forwarding a new job: when header or
boundary differ from the current package, and not in ZIL mode or inside the
window, store the package and raise `onWorkReceived`. -/
def forwardWork (s : GetworkClient) (newWp : WorkPackage) : GetworkClient :=
  if s.m_current.header ≠ newWp.header ∨ s.m_current.boundary ≠ newWp.boundary then
    if !s.zilMode || s.m_zil_pow_running then
      let s1 := { s with m_current := newWp, m_current_tstamp := s.now }
      if s1.handlerWorkReceived then
        { s1 with calls := s1.calls ++ [ClientCall.onWorkReceived s1.m_current] }
      else s1
    else s
  else s

/-- The whole seconds elapsed since the last work, `now - m_current_tstamp`. -/
def elapsedSeconds (s : GetworkClient) : Nat :=
  (s.now - s.m_current_tstamp) / ticksPerSecond

/-- The ZIL block of `processResponse` after the work is forwarded: detect the
end of the PoW window, and close it if it was running. Returns the state and
`sleep_ms`. -/
def zilWindowExit (s : GetworkClient) (w : GetWorkResult) : GetworkClient × Nat :=
  let pow_end0 : Bool := !w.powRunning && decide (w.secsToNextPoW > s.m_powstart_seconds)
  let s1 :=
    if pow_end0 then { s with m_pow_window_timeout := false }
    else
      { s with m_pow_window_timeout := decide ((elapsedSeconds s : Int) > s.m_powend_timeout) }
  let pow_end : Bool := if pow_end0 then true else s1.m_pow_window_timeout
  if pow_end then
    let sleep_ms :=
      if w.secsToNextPoW > 0 then
        min ((w.secsToNextPoW * 1000) % UINT_MOD) s1.m_farmRecheckPeriod
      else s1.m_farmRecheckPeriod
    if s1.m_zil_pow_running then
      let s2 := stop_work { s1 with m_zil_pow_running := false }
      let s3 :=
        if s2.handlerPoWEnd then { s2 with calls := s2.calls ++ [ClientCall.onPoWEnd] }
        else s2
      (s3, sleep_ms)
    else (s1, sleep_ms)
  else (s1, s1.m_farmRecheckPeriod)

/-- Arm the getwork timer to fire in `ms` milliseconds. -/
def armGetworkTimer (s : GetworkClient) (ms : Nat) : GetworkClient :=
  { s with calls := s.calls ++ [ClientCall.getworkTimerArm ms] }

/-- The branch of `processResponse` for a successful `eth_getWork` reply with a
`result` member. -/
def processGetWork (s : GetworkClient) (w : GetWorkResult) : GetworkClient :=
  let s1 := if s.zilMode then zilWindowEntry s w else s
  let s2 := forwardWork s1 (newWorkPackage w)
  let r := if s2.zilMode then zilWindowExit s2 w else (s2, s2.m_farmRecheckPeriod)
  armGetworkTimer r.1 r.2

/-- The value of `_isSuccess` for the reply to a submission: the `error` member
is empty and, when `result` is convertible to boolean, `result` is true. A
missing `result` reads as null: convertible to boolean, false. -/
def replySuccess (r : Response) : Bool :=
  let view : Bool × Bool :=
    match r.result with
    | some v => (v.convertibleToBool, v.asBool)
    | none => (true, false)
  if r.errorEmpty && view.1 then view.2 else r.errorEmpty

/-- The branch of `processResponse` for the reply to an `eth_submitWork`
request with id `_id`. -/
def processSubmitReply (s : GetworkClient) (r : Response) (_id : Nat) : GetworkClient :=
  let isSuccess : Bool := replySuccess r
  let miner_index := _id - 40
  let s1 :=
    if isSuccess then
      if s.handlerSolutionAccepted then
        { s with calls := s.calls ++ [ClientCall.onSolutionAccepted miner_index] }
      else s
    else
      if s.handlerSolutionRejected then
        { s with calls := s.calls ++ [ClientCall.onSolutionRejected miner_index] }
      else s
  if s1.zilMode then
    { s1 with calls := s1.calls ++
        [ClientCall.getworkTimerCancel, ClientCall.getworkTimerArm 100] }
  else s1

/-- `EthGetworkClient::processResponse`. -/
def processResponse (s : GetworkClient) (r : Response) : GetworkClient :=
  match r.id with
  | none => s
  | some _ =>
    let _id := pendingId s
    if _id = 0 ∨ _id = 1 then
      if !r.errorEmpty then armGetworkTimer s 30000
      else
        match r.result with
        | none => s
        | some v => processGetWork s v.work
    else if _id = 9 then s
    else if _id ≥ 40 ∧ _id ≤ s.m_solution_submitted_max_id then processSubmitReply s r _id
    else s


/-! ### Connection handlers -/

/-- The request `m_jsonGetWork` built by the constructor. -/
def getWorkRequest : Request := ⟨1, "eth_getWork", []⟩

/-- The `m_endpoints.pop()` of the error paths: drop the front endpoint. -/
def popEndpoint (s : GetworkClient) : GetworkClient :=
  { s with m_endpoints := s.m_endpoints.tail }

/-- `EthGetworkClient::handle_connect`. -/
def handle_connect (s : GetworkClient) (ec : ErrorCode) : GetworkClient :=
  if ec = ErrorCode.success ∧ s.socketOpen = true then
    let s1 :=
      if s.m_connecting then
        let a := { s with
                     m_connected := true
                     m_session := some ⟨true, true, s.now⟩
                     m_connecting := false }
        let b :=
          if a.handlerConnected then { a with calls := a.calls ++ [ClientCall.onConnected] }
          else a
        { b with m_current_tstamp := b.now }
      else s
    match s1.m_txQueue with
    | req :: rest =>
      { s1 with
          m_txQueue := rest
          m_pendingJReq := some req
          m_pending_tstamp := s1.now
          calls := s1.calls ++ [ClientCall.asyncWrite] }
    | [] => { s1 with m_txPending := false }
  else if ec ≠ ErrorCode.operationAborted then begin_connect (popEndpoint s)
  else s

/-- `EthGetworkClient::handle_write`. -/
def handle_write (s : GetworkClient) (ec : ErrorCode) : GetworkClient :=
  if ec = ErrorCode.success then
    { s with calls := s.calls ++ [ClientCall.asyncRead] }
  else if ec ≠ ErrorCode.operationAborted then begin_connect (popEndpoint s)
  else s

/-- `EthGetworkClient::connect_timer_elapsed`. -/
def connect_timer_elapsed (s : GetworkClient) (ec : ErrorCode) : GetworkClient :=
  if ec ≠ ErrorCode.operationAborted then
    let s1 := { s with socketOpen := false, calls := s.calls ++ [ClientCall.socketClose] }
    disconnect (popEndpoint s1)
  else s

/-- A sample client in default mode, connected, a getWork request pending, two
endpoints in the queue, every handler installed. -/
def sampleDefault : GetworkClient :=
  { sampleClient with
      zilMode := false
      m_endpoints := [1, 2]
      m_pendingJReq := some getWorkRequest }

/-- A sample client in ZIL mode inside a running PoW window, a getWork request
pending, current package with header 5. -/
def sampleInWindow : GetworkClient :=
  { sampleClient with
      m_zil_pow_running := true
      m_current := ⟨5, 7, 5, "", -1, 0, 0⟩
      m_pendingJReq := some getWorkRequest }

/-- A sample successful `eth_getWork` reply: header 9, seed 7, boundary 5, the
PoW window over (`powRunning = false`, 100 seconds to the next one). -/
def sampleReply : Response :=
  { id := some 0
    errorEmpty := true
    result := some ⟨⟨9, true, 7, 5, false, 100⟩, false, false⟩ }

/-- The number of `onWorkReceived` events in a list of calls. -/
def countWorkReceived (l : List ClientCall) : Nat :=
  (l.filter fun c =>
    match c with
    | ClientCall.onWorkReceived _ => true
    | _ => false).length

/-- The test closing the PoW window, on the state reached after the work was
forwarded: the pool reports the window over, or the last work is older than
`m_powend_timeout` seconds. -/
def windowEndCond (s : GetworkClient) (w : GetWorkResult) : Bool :=
  (!w.powRunning && decide (w.secsToNextPoW > s.m_powstart_seconds)) ||
    decide ((elapsedSeconds s : Int) > s.m_powend_timeout)

/-- The calls made when the window opens: `onPoWStart`, then the dummy work if
the received package is empty. -/
def startCalls (s : GetworkClient) (w : GetWorkResult) : List ClientCall :=
  (if s.handlerPoWStart then [ClientCall.onPoWStart] else []) ++
  (if w.header = 0 ∧ s.handlerWorkReceived = true then
    [ClientCall.onWorkReceived
      (dummyWork (if w.seedGiven then w.seed else s.m_current.seed))]
  else [])

/-- The calls made when a running window closes: the empty package of
`stop_work`, then `onPoWEnd`. -/
def endCalls (s : GetworkClient) : List ClientCall :=
  (if s.handlerWorkReceived then
    [ClientCall.onWorkReceived { s.m_current with header := 0 }] else []) ++
  (if s.handlerPoWEnd then [ClientCall.onPoWEnd] else [])

/-- A sample client in ZIL mode outside the window with a getWork request
pending. -/
def sampleOutWindow : GetworkClient :=
  { sampleClient with m_pendingJReq := some getWorkRequest }

/-- A sample reply opening the window without work: empty header, no seed,
`powRunning = true`. -/
def sampleReplyStart : Response :=
  { id := some 0
    errorEmpty := true
    result := some ⟨⟨0, false, 0, 0, true, 0⟩, false, false⟩ }

/-- A sample reply without work reporting the window over (`powRunning = false`,
100 seconds to the next window). -/
def sampleReplyEnd : Response :=
  { id := some 0
    errorEmpty := true
    result := some ⟨⟨5, true, 7, 5, false, 100⟩, false, false⟩ }

/-- A sample client in default mode whose pending request is the submission of
the sample solution (id 43), with `solutionSubmittedMaxId = 43`. -/
def samplePendingSubmit : GetworkClient :=
  { sampleDefault with
      m_pendingJReq := some (submitWorkRequest sampleDefault sampleSolution)
      m_solution_submitted_max_id := 43 }

/-- A sample reply to a submission: `result = true`. -/
def sampleReplyAccepted : Response :=
  { id := some 0
    errorEmpty := true
    result := some ⟨⟨0, false, 0, 0, false, 0⟩, true, true⟩ }

/-- The sample solution with the dummy header. -/
def sampleDummySolution : Solution :=
  ⟨99, 77, ⟨dummyHeader, 7, 5, "", -1, 0, 0⟩, 3⟩


/-! ### The getwork timer and the hash-rate report -/

/-- `EthGetworkClient::getwork_timer_elapsed`. -/
def getwork_timer_elapsed (s : GetworkClient) (ec : ErrorCode) : GetworkClient :=
  if ec = ErrorCode.success then
    if (elapsedSeconds s : Int) > s.m_worktimeout then disconnect (popEndpoint s)
    else send s getWorkRequest
  else s

/-- The `eth_submitHashrate` request `submitHashrate` composes; the first
parameter is `toHex(rate, HexPrefix::Add)`. -/
def submitHashrateRequest (s : GetworkClient) (rate : Nat) (id : String) : Request :=
  { id := 9
    method := "eth_submitHashrate"
    params :=
      [Param.hex rate] ++
      (if s.zilMode then [Param.str s.m_conn.User, Param.str s.m_conn.Workername]
       else [Param.str id]) }

/-- `EthGetworkClient::submitHashrate`. -/
def submitHashrate (s : GetworkClient) (rate : Nat) (id : String) : GetworkClient :=
  if s.zilMode && !s.m_zil_pow_running then s
  else
    match s.m_session with
    | some _ => send s (submitHashrateRequest s rate id)
    | none => s

/-- A sample client in default mode whose last work is 200 seconds old (the
work timeout is 180 seconds), endpoints `[1, 2]`. -/
def sampleStalled : GetworkClient :=
  { sampleDefault with now := 200 * ticksPerSecond + 50 }

/-- A sample client in default mode between two polls: no request in flight,
last work 2 seconds old. -/
def sampleIdle : GetworkClient :=
  { sampleDefault with now := 2 * ticksPerSecond + 50, m_txPending := false }

/-- A sample client in ZIL mode inside a running PoW window whose last work is
400 seconds old (the end-of-window timeout is 300 seconds); the current package
is empty with boundary 5. -/
def sampleTimedOut : GetworkClient :=
  { sampleClient with
      now := 400 * ticksPerSecond + 50
      m_zil_pow_running := true
      m_pendingJReq := some getWorkRequest }

/-- A sample reply without work (header 0, boundary 5) reporting the PoW as
running, 0 seconds to the next one. -/
def sampleReplyNoWork : Response :=
  { id := some 0
    errorEmpty := true
    result := some ⟨⟨0, true, 7, 5, true, 0⟩, false, false⟩ }

/-- A sample client in ZIL mode inside a running PoW window polling every 2000
milliseconds. -/
def sampleSlowPoll : GetworkClient :=
  { sampleInWindow with m_farmRecheckPeriod := 2000 }

/-- A sample reply reporting the PoW over, the next one in 4294968 seconds
(`4294968 * 1000` is `2 ^ 32 + 704`). -/
def sampleReplyFar : Response :=
  { id := some 0
    errorEmpty := true
    result := some ⟨⟨9, true, 7, 5, false, 4294968⟩, false, false⟩ }

/-! ### Sample responses for the read loop -/

/-- The text of a JSON-RPC error reply, `\x7b"id":0,"error":"busy"\x7d`. -/
def sampleErrorDoc : List Char := "\x7b\"id\":0,\"error\":\"busy\"\x7d".toList

/-- The same reply written on two lines separated by CRLF; without the line
feed it reads `\x7b"id":0,` CR `"error":"busy"\x7d`, a valid JSON text. -/
def sampleSplitDoc : List Char := "\x7b\"id\":0,\r\"error\":\"busy\"\x7d".toList

/-- A stand-in for `Json::Reader::parse` on the sample documents: the error
reply, on one line or split by a carriage return, parses to a document with an
`id` member and a non-empty `error` member; every other text used in the
samples is invalid JSON. -/
def parseSample (l : List Char) : Option Response :=
  if l = sampleErrorDoc ∨ l = sampleSplitDoc then some ⟨some 0, false, none⟩ else none

/-- The text of header lines, each followed by the line delimiter. -/
def linesText (lines : List (List Char)) : List Char :=
  (lines.map fun h => h ++ linedelimiter).flatten

/-- The documents handed to the JSON parser, in order, for a text made of the
chunks `chunks`, each ended by CRLF, followed by `tail` (chunks and tail hold no
CRLF): every non-empty chunk is a document; an empty chunk is skipped when
another chunk follows, and when it is the last one the tail, line feeds
removed, is a document; after a last chunk that is not empty the tail is
ignored. -/
def bodyDocuments : List (List Char) → List Char → List (List Char)
  | [], _ => []
  | c :: cs, tail =>
    if c = [] then
      if cs = [] then [tail.filter (· ≠ '\n')] else bodyDocuments cs tail
    else c :: bodyDocuments cs tail

/-! ### Sequences of responses -/

/-- The PoW window events among the calls, in order: `true` for `onPoWStart`,
`false` for `onPoWEnd`. -/
def powEvents (l : List ClientCall) : List Bool :=
  l.filterMap fun c =>
    match c with
    | ClientCall.onPoWStart => some true
    | ClientCall.onPoWEnd => some false
    | _ => none

/-- Follow a list of window events from the window state `running`: a start is
admitted only when the window is closed and opens it, an end only when it is
open and closes it. The result is the final window state, `none` when an event
is not admitted (the events do not alternate). -/
def followWindow : Bool → List Bool → Option Bool
  | running, [] => some running
  | running, e :: es => if e = running then none else followWindow e es

/-- One response in the life of the client: the clock reading when it is
processed, the request in flight it answers, and the parsed reply. -/
structure Arrival where
  now : Nat
  pending : Option Request
  reply : Response

/-- The processing of one response. -/
def receive (s : GetworkClient) (a : Arrival) : GetworkClient :=
  processResponse { s with now := a.now, m_pendingJReq := a.pending } a.reply

/-- The processing of a sequence of responses, first response first. -/
def receiveAll (s : GetworkClient) (arrivals : List Arrival) : GetworkClient :=
  arrivals.foldl receive s

/-- A sample sequence of getWork responses: the window opens, a package
arrives in a reply reporting the PoW over, a further reply comes outside the
window, and the window opens again. -/
def sampleArrivals : List Arrival :=
  [⟨100, some getWorkRequest, sampleReplyStart⟩,
   ⟨200, some getWorkRequest, sampleReply⟩,
   ⟨300, some getWorkRequest, sampleReplyEnd⟩,
   ⟨400, some getWorkRequest, sampleReplyStart⟩]
end GetworkClient

namespace PoolManager

/-- A sample state whose current package has the boundary `0x00000000ffff`
followed by 52 zero digits. -/
def sampleDiff1 : PoolManager :=
  { init 3 0 0 with m_currentWp := ⟨1, 7, 0xffff * 2 ^ 208, "", -1, 0, 0⟩ }

/-- `PoolManager::clearConnections`. -/
def clearConnections (s : PoolManager) : PoolManager :=
  let s1 := { s with m_connections := [] }
  if s1.clientConnected then { s1 with trace := s1.trace ++ [Call.clientDisconnect] }
  else s1

/-- `PoolManager::failovertimer_elapsed`. -/
def failovertimer_elapsed (s : PoolManager) (ec : ErrorCode) : PoolManager :=
  if ec = ErrorCode.success then
    if s.m_running then
      if s.m_activeConnectionIdx ≠ 0 then
        { s with
            m_activeConnectionIdx := 0
            m_connectionAttempt := 0
            m_connectionSwitches := (s.m_connectionSwitches + 1) % UINT_MOD
            trace := s.trace ++ [Call.clientDisconnect] }
      else s
    else s
  else s

/-- `PoolManager::stop`, up to the wait for the asynchronous shutdown (the loop
polling `m_running`, which the `onDisconnected` handler clears). -/
def stop (s : PoolManager) : PoolManager :=
  if s.m_running then
    let s1 := { s with m_stopping := true }
    if s1.clientConnected then { s1 with trace := s1.trace ++ [Call.clientDisconnect] }
    else
      let s2 := { s1 with trace := s1.trace ++
                    [Call.failoverTimerCancel, Call.submithrTimerCancel] }
      if s2.farmMining then
        { s2 with farmMining := false, trace := s2.trace ++ [Call.farmStop] }
      else s2
  else s

/-- The start of the miners according to `m_minerType`. -/
def startMiners (s : PoolManager) : PoolManager :=
  match s.m_minerType with
  | MinerType.CL =>
    { s with farmMining := true, trace := s.trace ++ [Call.farmStart "opencl" false] }
  | MinerType.CUDA =>
    { s with farmMining := true, trace := s.trace ++ [Call.farmStart "cuda" false] }
  | MinerType.Mixed =>
    { s with
        farmMining := true
        trace := s.trace ++ [Call.farmStart "cuda" false, Call.farmStart "opencl" true] }

/-- The `onConnected` handler installed by the constructor. `activeEndPoint` is
`p_client->ActiveEndPoint()` and `paused` is `Farm::f().paused()`. -/
def onConnected (s : PoolManager) (activeEndPoint : String) (paused : Bool) : PoolManager :=
  let s1 := { s with
                m_selectedHost := s.m_selectedHost ++ activeEndPoint
                m_currentWp := { s.m_currentWp with job := "" } }
  let s2 :=
    if s1.m_ergodicity = 1 then { s1 with trace := s1.trace ++ [Call.farmShuffle] } else s1
  let s3 :=
    if s2.m_activeConnectionIdx ≠ 0 ∧ s2.m_failoverTimeout > 0 then
      { s2 with trace := s2.trace ++ [Call.failoverTimerArm s2.m_failoverTimeout] }
    else { s2 with trace := s2.trace ++ [Call.failoverTimerCancel] }
  let s4 :=
    if !s3.farmMining then startMiners s3
    else if paused then { s3 with trace := s3.trace ++ [Call.farmResume] }
    else s3
  { s4 with trace := s4.trace ++ [Call.submithrTimerArm s4.m_hrReportingInterval] }

/-- The hexadecimal digit of a value below 16, in lower case. -/
def hexDigit (n : Nat) : Char :=
  if n < 10 then Char.ofNat (48 + n) else Char.ofNat (87 + n)

/-- The number of bytes of a value, as counted by the loop of
`toCompactBigEndian` (`fuel` bounds the iterations: 8 for a 64-bit value). -/
def byteLength : Nat → Nat → Nat
  | 0, _ => 0
  | fuel + 1, v => if v = 0 then 0 else byteLength fuel (v / 256) + 1

/-- Modelled from the spec: `toCompactBigEndian(value, min)` of the core library,
the big-endian bytes of a 64-bit value without leading zero bytes, at least
`min` bytes. -/
def toCompactBigEndian (v min : Nat) : List Nat :=
  (List.range (max min (byteLength 8 v))).reverse.map fun i => (v / 256 ^ i) % 256

/-- Modelled from the spec: `toHex(bytes)` of the core library, two lower-case
hexadecimal digits per byte. -/
def toHex (bytes : List Nat) : List Char :=
  (bytes.map fun b => [hexDigit (b / 16), hexDigit (b % 16)]).flatten

/-- The string `submithrtimer_elapsed` passes to `client.submitHashrate` for the
hash rate `rate` (a 64-bit value): the compact hex without a leading zero digit,
padded on the left with zeros to 64 characters, after `0x`. -/
def hashrateHex (rate : Nat) : String :=
  let h := toHex (toCompactBigEndian rate 1)
  let res := if h.head? ≠ some '0' then h else h.drop 1
  "0x" ++ String.mk (List.replicate (64 - res.length) '0' ++ res)

/-- `PoolManager::submithrtimer_elapsed`; `hashRate` is
`uint64_t(Farm::f().miningProgress().hashRate)`. -/
def submithrtimer_elapsed (s : PoolManager) (ec : ErrorCode) (hashRate : Nat) :
    PoolManager :=
  if ec = ErrorCode.success then
    if s.m_running && s.clientConnected then
      { s with trace := s.trace ++
          [Call.clientSubmitHashrate (hashrateHex hashRate),
           Call.submithrTimerArm s.m_hrReportingInterval] }
    else s
  else s

/-- The operations of `PoolManager`: its public interface, its timers, and the
handlers of the client's events. -/
inductive PMOp
  | addConnection (conn : URI)
  | removeConnection (idx : Nat)
  | clearConnections
  | setActiveConnection (idx : Nat)
  | start
  | stop
  | rotateConnect
  | failoverTimer (ec : ErrorCode)
  | submithrTimer (ec : ErrorCode) (hashRate : Nat)
  | onConnected (activeEndPoint : String) (paused : Bool)
  | onDisconnected
  | onWorkReceived (wp : WorkPackage)
  deriving DecidableEq

/-- The state after one operation (the state reached, also when the operation
leaves through an exception). -/
def stepOp (findEpoch : Nat → Int) (s : PoolManager) : PMOp → PoolManager
  | PMOp.addConnection conn => addConnection s conn
  | PMOp.removeConnection idx => (removeConnection s idx).2
  | PMOp.clearConnections => clearConnections s
  | PMOp.setActiveConnection idx => (setActiveConnection s idx).2
  | PMOp.start => start s
  | PMOp.stop => stop s
  | PMOp.rotateConnect => (rotateConnect s).state
  | PMOp.failoverTimer ec => failovertimer_elapsed s ec
  | PMOp.submithrTimer ec hashRate => submithrtimer_elapsed s ec hashRate
  | PMOp.onConnected activeEndPoint paused => onConnected s activeEndPoint paused
  | PMOp.onDisconnected => onDisconnected s
  | PMOp.onWorkReceived wp => (onWorkReceived findEpoch s wp).state

/-- A sample state: running on the backup pool `b` (index 1) of `[a, b]`. -/
def sampleOnBackup : PoolManager :=
  { init 2 1 0 with
      m_connections := [sampleURI "a", sampleURI "b"]
      m_activeConnectionIdx := 1
      m_running := true
      clientConnected := true }


/-- A finite sequence of operations, first operation first. -/
def runOps (findEpoch : Nat → Int) (s : PoolManager) (ops : List PMOp) : PoolManager :=
  ops.foldl (stepOp findEpoch) s

/-- The sequence `addConnection(a)`, `addConnection(b)`, `setActiveConnection(1)`,
`clearConnections()`, `addConnection(c)`. -/
def opsClearThenAdd : List PMOp :=
  [PMOp.addConnection (sampleURI "a"), PMOp.addConnection (sampleURI "b"),
   PMOp.setActiveConnection 1, PMOp.clearConnections, PMOp.addConnection (sampleURI "c")]

/-- A sample package with a zero boundary: header 3, seed 7, boundary 0. -/
def sampleWpZeroBoundary : WorkPackage := ⟨3, 7, 0, "", 60000, 0, 0⟩

/-- The hexadecimal digits in lower case, by value. -/
def hexDigits : List Char := "0123456789abcdef".toList

/-- The value of a hexadecimal digit in lower case (16 for any other
character). -/
def hexDigitValue (c : Char) : Nat := hexDigits.indexOf c

/-- The value of a string of hexadecimal digits, most significant digit first. -/
def hexValue (l : List Char) : Nat :=
  l.foldl (fun acc c => 16 * acc + hexDigitValue c) 0
end PoolManager

end ZILMiner

/-! ## Theorems -/

namespace ZILMiner

namespace PoolManager

theorem rotateTerminate_fields (s : PoolManager) :
    (rotateTerminate s).m_connections = s.m_connections ∧
    (rotateTerminate s).m_activeConnectionIdx = s.m_activeConnectionIdx ∧
    (rotateTerminate s).m_connectionAttempt = s.m_connectionAttempt ∧
    (rotateTerminate s).m_connectionSwitches = s.m_connectionSwitches ∧
    (rotateTerminate s).m_running = false ∧
    (rotateTerminate s).farmMining = false ∧
    (rotateTerminate s).trace =
      s.trace ++ (if s.farmMining then [Call.farmStop] else []) ++ [Call.raiseSIGTERM] := by
  unfold rotateTerminate
  cases h : s.farmMining <;> simp [h]

theorem rotateSelect_fields (s : PoolManager) :
    (rotateSelect s).state.m_connections = s.m_connections ∧
    (rotateSelect s).state.m_activeConnectionIdx = s.m_activeConnectionIdx ∧
    (rotateSelect s).state.m_connectionSwitches = s.m_connectionSwitches := by
  unfold rotateSelect
  split
  · simp [rotateTerminate_fields]
  · split
    · simp
    · split <;> simp [rotateTerminate_fields]

theorem rotateSelect_empty (s : PoolManager) (h : s.m_connections = []) :
    rotateSelect s = ⟨rotateTerminate s, none⟩ := by
  simp [rotateSelect, h]

theorem rotateSelect_exit (s : PoolManager) (v : URI)
    (hv : s.m_connections[s.m_activeConnectionIdx]? = some v) (hh : v.Host = "exit") :
    rotateSelect s = ⟨rotateTerminate s, none⟩ := by
  unfold rotateSelect
  split
  · rfl
  · simp [hv, hh]

theorem rotateSelect_connect (s : PoolManager) (v : URI)
    (hv : s.m_connections[s.m_activeConnectionIdx]? = some v) (hh : v.Host ≠ "exit") :
    rotateSelect s =
      ⟨{ s with
           m_connectionAttempt := (s.m_connectionAttempt + 1) % UINT_MOD
           m_selectedHost := v.Host ++ ":" ++ toString v.Port
           trace := s.trace ++ [Call.clientSetConnection v, Call.clientConnect] },
        none⟩ := by
  have hne : s.m_connections ≠ [] := by
    intro e
    simp [e] at hv
  unfold rotateSelect
  simp [hne, hv, hh]

theorem normalizeIdx_lt (s : PoolManager) (h : s.m_connections ≠ []) :
    (normalizeIdx s).m_activeConnectionIdx < s.m_connections.length := by
  have : 0 < s.m_connections.length := List.length_pos.mpr h
  unfold normalizeIdx
  split
  · simpa using this
  · omega

theorem normalizeIdx_connections (s : PoolManager) :
    (normalizeIdx s).m_connections = s.m_connections := by
  unfold normalizeIdx
  split <;> rfl


theorem applyOp_IdxOk (s : PoolManager) (op : Op) (h : IdxOk s) : IdxOk (applyOp s op) := by
  unfold IdxOk at *
  cases op with
  | add conn =>
    simp only [applyOp, addConnection, List.length_append, List.length_singleton]
    left
    rcases h with h | ⟨h1, h2⟩
    · omega
    · omega
  | remove idx =>
    simp only [applyOp, removeConnection]
    by_cases h1 : idx ≥ s.m_connections.length
    · simp only [h1, if_true]; exact h
    · by_cases h2 : idx = s.m_activeConnectionIdx
      · rw [if_neg h1, if_pos h2]; exact h
      · have hlen : s.m_connections.length ≠ 0 := by omega
        have hne : s.m_connections ≠ [] := fun e => hlen (by simp [e])
        have hlt : s.m_activeConnectionIdx < s.m_connections.length := by
          rcases h with h | ⟨h, _⟩
          · exact h
          · exact absurd h hne
        simp only [h1, h2, if_false]
        left
        by_cases h3 : s.m_activeConnectionIdx > idx
        · simp only [h3, if_true, List.length_eraseIdx]
          split <;> omega
        · simp only [h3, if_false, List.length_eraseIdx]
          split <;> omega
  | setActive idx =>
    simp only [applyOp, setActiveConnection]
    by_cases h1 : idx ≥ s.m_connections.length
    · simp only [h1, if_true]; exact h
    · by_cases h2 : idx = s.m_activeConnectionIdx
      · rw [if_neg h1, if_pos h2]; exact h
      · rw [if_neg h1, if_neg h2]
        left
        show idx < s.m_connections.length
        omega

theorem applyOps_IdxOk (ops : List Op) (s : PoolManager) (h : IdxOk s) :
    IdxOk (applyOps s ops) := by
  induction ops generalizing s with
  | nil => exact h
  | cons op rest ih => exact ih (applyOp s op) (applyOp_IdxOk s op h)

/-- C2: `removeConnection idx` returns -1 when `idx` is out of range, -2 when it
is in range and is the active index, 0 otherwise; on -1 and -2 the state (list,
active index, attempts included) is unchanged; on 0 the list lost exactly the
element at `idx`, the elements before it keep their position, those after it
move down by one, and attempts is unchanged. -/
theorem removeConnection_result (s : PoolManager) (idx : Nat) :
    (idx ≥ s.m_connections.length → removeConnection s idx = (-1, s)) ∧
    (idx < s.m_connections.length → idx = s.m_activeConnectionIdx →
      removeConnection s idx = (-2, s)) ∧
    (idx < s.m_connections.length → idx ≠ s.m_activeConnectionIdx →
      (removeConnection s idx).1 = 0 ∧
      (removeConnection s idx).2.m_connections.length + 1 = s.m_connections.length ∧
      (∀ j, j < idx →
        (removeConnection s idx).2.m_connections[j]? = s.m_connections[j]?) ∧
      (∀ j, idx ≤ j →
        (removeConnection s idx).2.m_connections[j]? = s.m_connections[j + 1]?) ∧
      (removeConnection s idx).2.m_connectionAttempt = s.m_connectionAttempt) := by
  refine ⟨?_, ?_, ?_⟩
  · intro h
    simp [removeConnection, h]
  · intro h1 h2
    have : ¬ (s.m_connections.length ≤ s.m_activeConnectionIdx) := by omega
    simp [removeConnection, ← h2, Nat.not_le.mpr h1]
  · intro h1 h2
    have hn : ¬ (idx ≥ s.m_connections.length) := by omega
    have hl : (removeConnection s idx).2.m_connections = s.m_connections.eraseIdx idx := by
      simp only [removeConnection, hn, h2, if_false]
      split <;> rfl
    refine ⟨?_, ?_, ?_, ?_, ?_⟩
    · simp only [removeConnection, hn, h2, if_false]
    · rw [hl, List.length_eraseIdx]
      simp only [h1, if_true]
      omega
    · intro j hj
      rw [hl, List.getElem?_eraseIdx]
      simp [hj]
    · intro j hj
      rw [hl, List.getElem?_eraseIdx]
      simp [Nat.not_lt.mpr hj]
    · simp only [removeConnection, hn, h2, if_false]
      split <;> rfl

/-- Instance on the sample state with three pools: index 7 is out of range, index
1 is the active one, index 0 is removed. -/
theorem removeConnection_result_witness :
    removeConnection sample3 7 = (-1, sample3) ∧
    removeConnection sample3 1 = (-2, sample3) ∧
    (removeConnection sample3 0).1 = 0 ∧
    (removeConnection sample3 0).2.m_connections = [sampleURI "b", sampleURI "c"] :=
  ⟨(removeConnection_result sample3 7).1 (by decide),
   (removeConnection_result sample3 1).2.1 (by decide) (by decide),
   ((removeConnection_result sample3 0).2.2 (by decide) (by decide)).1,
   by decide⟩

/-- C3: from the initial state (empty list, active index 0), after every finite
sequence of `addConnection`, `removeConnection` and `setActiveConnection` calls
with arbitrary arguments, the active index is below the list size whenever the
list is non-empty. -/
theorem activeIdx_in_range_after_ops (maxTries failoverTimeout ergodicity : Nat)
    (ops : List Op)
    (hne : (applyOps (init maxTries failoverTimeout ergodicity) ops).m_connections ≠ []) :
    (applyOps (init maxTries failoverTimeout ergodicity) ops).m_activeConnectionIdx <
      (applyOps (init maxTries failoverTimeout ergodicity) ops).m_connections.length := by
  have h0 : IdxOk (init maxTries failoverTimeout ergodicity) := Or.inr ⟨rfl, rfl⟩
  rcases applyOps_IdxOk ops _ h0 with h | ⟨h, _⟩
  · exact h
  · exact absurd h hne

/-- Instance on a sequence of six calls that ends with a non-empty list. -/
theorem activeIdx_in_range_after_ops_witness :
    (applyOps (init 3 0 0)
      [Op.add (sampleURI "a"), Op.add (sampleURI "b"), Op.setActive 1, Op.remove 0,
       Op.remove 0, Op.setActive 5]).m_activeConnectionIdx <
    (applyOps (init 3 0 0)
      [Op.add (sampleURI "a"), Op.add (sampleURI "b"), Op.setActive 1, Op.remove 0,
       Op.remove 0, Op.setActive 5]).m_connections.length :=
  activeIdx_in_range_after_ops 3 0 0 _ (by decide)

theorem rotateConnect_empty_raises (s : PoolManager) (hc : s.clientConnected = false)
    (he : s.m_connections = []) :
    rotateConnect s = ⟨{ s with m_activeConnectionIdx := 0 }, some Exn.outOfRange⟩ := by
  simp [rotateConnect, hc, normalizeIdx, he]

/-- C1 (evaluation at the failing input): `start()` on a manager without any
connection posts `rotateConnect`, which enters with an empty list and leaves
through `std::out_of_range` at `m_connections.at(m_activeConnectionIdx)`:
`m_running` stays set and neither `Farm::stop` nor SIGTERM is reached. -/
theorem rotateConnect_empty_on_entry :
    (rotateConnect (start (init 3 0 0))).raised = some Exn.outOfRange ∧
    (rotateConnect (start (init 3 0 0))).state.m_running = true ∧
    Call.raiseSIGTERM ∉ (rotateConnect (start (init 3 0 0))).state.trace := by
  decide

theorem rotateExhausted_idx (s : PoolManager) (h2 : 2 ≤ s.m_connections.length)
    (hsz : s.m_connections.length ≤ UINT_MOD)
    (hi : s.m_activeConnectionIdx < s.m_connections.length) :
    rotateExhausted s =
      { s with
          m_connectionAttempt := 0
          m_activeConnectionIdx := (s.m_activeConnectionIdx + 1) % s.m_connections.length
          m_connectionSwitches := (s.m_connectionSwitches + 1) % UINT_MOD } := by
  have h1 : s.m_connections.length ≠ 1 := by omega
  have hidx : (if (s.m_activeConnectionIdx + 1) % UINT_MOD ≥ s.m_connections.length then 0
      else (s.m_activeConnectionIdx + 1) % UINT_MOD) =
      (s.m_activeConnectionIdx + 1) % s.m_connections.length := by
    by_cases hlt : s.m_activeConnectionIdx + 1 < s.m_connections.length
    · have hm : (s.m_activeConnectionIdx + 1) % UINT_MOD = s.m_activeConnectionIdx + 1 :=
        Nat.mod_eq_of_lt (by omega)
      rw [hm, if_neg (by omega), Nat.mod_eq_of_lt hlt]
    · have he : s.m_activeConnectionIdx + 1 = s.m_connections.length := by omega
      rw [he, Nat.mod_self]
      by_cases hfull : s.m_connections.length = UINT_MOD
      · rw [hfull, Nat.mod_self, if_neg (by simp [UINT_MOD])]
      · rw [Nat.mod_eq_of_lt (by omega), if_pos (le_refl _)]
  unfold rotateExhausted normalizeIdx
  simp only [h1, if_false]
  by_cases hge : (s.m_activeConnectionIdx + 1) % UINT_MOD ≥ s.m_connections.length
  · rw [if_pos hge] at hidx
    simp only [hge, if_true, ← hidx]
  · rw [if_neg hge] at hidx
    simp only [hge, if_false, ← hidx]


theorem rotateConnect_exhausted (s : PoolManager) (u : URI)
    (hc : s.clientConnected = false)
    (hu : s.m_connections[(normalizeIdx s).m_activeConnectionIdx]? = some u)
    (hr : u.IsUnrecoverable = false)
    (ha : s.m_connectionAttempt ≥ s.m_maxConnectionAttempts) :
    rotateConnect s = rotateSelect (rotateExhausted (normalizeIdx s)) := by
  have hu1 : (normalizeIdx s).m_connections[(normalizeIdx s).m_activeConnectionIdx]? = some u := by
    rw [normalizeIdx_connections]; exact hu
  have ha1 : (normalizeIdx s).m_connectionAttempt ≥ (normalizeIdx s).m_maxConnectionAttempts := by
    unfold normalizeIdx; split <;> exact ha
  unfold rotateConnect
  simp only [hc, Bool.false_eq_true, if_false, hu1, hr, ha1, if_true]

/-- C8: with the client not connected, at least two connections (a list the
32-bit index can address), the current URI (after index normalization) not
unrecoverable and `attempts ≥ maxTries`, `rotateConnect` returns normally, keeps
the list, sets the active index to (normalized index + 1) mod size, adds one to
`connectionSwitches` (as an `unsigned`), and resets attempts before counting the
connect to the newly selected URI: attempts ends at 1 with `setConnection` and
`connect` issued for that URI, or at 0 with no connect when its host is "exit".
In particular, for pools `[a, b]` with `maxTries = 2` and `a` (a connectable,
recoverable pool) failing twice after `start()`, `connectionSwitches` went from
0 to 2, index 1 (`b`) is active and attempts was reset (it counts only the
connect to `b`). -/
theorem rotateConnect_rotates (s : PoolManager) (u : URI)
    (hc : s.clientConnected = false)
    (h2 : 2 ≤ s.m_connections.length)
    (hsz : s.m_connections.length ≤ UINT_MOD)
    (hu : s.m_connections[(normalizeIdx s).m_activeConnectionIdx]? = some u)
    (hr : u.IsUnrecoverable = false)
    (ha : s.m_connectionAttempt ≥ s.m_maxConnectionAttempts) :
    ((rotateConnect s).raised = none ∧
     (rotateConnect s).state.m_connections = s.m_connections ∧
     (rotateConnect s).state.m_activeConnectionIdx =
       ((normalizeIdx s).m_activeConnectionIdx + 1) % s.m_connections.length ∧
     (rotateConnect s).state.m_connectionSwitches = (s.m_connectionSwitches + 1) % UINT_MOD ∧
     (s.m_connectionSwitches + 1 < UINT_MOD →
       (rotateConnect s).state.m_connectionSwitches = s.m_connectionSwitches + 1) ∧
     ∃ v, s.m_connections[((normalizeIdx s).m_activeConnectionIdx + 1) %
            s.m_connections.length]? = some v ∧
       (v.Host ≠ "exit" →
         (rotateConnect s).state.m_connectionAttempt = 1 ∧
         (rotateConnect s).state.trace =
           s.trace ++ [Call.clientSetConnection v, Call.clientConnect]) ∧
       (v.Host = "exit" →
         (rotateConnect s).state.m_connectionAttempt = 0 ∧
         Call.clientConnect ∉ (rotateConnect s).state.trace.drop s.trace.length)) ∧
    (∀ a b : URI, a.Host ≠ "exit" → a.IsUnrecoverable = false →
      (scenarioRotation a b).raised = none ∧
      (scenarioRotation a b).state.m_connectionSwitches = 2 ∧
      (scenarioRotation a b).state.m_activeConnectionIdx = 1 ∧
      (scenarioRotation a b).state.m_connections = [a, b] ∧
      (scenarioRotation a b).state.m_connectionAttempt =
        (if b.Host ≠ "exit" then 1 else 0)) := by
  have hne : s.m_connections ≠ [] := by
    intro e; simp [e] at h2
  have hlen : 0 < s.m_connections.length := by omega
  have hi := normalizeIdx_lt s hne
  have hcn := normalizeIdx_connections s
  have hE := rotateExhausted_idx (normalizeIdx s) (by rw [hcn]; exact h2)
    (by rw [hcn]; exact hsz) (by rw [hcn]; exact hi)
  have hR := rotateConnect_exhausted s u hc hu hr ha
  rw [hcn] at hE
  have hcs : (normalizeIdx s).m_connectionSwitches = s.m_connectionSwitches := by
    unfold normalizeIdx; split <;> rfl
  have htr : (normalizeIdx s).trace = s.trace := by
    unfold normalizeIdx; split <;> rfl
  have hj : ((normalizeIdx s).m_activeConnectionIdx + 1) % s.m_connections.length <
      s.m_connections.length := Nat.mod_lt _ hlen
  obtain ⟨hf1, hf2, hf3⟩ := rotateSelect_fields (rotateExhausted (normalizeIdx s))
  refine ⟨⟨?_, ?_, ?_, ?_, ?_, ?_⟩, ?_⟩
  · rw [hR]
    unfold rotateSelect
    split
    · rfl
    · split
      · rename_i hnone
        rw [hE] at hnone
        simp only [hcn] at hnone
        rw [List.getElem?_eq_none_iff] at hnone
        omega
      · split <;> rfl
  · rw [hR, hf1, hE]
  · rw [hR, hf2, hE]
  · rw [hR, hf3, hE, hcs]
  · intro hlt
    rw [hR, hf3, hE, hcs]
    exact Nat.mod_eq_of_lt hlt
  · refine ⟨s.m_connections[((normalizeIdx s).m_activeConnectionIdx + 1) %
      s.m_connections.length], List.getElem?_eq_getElem hj, ?_, ?_⟩
    · intro hh
      rw [hR, rotateSelect_connect _ _ (by rw [hE]; simp only [hcn]; exact List.getElem?_eq_getElem hj) hh]
      rw [hE]
      simp [htr, UINT_MOD]
    · intro hh
      rw [hR, rotateSelect_exit _ _ (by rw [hE]; simp only [hcn]; exact List.getElem?_eq_getElem hj) hh]
      obtain ⟨_, _, t3, _, _, _, t7⟩ := rotateTerminate_fields (rotateExhausted (normalizeIdx s))
      refine ⟨?_, ?_⟩
      · rw [t3, hE]
      · rw [t7, hE]
        simp only [htr, List.append_assoc, List.drop_left]
        split <;> simp
  · intro a b ha1 ha2
    by_cases hb : b.Host = "exit"
    · simp [scenarioRotation, rotateConnect, rotateSelect, rotateExhausted, rotateDiscard,
        rotateTerminate, normalizeIdx, onDisconnected, start, addConnection, init, ha1, ha2,
        hb, UINT_MOD]
    · simp [scenarioRotation, rotateConnect, rotateSelect, rotateExhausted, rotateDiscard,
        rotateTerminate, normalizeIdx, onDisconnected, start, addConnection, init, ha1, ha2,
        hb, UINT_MOD]

/-- Instance on the sample state with pools `a`, `b` after two attempts on `a`,
and on the scenario run with these two pools. -/
theorem rotateConnect_rotates_witness :
    (rotateConnect sampleAB).raised = none ∧
    (rotateConnect sampleAB).state.m_connections = sampleAB.m_connections ∧
    (rotateConnect sampleAB).state.m_activeConnectionIdx = 1 ∧
    (rotateConnect sampleAB).state.m_connectionSwitches = 1 ∧
    (scenarioRotation (sampleURI "a") (sampleURI "b")).state.m_connectionSwitches = 2 :=
  have h := rotateConnect_rotates sampleAB (sampleURI "a") rfl (by decide) (by decide)
    (by decide) rfl (by decide)
  ⟨h.1.1, h.1.2.1, h.1.2.2.1, h.1.2.2.2.1,
   (h.2 (sampleURI "a") (sampleURI "b") (by decide) rfl).2.1⟩


theorem rotateDiscard_eq (s : PoolManager) :
    rotateDiscard s =
      { s with
          m_connections := s.m_connections.eraseIdx s.m_activeConnectionIdx
          m_connectionAttempt := 0
          m_activeConnectionIdx :=
            (if s.m_activeConnectionIdx <
                (s.m_connections.eraseIdx s.m_activeConnectionIdx).length then
              s.m_activeConnectionIdx else 0)
          m_connectionSwitches := (s.m_connectionSwitches + 1) % UINT_MOD } := by
  unfold rotateDiscard normalizeIdx
  by_cases h : s.m_activeConnectionIdx <
      (s.m_connections.eraseIdx s.m_activeConnectionIdx).length
  · simp only [ge_iff_le, Nat.not_le.mpr h, if_false, h, if_true]
  · simp only [ge_iff_le, Nat.not_lt.mp h, if_true, h, if_false]

theorem rotateConnect_unrecoverable (s : PoolManager) (u : URI)
    (hc : s.clientConnected = false)
    (hu : s.m_connections[(normalizeIdx s).m_activeConnectionIdx]? = some u)
    (hr : u.IsUnrecoverable = true) :
    rotateConnect s = rotateSelect (rotateDiscard (normalizeIdx s)) := by
  have hu1 : (normalizeIdx s).m_connections[(normalizeIdx s).m_activeConnectionIdx]? = some u := by
    rw [normalizeIdx_connections]; exact hu
  unfold rotateConnect
  simp only [hc, Bool.false_eq_true, if_false, hu1, hr, if_true]

/-- C10: with the client not connected and the current URI (after index
normalization) marked unrecoverable, `rotateConnect` returns normally, removes
exactly that URI (the entries before it keep their position, those after it move
down by one), re-normalizes the active index (kept when still in range, 0
otherwise), adds one to `connectionSwitches` (as an `unsigned`), and sets
attempts to 0 before counting a new attempt: attempts ends at 1 when a connect
is issued to the newly selected URI, and at 0 when none is (list now empty, or
host "exit"). -/
theorem rotateConnect_discards (s : PoolManager) (u : URI)
    (hc : s.clientConnected = false)
    (hu : s.m_connections[(normalizeIdx s).m_activeConnectionIdx]? = some u)
    (hr : u.IsUnrecoverable = true) :
    (rotateConnect s).raised = none ∧
    (rotateConnect s).state.m_connections.length + 1 = s.m_connections.length ∧
    (∀ j, j < (normalizeIdx s).m_activeConnectionIdx →
      (rotateConnect s).state.m_connections[j]? = s.m_connections[j]?) ∧
    (∀ j, (normalizeIdx s).m_activeConnectionIdx ≤ j →
      (rotateConnect s).state.m_connections[j]? = s.m_connections[j + 1]?) ∧
    (rotateConnect s).state.m_activeConnectionIdx =
      (if (normalizeIdx s).m_activeConnectionIdx <
          (rotateConnect s).state.m_connections.length then
        (normalizeIdx s).m_activeConnectionIdx else 0) ∧
    (rotateConnect s).state.m_connectionSwitches = (s.m_connectionSwitches + 1) % UINT_MOD ∧
    (s.m_connectionSwitches + 1 < UINT_MOD →
      (rotateConnect s).state.m_connectionSwitches = s.m_connectionSwitches + 1) ∧
    ((rotateConnect s).state.m_connections = [] →
      (rotateConnect s).state.m_connectionAttempt = 0 ∧
      Call.clientConnect ∉ (rotateConnect s).state.trace.drop s.trace.length) ∧
    (∀ v, (rotateConnect s).state.m_connections[
        (rotateConnect s).state.m_activeConnectionIdx]? = some v →
      (v.Host ≠ "exit" →
        (rotateConnect s).state.m_connectionAttempt = 1 ∧
        (rotateConnect s).state.trace =
          s.trace ++ [Call.clientSetConnection v, Call.clientConnect]) ∧
      (v.Host = "exit" →
        (rotateConnect s).state.m_connectionAttempt = 0 ∧
        Call.clientConnect ∉ (rotateConnect s).state.trace.drop s.trace.length)) := by
  have hne : s.m_connections ≠ [] := by
    intro e; simp [e] at hu
  have hi := normalizeIdx_lt s hne
  have hcn := normalizeIdx_connections s
  have hR := rotateConnect_unrecoverable s u hc hu hr
  have hD := rotateDiscard_eq (normalizeIdx s)
  rw [hcn] at hD
  have hcs : (normalizeIdx s).m_connectionSwitches = s.m_connectionSwitches := by
    unfold normalizeIdx; split <;> rfl
  have htr : (normalizeIdx s).trace = s.trace := by
    unfold normalizeIdx; split <;> rfl
  obtain ⟨hf1, hf2, hf3⟩ := rotateSelect_fields (rotateDiscard (normalizeIdx s))
  have hl : (rotateConnect s).state.m_connections =
      s.m_connections.eraseIdx (normalizeIdx s).m_activeConnectionIdx := by
    rw [hR, hf1, hD]
  have hidx : (rotateConnect s).state.m_activeConnectionIdx =
      (if (normalizeIdx s).m_activeConnectionIdx <
          (s.m_connections.eraseIdx (normalizeIdx s).m_activeConnectionIdx).length then
        (normalizeIdx s).m_activeConnectionIdx else 0) := by
    rw [hR, hf2, hD]
  obtain ⟨_, _, t3, _, _, _, t7⟩ := rotateTerminate_fields (rotateDiscard (normalizeIdx s))
  have hterm : (rotateTerminate (rotateDiscard (normalizeIdx s))).m_connectionAttempt = 0 ∧
      Call.clientConnect ∉
        (rotateTerminate (rotateDiscard (normalizeIdx s))).trace.drop s.trace.length := by
    refine ⟨?_, ?_⟩
    · rw [t3, hD]
    · rw [t7, hD]
      simp only [htr, List.append_assoc, List.drop_left]
      split <;> simp
  refine ⟨?_, ?_, ?_, ?_, ?_, ?_, ?_, ?_, ?_⟩
  · rw [hR]
    unfold rotateSelect
    split
    · rfl
    · rename_i hnemp
      split
      · rename_i hnone
        rw [hD] at hnone hnemp
        simp only [List.isEmpty_eq_true] at hnemp
        rw [List.getElem?_eq_none_iff] at hnone
        have hpos := List.length_pos.mpr hnemp
        simp only at hnone hpos
        split at hnone <;> omega
      · split <;> rfl
  · rw [hl, List.length_eraseIdx]
    simp only [hi, if_true]
    omega
  · intro j hj
    rw [hl, List.getElem?_eraseIdx]
    simp [hj]
  · intro j hj
    rw [hl, List.getElem?_eraseIdx]
    simp [Nat.not_lt.mpr hj]
  · rw [hl]; exact hidx
  · rw [hR, hf3, hD, hcs]
  · intro hlt
    rw [hR, hf3, hD, hcs]
    exact Nat.mod_eq_of_lt hlt
  · intro hempty
    rw [hR] at hempty ⊢
    rw [hf1] at hempty
    rw [rotateSelect_empty _ hempty]
    exact hterm
  · intro v hv
    rw [hR] at hv ⊢
    rw [hf1, hf2] at hv
    refine ⟨?_, ?_⟩
    · intro hh
      rw [rotateSelect_connect _ _ hv hh, hD]
      simp [htr, UINT_MOD]
    · intro hh
      rw [rotateSelect_exit _ _ hv hh]
      exact hterm

/-- Instance on the sample state whose active pool `a` is unrecoverable. -/
theorem rotateConnect_discards_witness :
    (rotateConnect sampleUnrec).raised = none ∧
    (rotateConnect sampleUnrec).state.m_connections.length + 1 = 2 ∧
    (rotateConnect sampleUnrec).state.m_connectionSwitches = 1 ∧
    (rotateConnect sampleUnrec).state.m_connections = [sampleURI "b"] :=
  have h := rotateConnect_discards sampleUnrec { sampleURI "a" with IsUnrecoverable := true }
    rfl (by decide) rfl
  ⟨h.1, h.2.1, h.2.2.2.2.2.1, by decide⟩

theorem oracleCalls_append (t u : List Call) :
    oracleCalls (t ++ u) = oracleCalls t ++ oracleCalls u := by
  simp [oracleCalls, List.filterMap_append]

theorem deliverWork_fields (s : PoolManager) :
    (deliverWork s).m_currentWp = s.m_currentWp ∧
    (deliverWork s).m_epochChanges = s.m_epochChanges ∧
    oracleCalls (deliverWork s).trace = oracleCalls s.trace := by
  unfold deliverWork
  split <;> simp [oracleCalls_append, oracleCalls]

/-- The state of the handler after `m_currentWp = wp` and the `if (newEpoch)`
block. -/
theorem onWorkReceived_core (findEpoch : Nat → Int) (s : PoolManager) (wp : WorkPackage)
    (h : wp.header ≠ 0) (s2 : PoolManager)
    (hs2 : s2 = if wp.seed != s.m_currentWp.seed then
        updateEpoch findEpoch { s with m_currentWp := wp } else { s with m_currentWp := wp }) :
    (onWorkReceived findEpoch s wp).state.m_currentWp = s2.m_currentWp ∧
    (onWorkReceived findEpoch s wp).state.m_epochChanges = s2.m_epochChanges ∧
    oracleCalls (onWorkReceived findEpoch s wp).state.trace = oracleCalls s2.trace := by
  have hb : wp.toBool = true := by simp [WorkPackage.toBool, h]
  unfold onWorkReceived
  simp only [hb, Bool.not_true, Bool.false_eq_true, if_false, ← hs2]
  split
  · split
    · exact ⟨rfl, rfl, rfl⟩
    · exact deliverWork_fields s2
  · exact deliverWork_fields s2

theorem toUnsigned_of_lt (i : Int) (h0 : 0 ≤ i) (h1 : i < 2 ^ 32) :
    (toUnsigned i : Int) = i := by
  unfold toUnsigned UINT_MOD
  have : i % ((2 ^ 32 : Nat) : Int) = i := Int.emod_eq_of_lt h0 (by simpa using h1)
  rw [this]
  exact Int.toNat_of_nonneg h0


/-- C7 (counterexample): an empty package (header 0) whose seed differs from the
stored one leaves `epochChanges` as it was. -/
theorem onWorkReceived_empty_seed_differs :
    sampleWpEmpty.seed ≠ (init 3 0 0).m_currentWp.seed ∧
    (onWorkReceived (fun _ => 0) (init 3 0 0) sampleWpEmpty).state.m_epochChanges ≠
      (init 3 0 0).m_epochChanges + 1 := by
  decide

/-- C7 (amended): for every state and every present package (header ≠ 0),
`onWorkReceived` adds one to `epochChanges` (as an `unsigned`: exactly one
unless the counter is at its maximum) when the package's seed differs from the
stored package's seed, and leaves it unchanged when the seeds are equal; an
empty package changes nothing at all. -/
theorem onWorkReceived_epochChanges (findEpoch : Nat → Int) (s : PoolManager)
    (wp : WorkPackage) :
    (wp.header ≠ 0 → wp.seed ≠ s.m_currentWp.seed →
      (onWorkReceived findEpoch s wp).state.m_epochChanges =
        (s.m_epochChanges + 1) % UINT_MOD ∧
      (s.m_epochChanges + 1 < UINT_MOD →
        (onWorkReceived findEpoch s wp).state.m_epochChanges = s.m_epochChanges + 1)) ∧
    (wp.header ≠ 0 → wp.seed = s.m_currentWp.seed →
      (onWorkReceived findEpoch s wp).state.m_epochChanges = s.m_epochChanges) ∧
    (wp.header = 0 → onWorkReceived findEpoch s wp = ⟨s, none⟩) := by
  refine ⟨?_, ?_, ?_⟩
  · intro h hs
    have hc := (onWorkReceived_core findEpoch s wp h _ rfl).2.1
    have hne : (wp.seed != s.m_currentWp.seed) = true := by simpa using hs
    rw [if_pos hne] at hc
    have hu : (updateEpoch findEpoch { s with m_currentWp := wp }).m_epochChanges =
        (s.m_epochChanges + 1) % UINT_MOD := by
      unfold updateEpoch
      by_cases hb : wp.block > 0 <;> simp [hb]
    rw [hu] at hc
    exact ⟨hc, fun hlt => by rw [hc]; exact Nat.mod_eq_of_lt hlt⟩
  · intro h hs
    have hc := (onWorkReceived_core findEpoch s wp h _ rfl).2.1
    have hne : ¬ ((wp.seed != s.m_currentWp.seed) = true) := by simpa using hs
    rw [if_neg hne] at hc
    exact hc
  · intro h
    simp [onWorkReceived, WorkPackage.toBool, h]

/-- Instance on the sample packages: a new seed, the same seed again, an empty
package. -/
theorem onWorkReceived_epochChanges_witness :
    (onWorkReceived (fun _ => 0) (init 3 0 0) sampleWp).state.m_epochChanges = 1 ∧
    (onWorkReceived (fun _ => 0) (onWorkReceived (fun _ => 0) (init 3 0 0) sampleWp).state
      sampleWpNext).state.m_epochChanges = 1 ∧
    onWorkReceived (fun _ => 0) (init 3 0 0) sampleWpEmpty = ⟨init 3 0 0, none⟩ :=
  ⟨((onWorkReceived_epochChanges (fun _ => 0) (init 3 0 0) sampleWp).1
      (by decide) (by decide)).2 (by decide),
   (onWorkReceived_epochChanges (fun _ => 0)
      (onWorkReceived (fun _ => 0) (init 3 0 0) sampleWp).state sampleWpNext).2.1
      (by decide) (by decide),
   (onWorkReceived_epochChanges (fun _ => 0) (init 3 0 0) sampleWpEmpty).2.2 (by decide)⟩

/-- C6 (counterexample): after a package with seed 7 and block 60000 set the
epoch to 2, the next package of the same seed (header 2, block 60000) leaves the
current epoch at the value its own `epoch` field carries, 0, not 60000 / 30000. -/
theorem onWorkReceived_same_seed_epoch :
    sampleWpNext.header ≠ 0 ∧ sampleWpNext.block > 0 ∧
    getCurrentEpoch (onWorkReceived (fun _ => 0) (init 3 0 0) sampleWp).state = 2 ∧
    (getCurrentEpoch (onWorkReceived (fun _ => 0)
      (onWorkReceived (fun _ => 0) (init 3 0 0) sampleWp).state sampleWpNext).state : Int) ≠
      sampleWpNext.block / 30000 := by
  decide

/-- C6 (amended): for every state and every present package whose seed differs
from the stored package's seed: if `block > 0` (a 32-bit int) the current epoch
after `onWorkReceived` is `block / 30000` and the epoch oracle is not called; if
`block ≤ 0` the oracle is called exactly once, on the package's seed, and its
result (converted to `unsigned`) is the current epoch. When the seeds are equal
the oracle is not called. -/
theorem onWorkReceived_epoch (findEpoch : Nat → Int) (s : PoolManager) (wp : WorkPackage)
    (h : wp.header ≠ 0) :
    (wp.seed ≠ s.m_currentWp.seed → 0 < wp.block → wp.block < 2 ^ 31 →
      (getCurrentEpoch (onWorkReceived findEpoch s wp).state : Int) = wp.block / 30000 ∧
      oracleCalls (onWorkReceived findEpoch s wp).state.trace = oracleCalls s.trace) ∧
    (wp.seed ≠ s.m_currentWp.seed → wp.block ≤ 0 →
      getCurrentEpoch (onWorkReceived findEpoch s wp).state = toUnsigned (findEpoch wp.seed) ∧
      (0 ≤ findEpoch wp.seed → findEpoch wp.seed < 2 ^ 32 →
        (getCurrentEpoch (onWorkReceived findEpoch s wp).state : Int) = findEpoch wp.seed) ∧
      oracleCalls (onWorkReceived findEpoch s wp).state.trace =
        oracleCalls s.trace ++ [wp.seed]) ∧
    (wp.seed = s.m_currentWp.seed →
      oracleCalls (onWorkReceived findEpoch s wp).state.trace = oracleCalls s.trace) := by
  obtain ⟨hc1, _, hc3⟩ := onWorkReceived_core findEpoch s wp h _ rfl
  have hb : wp.toBool = true := by simp [WorkPackage.toBool, h]
  refine ⟨?_, ?_, ?_⟩
  · intro hs hpos hlt
    have hne : (wp.seed != s.m_currentWp.seed) = true := by simpa using hs
    rw [if_pos hne] at hc1 hc3
    have hu : updateEpoch findEpoch { s with m_currentWp := wp } =
        { s with
            m_epochChanges := (s.m_epochChanges + 1) % UINT_MOD
            m_currentWp := { wp with epoch := toUnsigned (Int.tdiv wp.block 30000) } } := by
      unfold updateEpoch
      simp only [hpos, if_true]
    rw [hu] at hc1 hc3
    refine ⟨?_, hc3⟩
    unfold getCurrentEpoch
    rw [hc1]
    have hb2 : ({ wp with epoch := toUnsigned (Int.tdiv wp.block 30000) } : WorkPackage).toBool
        = true := hb
    simp only [hb2, Bool.not_true, Bool.false_eq_true, if_false]
    rw [Int.tdiv_eq_ediv (by omega) (by norm_num)]
    exact toUnsigned_of_lt _ (by omega) (by omega)
  · intro hs hle
    have hne : (wp.seed != s.m_currentWp.seed) = true := by simpa using hs
    rw [if_pos hne] at hc1 hc3
    have hu : updateEpoch findEpoch { s with m_currentWp := wp } =
        { s with
            m_epochChanges := (s.m_epochChanges + 1) % UINT_MOD
            m_currentWp := { wp with epoch := toUnsigned (findEpoch wp.seed) }
            trace := s.trace ++ [Call.findEpochNumber wp.seed] } := by
      unfold updateEpoch
      simp only [Int.not_lt.mpr hle, if_false]
    rw [hu] at hc1 hc3
    have hb2 : ({ wp with epoch := toUnsigned (findEpoch wp.seed) } : WorkPackage).toBool
        = true := hb
    have he : getCurrentEpoch (onWorkReceived findEpoch s wp).state =
        toUnsigned (findEpoch wp.seed) := by
      unfold getCurrentEpoch
      rw [hc1]
      simp only [hb2, Bool.not_true, Bool.false_eq_true, if_false]
    refine ⟨he, ?_, ?_⟩
    · intro h0 h1
      rw [he]
      exact toUnsigned_of_lt _ h0 h1
    · rw [hc3]
      simp [oracleCalls_append, oracleCalls]
  · intro hs
    have hne : ¬ ((wp.seed != s.m_currentWp.seed) = true) := by simpa using hs
    rw [if_neg hne] at hc3
    exact hc3

/-- Instance on the sample packages: block 60000 gives epoch 2 without the oracle;
an unknown block asks the oracle once. -/
theorem onWorkReceived_epoch_witness :
    (getCurrentEpoch (onWorkReceived (fun _ => 5) (init 3 0 0) sampleWp).state : Int) = 2 ∧
    oracleCalls (onWorkReceived (fun _ => 5) (init 3 0 0) sampleWp).state.trace = [] ∧
    getCurrentEpoch (onWorkReceived (fun _ => 5) (init 3 0 0) sampleWpNoBlock).state = 5 ∧
    oracleCalls (onWorkReceived (fun _ => 5) (init 3 0 0) sampleWpNoBlock).state.trace = [9] :=
  have h1 := (onWorkReceived_epoch (fun _ => 5) (init 3 0 0) sampleWp (by decide)).1
    (by decide) (by decide) (by decide)
  have h2 := (onWorkReceived_epoch (fun _ => 5) (init 3 0 0) sampleWpNoBlock (by decide)).2.1
    (by decide) (by decide)
  ⟨h1.1, h1.2, h2.1, h2.2.2⟩


theorem rotateSelect_cases (m : PoolManager) :
    (∃ v, m.m_connections[m.m_activeConnectionIdx]? = some v ∧ v.Host ≠ "exit" ∧
      (rotateSelect m).state.m_connectionAttempt = (m.m_connectionAttempt + 1) % UINT_MOD ∧
      (rotateSelect m).state.trace =
        m.trace ++ [Call.clientSetConnection v, Call.clientConnect]) ∨
    ((rotateSelect m).state.m_connectionAttempt = m.m_connectionAttempt ∧
      Call.clientConnect ∉ (rotateSelect m).state.trace.drop m.trace.length) := by
  have hterm : (rotateTerminate m).m_connectionAttempt = m.m_connectionAttempt ∧
      Call.clientConnect ∉ (rotateTerminate m).trace.drop m.trace.length := by
    obtain ⟨_, _, t3, _, _, _, t7⟩ := rotateTerminate_fields m
    refine ⟨t3, ?_⟩
    rw [t7]
    simp only [List.append_assoc, List.drop_left]
    split <;> simp
  by_cases he : m.m_connections = []
  · right
    rw [rotateSelect_empty m he]
    exact hterm
  · cases hv : m.m_connections[m.m_activeConnectionIdx]? with
    | none =>
      right
      have : rotateSelect m = ⟨m, some Exn.outOfRange⟩ := by
        unfold rotateSelect
        simp [he, hv]
      rw [this]
      simp
    | some v =>
      by_cases hh : v.Host = "exit"
      · right
        rw [rotateSelect_exit m v hv hh]
        exact hterm
      · left
        refine ⟨v, rfl, hh, ?_, ?_⟩
        · rw [rotateSelect_connect m v hv hh]
        · rw [rotateSelect_connect m v hv hh]

theorem normalizeIdx_idx (s : PoolManager) :
    (normalizeIdx s).m_activeConnectionIdx =
      if s.m_activeConnectionIdx ≥ s.m_connections.length then 0
      else s.m_activeConnectionIdx := by
  unfold normalizeIdx
  split <;> rfl

theorem next_idx_ne (a len : Nat) (h2 : 2 ≤ len) :
    (if ((if a ≥ len then 0 else a) + 1) % UINT_MOD ≥ len then 0
      else ((if a ≥ len then 0 else a) + 1) % UINT_MOD) ≠ a := by
  have hM : UINT_MOD = 4294967296 := by norm_num [UINT_MOD]
  rw [hM]
  split_ifs <;> omega

theorem normalizeIdx_eq (s : PoolManager) :
    normalizeIdx s = { s with m_activeConnectionIdx := (normalizeIdx s).m_activeConnectionIdx } := by
  unfold normalizeIdx
  split <;> rfl

theorem rotateConnect_mid (s : PoolManager) (hc : s.clientConnected = false)
    (hne : s.m_connections ≠ []) :
    ∃ m, rotateConnect s = rotateSelect m ∧ MidOf s m := by
  have hi := normalizeIdx_lt s hne
  have hcn := normalizeIdx_connections s
  have hN := normalizeIdx_eq s
  have hu : s.m_connections[(normalizeIdx s).m_activeConnectionIdx]? =
      some (s.m_connections[(normalizeIdx s).m_activeConnectionIdx]) :=
    List.getElem?_eq_getElem hi
  generalize s.m_connections[(normalizeIdx s).m_activeConnectionIdx] = u at hu
  have hu1 : (normalizeIdx s).m_connections[(normalizeIdx s).m_activeConnectionIdx]? = some u := by
    rw [hcn]; exact hu
  cases hr : u.IsUnrecoverable with
  | true =>
    refine ⟨rotateDiscard (normalizeIdx s), rotateConnect_unrecoverable s u hc hu hr, ?_⟩
    rw [rotateDiscard_eq, hcn, hN]
    refine ⟨rfl, rfl, rfl, Nat.zero_le _, Or.inl ⟨rfl, Or.inl ?_⟩⟩
    intro e
    have hl := congrArg List.length e
    simp only [List.length_eraseIdx] at hl
    rw [if_pos hi] at hl
    have := List.length_pos.mpr hne
    omega
  | false =>
    by_cases ha : s.m_connectionAttempt ≥ s.m_maxConnectionAttempts
    · refine ⟨rotateExhausted (normalizeIdx s), rotateConnect_exhausted s u hc hu hr ha, ?_⟩
      by_cases h1 : s.m_connections.length = 1
      · have : rotateExhausted (normalizeIdx s) =
            { normalizeIdx s with
                m_connections :=
                  s.m_connections.eraseIdx (normalizeIdx s).m_activeConnectionIdx } := by
          unfold rotateExhausted
          rw [hcn]
          simp only [h1, if_true]
        rw [this, hN]
        refine ⟨rfl, rfl, rfl, le_refl _, Or.inr (Or.inl ?_)⟩
        apply List.eq_nil_of_length_eq_zero
        simp only [List.length_eraseIdx]
        rw [if_pos hi]
        omega
      · have hlen : 2 ≤ s.m_connections.length := by
          have := List.length_pos.mpr hne
          omega
        have : rotateExhausted (normalizeIdx s) =
            { normalizeIdx s with
                m_connectionAttempt := 0
                m_activeConnectionIdx :=
                  (normalizeIdx { normalizeIdx s with
                    m_connectionAttempt := 0
                    m_activeConnectionIdx :=
                      ((normalizeIdx s).m_activeConnectionIdx + 1) % UINT_MOD }).m_activeConnectionIdx
                m_connectionSwitches := ((normalizeIdx s).m_connectionSwitches + 1) % UINT_MOD } := by
          unfold rotateExhausted
          rw [hcn]
          simp only [h1, if_false]
          unfold normalizeIdx
          split <;> split <;> rfl
        rw [this]
        refine ⟨?_, ?_, ?_, Nat.zero_le _, Or.inl ⟨rfl, Or.inr ?_⟩⟩
        · unfold normalizeIdx; split <;> rfl
        · unfold normalizeIdx; split <;> rfl
        · unfold normalizeIdx; split <;> rfl
        · show (normalizeIdx _).m_activeConnectionIdx ≠ s.m_activeConnectionIdx
          rw [normalizeIdx_idx, normalizeIdx_idx]
          simp only [hcn]
          exact next_idx_ne _ _ hlen
    · refine ⟨normalizeIdx s, ?_, ?_⟩
      · unfold rotateConnect
        simp only [hc, Bool.false_eq_true, if_false, hu1, hr]
        have ha1 : ¬ ((normalizeIdx s).m_connectionAttempt ≥
            (normalizeIdx s).m_maxConnectionAttempts) := by
          unfold normalizeIdx; split <;> exact ha
        simp only [ha1, if_false]
      · have hlt : s.m_connectionAttempt < s.m_maxConnectionAttempts := by omega
        unfold normalizeIdx
        split
        · exact ⟨rfl, rfl, rfl, le_refl _, Or.inr (Or.inr ⟨rfl, hlt⟩)⟩
        · exact ⟨rfl, rfl, rfl, le_refl _, Or.inr (Or.inr ⟨rfl, hlt⟩)⟩


theorem rotateConnect_streak_step (s : PoolManager) (k : Nat)
    (hc : s.clientConnected = false) (hN : s.m_maxConnectionAttempts < UINT_MOD)
    (hk : k ≤ s.m_connectionAttempt)
    (ha : s.m_connectionAttempt ≤ max s.m_maxConnectionAttempts 1) :
    (rotateConnect s).state.clientConnected = false ∧
    (rotateConnect s).state.m_maxConnectionAttempts = s.m_maxConnectionAttempts ∧
    (if issuedConnect s then (if keptEntry s then k + 1 else 1) else 0) ≤
      (rotateConnect s).state.m_connectionAttempt ∧
    (rotateConnect s).state.m_connectionAttempt ≤ max s.m_maxConnectionAttempts 1 := by
  have hM : UINT_MOD = 4294967296 := by norm_num [UINT_MOD]
  by_cases hne : s.m_connections = []
  · have hR := rotateConnect_empty_raises s hc hne
    have hi : issuedConnect s = false := by
      unfold issuedConnect
      rw [hR]
      simp
    rw [hi, hR]
    exact ⟨hc, rfl, Nat.zero_le _, ha⟩
  · obtain ⟨m, hR, ht, hmax, hcc, hle, hcase⟩ := rotateConnect_mid s hc hne
    obtain ⟨hf1, hf2, _⟩ := rotateSelect_fields m
    have hcc' : (rotateSelect m).state.clientConnected = false := by
      rw [← hc, ← hcc]
      unfold rotateSelect rotateTerminate
      split
      · split <;> rfl
      · split
        · rfl
        · split
          · rfl
          · split <;> rfl
    have hmax' : (rotateSelect m).state.m_maxConnectionAttempts = s.m_maxConnectionAttempts := by
      rw [← hmax]
      unfold rotateSelect rotateTerminate
      split
      · split <;> rfl
      · split
        · rfl
        · split
          · rfl
          · split <;> rfl
    rcases rotateSelect_cases m with ⟨v, hv, _, hatt, htr⟩ | ⟨hatt, hno⟩
    · have hi : issuedConnect s = true := by
        unfold issuedConnect
        rw [hR, htr, ht]
        simp
      have hmne : m.m_connections ≠ [] := by
        intro e
        simp [e] at hv
      rw [hi, hR, hatt]
      refine ⟨hcc', hmax', ?_, ?_⟩
      · rcases hcase with ⟨h0, hch⟩ | hemp | ⟨hsame, hlt⟩
        · have hkp : keptEntry s = false := by
            unfold keptEntry
            rw [hR, hf1, hf2]
            rcases hch with h | h <;> simp [h]
          rw [hkp, h0, hM]
          simp
        · exact absurd hemp hmne
        · rw [hsame, hM]
          simp only [if_true]
          split <;> omega
      · rcases hcase with ⟨h0, _⟩ | hemp | ⟨hsame, hlt⟩
        · rw [h0, hM]
          simp
        · exact absurd hemp hmne
        · rw [hsame, hM]
          have : s.m_connectionAttempt + 1 ≤ s.m_maxConnectionAttempts := hlt
          omega
    · have hi : issuedConnect s = false := by
        unfold issuedConnect
        rw [hR, ← ht]
        simpa using hno
      rw [hi, hR, hatt]
      exact ⟨hcc', hmax', Nat.zero_le _, le_trans hle ha⟩

theorem rotateRun_invariant (s : PoolManager) (hc : s.clientConnected = false)
    (hN : s.m_maxConnectionAttempts < UINT_MOD) (h0 : s.m_connectionAttempt = 0) (n : Nat) :
    (rotateRun n s).1.clientConnected = false ∧
    (rotateRun n s).1.m_maxConnectionAttempts = s.m_maxConnectionAttempts ∧
    (rotateRun n s).2 ≤ (rotateRun n s).1.m_connectionAttempt ∧
    (rotateRun n s).1.m_connectionAttempt ≤ max s.m_maxConnectionAttempts 1 := by
  induction n with
  | zero =>
    refine ⟨hc, rfl, ?_, ?_⟩
    · show 0 ≤ s.m_connectionAttempt
      exact Nat.zero_le _
    · show s.m_connectionAttempt ≤ _
      rw [h0]
      exact Nat.zero_le _
  | succ n ih =>
    obtain ⟨i1, i2, i3, i4⟩ := ih
    have hs := rotateConnect_streak_step (rotateRun n s).1 (rotateRun n s).2 i1
      (by rw [i2]; exact hN) i3 (by rw [i2]; exact i4)
    rw [i2] at hs
    exact hs

/-- C9 (counterexample): with `maxTries = 0` and pools `[a, b]`, the first
`rotateConnect` of a run issues a connect: one connect in a row for the selected
entry, more than `maxTries`. -/
theorem rotateRun_no_tries :
    sampleNoTries.clientConnected = false ∧ sampleNoTries.m_connectionAttempt = 0 ∧
    ¬ ((rotateRun 1 sampleNoTries).2 ≤ sampleNoTries.m_maxConnectionAttempts) := by
  decide

/-- C9 (amended): for every `maxTries = N` (an `unsigned`) and every run of
consecutive `rotateConnect` invocations with the client never connected and
attempts starting at 0, the number of connects issued in a row to the same list
entry is at most `max N 1` (with `N = 0` the entry a rotation selects is still
tried once). And in any state with `attempts ≥ maxTries` and a non-empty list, the
next `rotateConnect` does not stay on the entry: it erases it (the list gets one
shorter; empty when the entry was the only one) or keeps the list and selects a
different index. -/
theorem rotateRun_streak_bound (s : PoolManager) (n : Nat)
    (hc : s.clientConnected = false)
    (hN : s.m_maxConnectionAttempts < UINT_MOD) (h0 : s.m_connectionAttempt = 0) :
    (rotateRun n s).2 ≤ max s.m_maxConnectionAttempts 1 ∧
    (∀ t : PoolManager, t.clientConnected = false → t.m_connections ≠ [] →
      t.m_connectionAttempt ≥ t.m_maxConnectionAttempts →
      (t.m_connections.length = 1 → (rotateConnect t).state.m_connections = []) ∧
      ((rotateConnect t).state.m_connections.length + 1 = t.m_connections.length ∨
        ((rotateConnect t).state.m_connections = t.m_connections ∧
          (rotateConnect t).state.m_activeConnectionIdx ≠
            (normalizeIdx t).m_activeConnectionIdx))) := by
  obtain ⟨_, _, i3, i4⟩ := rotateRun_invariant s hc hN h0 n
  refine ⟨le_trans i3 i4, ?_⟩
  intro t htc htne hta
  have hi := normalizeIdx_lt t htne
  have hcn := normalizeIdx_connections t
  have hu : t.m_connections[(normalizeIdx t).m_activeConnectionIdx]? =
      some (t.m_connections[(normalizeIdx t).m_activeConnectionIdx]) :=
    List.getElem?_eq_getElem hi
  generalize t.m_connections[(normalizeIdx t).m_activeConnectionIdx] = u at hu
  have hpos := List.length_pos.mpr htne
  cases hr : u.IsUnrecoverable with
  | true =>
    have hR := rotateConnect_unrecoverable t u htc hu hr
    have hl : (rotateConnect t).state.m_connections =
        t.m_connections.eraseIdx (normalizeIdx t).m_activeConnectionIdx := by
      rw [hR, (rotateSelect_fields _).1, rotateDiscard_eq, hcn]
    have hlen : (rotateConnect t).state.m_connections.length + 1 = t.m_connections.length := by
      rw [hl, List.length_eraseIdx, if_pos hi]
      omega
    refine ⟨?_, Or.inl hlen⟩
    intro h1
    apply List.eq_nil_of_length_eq_zero
    omega
  | false =>
    have hR := rotateConnect_exhausted t u htc hu hr hta
    by_cases h1 : t.m_connections.length = 1
    · have hl : (rotateConnect t).state.m_connections =
          t.m_connections.eraseIdx (normalizeIdx t).m_activeConnectionIdx := by
        rw [hR, (rotateSelect_fields _).1]
        unfold rotateExhausted
        rw [hcn]
        simp only [h1, if_true]
      have hlen : (rotateConnect t).state.m_connections.length + 1 = t.m_connections.length := by
        rw [hl, List.length_eraseIdx, if_pos hi]
        omega
      refine ⟨?_, Or.inl hlen⟩
      intro _
      apply List.eq_nil_of_length_eq_zero
      omega
    · refine ⟨fun h => absurd h h1, Or.inr ?_⟩
      have h2 : 2 ≤ t.m_connections.length := by omega
      have hE : rotateExhausted (normalizeIdx t) =
          { normalizeIdx t with
              m_connectionAttempt := 0
              m_activeConnectionIdx :=
                (normalizeIdx { normalizeIdx t with
                  m_connectionAttempt := 0
                  m_activeConnectionIdx :=
                    ((normalizeIdx t).m_activeConnectionIdx + 1) % UINT_MOD }).m_activeConnectionIdx
              m_connectionSwitches := ((normalizeIdx t).m_connectionSwitches + 1) % UINT_MOD } := by
        unfold rotateExhausted
        rw [hcn]
        simp only [h1, if_false]
        unfold normalizeIdx
        split <;> split <;> rfl
      refine ⟨?_, ?_⟩
      · rw [hR, (rotateSelect_fields _).1, hE]
        exact hcn
      · rw [hR, (rotateSelect_fields _).2.1, hE]
        show (normalizeIdx _).m_activeConnectionIdx ≠ _
        rw [normalizeIdx_idx]
        simp only [hcn]
        have hx := next_idx_ne (normalizeIdx t).m_activeConnectionIdx _ h2
        rw [if_neg (Nat.not_le.mpr hi)] at hx
        exact hx

/-- Instance on a run of seven calls over pools `a`, `b` with `maxTries = 2`, and
on the state reached after two attempts on `a`. -/
theorem rotateRun_streak_bound_witness :
    (rotateRun 7 sampleFresh).2 ≤ 2 ∧
    (rotateConnect sampleAB).state.m_activeConnectionIdx ≠ 0 :=
  have h := rotateRun_streak_bound sampleFresh 7 rfl (by decide) rfl
  ⟨h.1, by
    rcases (h.2 sampleAB rfl (by decide) (by decide)).2 with h1 | h1
    · exact absurd h1 (by decide)
    · exact h1.2⟩



/-- C11: `setActiveConnection idx` returns -1 and changes nothing when `idx` is
out of range; returns 0 and changes nothing (no disconnect, no counter change)
when `idx` is the active index; otherwise returns 0 with the active index set
to `idx`, attempts set to 0, `connectionSwitches` incremented by one (as an
`unsigned`) and `client.disconnect()` called (followed by the farm pause),
everything else unchanged. -/
theorem setActiveConnection_result (s : PoolManager) (idx : Nat) :
    (idx ≥ s.m_connections.length → setActiveConnection s idx = (-1, s)) ∧
    (idx < s.m_connections.length → idx = s.m_activeConnectionIdx →
      setActiveConnection s idx = (0, s)) ∧
    (idx < s.m_connections.length → idx ≠ s.m_activeConnectionIdx →
      (setActiveConnection s idx).1 = 0 ∧
      (setActiveConnection s idx).2.m_activeConnectionIdx = idx ∧
      (setActiveConnection s idx).2.m_connectionAttempt = 0 ∧
      (setActiveConnection s idx).2.m_connectionSwitches =
        (s.m_connectionSwitches + 1) % UINT_MOD ∧
      (s.m_connectionSwitches + 1 < UINT_MOD →
        (setActiveConnection s idx).2.m_connectionSwitches = s.m_connectionSwitches + 1) ∧
      (setActiveConnection s idx).2.m_connections = s.m_connections ∧
      (setActiveConnection s idx).2.trace =
        s.trace ++ [Call.clientDisconnect, Call.farmPause]) := by
  refine ⟨?_, ?_, ?_⟩
  · intro h
    simp only [setActiveConnection, h, if_true]
  · intro h1 h2
    have hn : ¬ (idx ≥ s.m_connections.length) := Nat.not_le.mpr h1
    unfold setActiveConnection
    rw [if_neg hn, if_pos h2]
  · intro h1 h2
    have hn : ¬ (idx ≥ s.m_connections.length) := Nat.not_le.mpr h1
    unfold setActiveConnection
    rw [if_neg hn, if_neg h2]
    exact ⟨rfl, rfl, rfl, rfl, fun hlt => Nat.mod_eq_of_lt hlt, rfl, rfl⟩

/-- Instance on the sample state with three pools (index 1 active): index 7 is
out of range, index 1 is the active one, index 2 becomes active. -/
theorem setActiveConnection_result_witness :
    setActiveConnection sample3 7 = (-1, sample3) ∧
    setActiveConnection sample3 1 = (0, sample3) ∧
    (setActiveConnection sample3 2).2.m_activeConnectionIdx = 2 ∧
    (setActiveConnection sample3 2).2.m_connectionSwitches = 1 :=
  have h := (setActiveConnection_result sample3 2).2.2 (by decide) (by decide)
  ⟨(setActiveConnection_result sample3 7).1 (by decide),
   (setActiveConnection_result sample3 1).2.1 (by decide) (by decide),
   h.2.1, h.2.2.2.2.1 (by decide)⟩

/-- C12: `getCurrentDifficulty` returns 0 when the current package is empty
(header 0); for a present package with a non-zero boundary it returns the
integer quotient of `0xffff * 2^240` by the boundary (the value the source then
converts to double); for the boundary `0x00000000ffff` followed by zeros the
quotient is exactly `2^32`. -/
theorem getCurrentDifficulty_value (s : PoolManager) :
    (s.m_currentWp.header = 0 → getCurrentDifficulty s = .ok 0) ∧
    (s.m_currentWp.header ≠ 0 → s.m_currentWp.boundary ≠ 0 →
      getCurrentDifficulty s = .ok (0xffff * 2 ^ 240 / s.m_currentWp.boundary)) ∧
    (s.m_currentWp.header ≠ 0 → s.m_currentWp.boundary = 0xffff * 2 ^ 208 →
      getCurrentDifficulty s = .ok (2 ^ 32)) := by
  have hq : (0xffff * 2 ^ 240 : Nat) / (0xffff * 2 ^ 208) = 2 ^ 32 := by norm_num
  refine ⟨?_, ?_, ?_⟩
  · intro h
    simp [getCurrentDifficulty, WorkPackage.toBool, h]
  · intro h hb
    simp [getCurrentDifficulty, WorkPackage.toBool, h, hb, difficultyDividend]
  · intro h hb
    have hb0 : s.m_currentWp.boundary ≠ 0 := by rw [hb]; norm_num
    have hp : (!s.m_currentWp.toBool) = false := by simp [WorkPackage.toBool, h]
    unfold getCurrentDifficulty
    rw [hp, if_neg (by simp), if_neg hb0, hb]
    unfold difficultyDividend
    rw [hq]

/-- Instance on the empty initial package and on the sample package with
boundary `0x00000000ffff…`. -/
theorem getCurrentDifficulty_value_witness :
    getCurrentDifficulty (init 3 0 0) = .ok 0 ∧
    getCurrentDifficulty sampleDiff1 = .ok (2 ^ 32) :=
  ⟨(getCurrentDifficulty_value (init 3 0 0)).1 rfl,
   (getCurrentDifficulty_value sampleDiff1).2.2 (by decide) rfl⟩


theorem rotateExhausted_switches (s : PoolManager) :
    (rotateExhausted s).m_connectionSwitches =
      (if s.m_connections.length = 1 then s.m_connectionSwitches
       else (s.m_connectionSwitches + 1) % UINT_MOD) := by
  unfold rotateExhausted
  by_cases h : s.m_connections.length = 1
  · simp only [h, if_true]
  · simp only [h, if_false]
    unfold normalizeIdx
    split <;> rfl

theorem normalizeIdx_switches (s : PoolManager) :
    (normalizeIdx s).m_connectionSwitches = s.m_connectionSwitches ∧
    (normalizeIdx s).m_connectionAttempt = s.m_connectionAttempt ∧
    (normalizeIdx s).m_maxConnectionAttempts = s.m_maxConnectionAttempts := by
  unfold normalizeIdx
  split <;> exact ⟨rfl, rfl, rfl⟩

/-- The value of `connectionSwitches` after `rotateConnect`, branch by branch. -/
theorem rotateConnect_switches (s : PoolManager) :
    (s.clientConnected = true →
      (rotateConnect s).state.m_connectionSwitches = s.m_connectionSwitches) ∧
    (s.m_connections = [] →
      (rotateConnect s).state.m_connectionSwitches = s.m_connectionSwitches) ∧
    (∀ u, s.clientConnected = false →
      s.m_connections[(normalizeIdx s).m_activeConnectionIdx]? = some u →
      (u.IsUnrecoverable = true →
        (rotateConnect s).state.m_connectionSwitches =
          (s.m_connectionSwitches + 1) % UINT_MOD) ∧
      (u.IsUnrecoverable = false → s.m_connectionAttempt ≥ s.m_maxConnectionAttempts →
        s.m_connections.length ≠ 1 →
        (rotateConnect s).state.m_connectionSwitches =
          (s.m_connectionSwitches + 1) % UINT_MOD) ∧
      (u.IsUnrecoverable = false → s.m_connectionAttempt ≥ s.m_maxConnectionAttempts →
        s.m_connections.length = 1 →
        (rotateConnect s).state.m_connectionSwitches = s.m_connectionSwitches) ∧
      (u.IsUnrecoverable = false → s.m_connectionAttempt < s.m_maxConnectionAttempts →
        (rotateConnect s).state.m_connectionSwitches = s.m_connectionSwitches)) := by
  obtain ⟨n1, n2, n3⟩ := normalizeIdx_switches s
  have hcn := normalizeIdx_connections s
  refine ⟨?_, ?_, ?_⟩
  · intro hc
    simp only [rotateConnect, hc, if_true]
  · intro he
    cases hc : s.clientConnected
    · rw [rotateConnect_empty_raises s hc he]
    · simp only [rotateConnect, hc, if_true]
  · intro u hc hu
    refine ⟨?_, ?_, ?_, ?_⟩
    · intro hr
      rw [rotateConnect_unrecoverable s u hc hu hr, (rotateSelect_fields _).2.2,
        rotateDiscard_eq, n1]
    · intro hr ha h1
      rw [rotateConnect_exhausted s u hc hu hr ha, (rotateSelect_fields _).2.2,
        rotateExhausted_switches, hcn, if_neg h1, n1]
    · intro hr ha h1
      rw [rotateConnect_exhausted s u hc hu hr ha, (rotateSelect_fields _).2.2,
        rotateExhausted_switches, hcn, if_pos h1, n1]
    · intro hr ha
      have hu1 : (normalizeIdx s).m_connections[(normalizeIdx s).m_activeConnectionIdx]?
          = some u := by rw [hcn]; exact hu
      have ha1 : ¬ ((normalizeIdx s).m_connectionAttempt ≥
          (normalizeIdx s).m_maxConnectionAttempts) := by
        rw [n2, n3]; omega
      have hR : rotateConnect s = rotateSelect (normalizeIdx s) := by
        unfold rotateConnect
        simp only [hc, Bool.false_eq_true, if_false, hu1, hr, ha1]
      rw [hR, (rotateSelect_fields _).2.2, n1]

theorem rotateConnect_switches_step (s : PoolManager) :
    (rotateConnect s).state.m_connectionSwitches = s.m_connectionSwitches ∨
    (rotateConnect s).state.m_connectionSwitches = (s.m_connectionSwitches + 1) % UINT_MOD := by
  obtain ⟨h1, h2, h3⟩ := rotateConnect_switches s
  cases hc : s.clientConnected
  · by_cases he : s.m_connections = []
    · exact Or.inl (h2 he)
    · have hi := normalizeIdx_lt s he
      obtain ⟨a, b, c, d⟩ := h3 _ hc (List.getElem?_eq_getElem hi)
      cases hr : (s.m_connections[(normalizeIdx s).m_activeConnectionIdx]).IsUnrecoverable
      · by_cases ha : s.m_connectionAttempt ≥ s.m_maxConnectionAttempts
        · by_cases hl : s.m_connections.length = 1
          · exact Or.inl (c hr ha hl)
          · exact Or.inr (b hr ha hl)
        · exact Or.inl (d hr (by omega))
      · exact Or.inr (a hr)
  · exact Or.inl (h1 hc)

theorem onWorkReceived_switches (findEpoch : Nat → Int) (s : PoolManager) (wp : WorkPackage) :
    (onWorkReceived findEpoch s wp).state.m_connectionSwitches = s.m_connectionSwitches := by
  have hu : ∀ t : PoolManager, (updateEpoch findEpoch t).m_connectionSwitches =
      t.m_connectionSwitches := by
    intro t
    unfold updateEpoch
    by_cases hb : t.m_currentWp.block > 0 <;> simp [hb]
  have hd : ∀ t : PoolManager, (deliverWork t).m_connectionSwitches =
      t.m_connectionSwitches := by
    intro t
    unfold deliverWork
    split <;> rfl
  have h2 : (if (wp.seed != s.m_currentWp.seed) = true then
      updateEpoch findEpoch { s with m_currentWp := wp }
      else { s with m_currentWp := wp }).m_connectionSwitches = s.m_connectionSwitches := by
    split
    · rw [hu]
    · rfl
  unfold onWorkReceived
  split
  · rfl
  · simp only []
    split
    · split
      · exact h2
      · rw [hd]; exact h2
    · rw [hd]; exact h2


theorem setActiveConnection_switches (s : PoolManager) (idx : Nat) :
    (setActiveConnection s idx).2.m_connectionSwitches =
      (if idx < s.m_connections.length ∧ idx ≠ s.m_activeConnectionIdx then
        (s.m_connectionSwitches + 1) % UINT_MOD
       else s.m_connectionSwitches) := by
  unfold setActiveConnection
  by_cases h1 : idx ≥ s.m_connections.length
  · rw [if_pos h1, if_neg (by intro h; omega)]
  · rw [if_neg h1]
    by_cases h2 : idx = s.m_activeConnectionIdx
    · rw [if_pos h2, if_neg (fun h => h.2 h2)]
    · rw [if_neg h2, if_pos ⟨by omega, h2⟩]

theorem failovertimer_switches (s : PoolManager) (ec : ErrorCode) :
    (failovertimer_elapsed s ec).m_connectionSwitches =
      (if ec = ErrorCode.success ∧ s.m_running = true ∧ s.m_activeConnectionIdx ≠ 0 then
        (s.m_connectionSwitches + 1) % UINT_MOD
       else s.m_connectionSwitches) := by
  unfold failovertimer_elapsed
  by_cases h1 : ec = ErrorCode.success <;> cases h2 : s.m_running <;>
    by_cases h3 : s.m_activeConnectionIdx = 0 <;> simp [h1, h2, h3]

theorem removeConnection_switches (s : PoolManager) (idx : Nat) :
    (removeConnection s idx).2.m_connectionSwitches = s.m_connectionSwitches := by
  unfold removeConnection
  split
  · rfl
  · split
    · rfl
    · simp only []
      split <;> rfl

theorem clearConnections_switches (s : PoolManager) :
    (clearConnections s).m_connectionSwitches = s.m_connectionSwitches := by
  unfold clearConnections
  simp only []
  split <;> rfl

theorem stop_switches (s : PoolManager) :
    (stop s).m_connectionSwitches = s.m_connectionSwitches := by
  unfold stop
  cases h1 : s.m_running <;> cases h2 : s.clientConnected <;> cases h3 : s.farmMining <;>
    simp [h1, h2, h3]

theorem submithrtimer_switches (s : PoolManager) (ec : ErrorCode) (hashRate : Nat) :
    (submithrtimer_elapsed s ec hashRate).m_connectionSwitches = s.m_connectionSwitches := by
  unfold submithrtimer_elapsed
  split
  · split <;> rfl
  · rfl

theorem onConnected_fields (s : PoolManager) (activeEndPoint : String) (paused : Bool) :
    (onConnected s activeEndPoint paused).m_connectionSwitches = s.m_connectionSwitches ∧
    (onConnected s activeEndPoint paused).m_connections = s.m_connections ∧
    (onConnected s activeEndPoint paused).m_activeConnectionIdx = s.m_activeConnectionIdx := by
  unfold onConnected startMiners
  by_cases h1 : s.m_ergodicity = 1 <;>
    by_cases h2 : (s.m_activeConnectionIdx ≠ 0 ∧ s.m_failoverTimeout > 0) <;>
    cases h3 : s.farmMining <;> cases paused <;> cases h4 : s.m_minerType <;>
    simp [h1, h2, h3, h4]

theorem onConnected_switches (s : PoolManager) (activeEndPoint : String) (paused : Bool) :
    (onConnected s activeEndPoint paused).m_connectionSwitches = s.m_connectionSwitches :=
  (onConnected_fields s activeEndPoint paused).1

theorem onDisconnected_switches (s : PoolManager) :
    (onDisconnected s).m_connectionSwitches = s.m_connectionSwitches := by
  unfold onDisconnected
  cases h1 : s.m_stopping <;> cases h2 : s.farmMining <;> simp [h1, h2]

/-- C20: under every operation of `PoolManager`, `connectionSwitches` is left
unchanged or replaced by its unsigned successor, so that below the top of the
`unsigned` range it never decreases and grows by at most 1. It becomes the
successor on `start()`, on a `setActiveConnection` with an index in range other
than the active one, in `rotateConnect` on an unrecoverable URI and on exhausted
attempts with more than one connection, and on a failover timer that fires
(no error) while running with a non-zero active index. It is unchanged by
`setActiveConnection` otherwise, by `rotateConnect` otherwise (client connected,
empty list, exhausted attempts on the sole connection, a plain retry), by the
failover timer otherwise, and by `addConnection`, `removeConnection`,
`clearConnections`, `stop`, the hash-rate timer and the three client
handlers. -/
theorem connectionSwitches_step (findEpoch : Nat → Int) (s : PoolManager) :
    (∀ op : PMOp,
      ((stepOp findEpoch s op).m_connectionSwitches = s.m_connectionSwitches ∨
       (stepOp findEpoch s op).m_connectionSwitches =
         (s.m_connectionSwitches + 1) % UINT_MOD) ∧
      (s.m_connectionSwitches + 1 < UINT_MOD →
        s.m_connectionSwitches ≤ (stepOp findEpoch s op).m_connectionSwitches ∧
        (stepOp findEpoch s op).m_connectionSwitches ≤ s.m_connectionSwitches + 1)) ∧
    (s.m_connectionSwitches + 1 < UINT_MOD →
      (s.m_connectionSwitches + 1) % UINT_MOD = s.m_connectionSwitches + 1) ∧
    (start s).m_connectionSwitches = (s.m_connectionSwitches + 1) % UINT_MOD ∧
    (∀ idx, (setActiveConnection s idx).2.m_connectionSwitches =
      (if idx < s.m_connections.length ∧ idx ≠ s.m_activeConnectionIdx then
        (s.m_connectionSwitches + 1) % UINT_MOD
       else s.m_connectionSwitches)) ∧
    (s.clientConnected = true →
      (rotateConnect s).state.m_connectionSwitches = s.m_connectionSwitches) ∧
    (s.m_connections = [] →
      (rotateConnect s).state.m_connectionSwitches = s.m_connectionSwitches) ∧
    (∀ u, s.clientConnected = false →
      s.m_connections[(normalizeIdx s).m_activeConnectionIdx]? = some u →
      (u.IsUnrecoverable = true →
        (rotateConnect s).state.m_connectionSwitches =
          (s.m_connectionSwitches + 1) % UINT_MOD) ∧
      (u.IsUnrecoverable = false → s.m_connectionAttempt ≥ s.m_maxConnectionAttempts →
        s.m_connections.length ≠ 1 →
        (rotateConnect s).state.m_connectionSwitches =
          (s.m_connectionSwitches + 1) % UINT_MOD) ∧
      (u.IsUnrecoverable = false → s.m_connectionAttempt ≥ s.m_maxConnectionAttempts →
        s.m_connections.length = 1 →
        (rotateConnect s).state.m_connectionSwitches = s.m_connectionSwitches) ∧
      (u.IsUnrecoverable = false → s.m_connectionAttempt < s.m_maxConnectionAttempts →
        (rotateConnect s).state.m_connectionSwitches = s.m_connectionSwitches)) ∧
    (∀ ec, (failovertimer_elapsed s ec).m_connectionSwitches =
      (if ec = ErrorCode.success ∧ s.m_running = true ∧ s.m_activeConnectionIdx ≠ 0 then
        (s.m_connectionSwitches + 1) % UINT_MOD
       else s.m_connectionSwitches)) ∧
    (∀ conn, (addConnection s conn).m_connectionSwitches = s.m_connectionSwitches) ∧
    (∀ idx, (removeConnection s idx).2.m_connectionSwitches = s.m_connectionSwitches) ∧
    (clearConnections s).m_connectionSwitches = s.m_connectionSwitches ∧
    (stop s).m_connectionSwitches = s.m_connectionSwitches ∧
    (∀ ec hashRate,
      (submithrtimer_elapsed s ec hashRate).m_connectionSwitches = s.m_connectionSwitches) ∧
    (∀ ep paused, (onConnected s ep paused).m_connectionSwitches = s.m_connectionSwitches) ∧
    (onDisconnected s).m_connectionSwitches = s.m_connectionSwitches ∧
    (∀ wp, (onWorkReceived findEpoch s wp).state.m_connectionSwitches =
      s.m_connectionSwitches) := by
  have hstep : ∀ op : PMOp,
      (stepOp findEpoch s op).m_connectionSwitches = s.m_connectionSwitches ∨
      (stepOp findEpoch s op).m_connectionSwitches =
        (s.m_connectionSwitches + 1) % UINT_MOD := by
    intro op
    cases op with
    | addConnection conn => exact Or.inl rfl
    | removeConnection idx => exact Or.inl (removeConnection_switches s idx)
    | clearConnections => exact Or.inl (clearConnections_switches s)
    | setActiveConnection idx =>
      have h := setActiveConnection_switches s idx
      show (setActiveConnection s idx).2.m_connectionSwitches = _ ∨ _
      by_cases hc : idx < s.m_connections.length ∧ idx ≠ s.m_activeConnectionIdx
      · rw [if_pos hc] at h; exact Or.inr h
      · rw [if_neg hc] at h; exact Or.inl h
    | start => exact Or.inr rfl
    | stop => exact Or.inl (stop_switches s)
    | rotateConnect => exact rotateConnect_switches_step s
    | failoverTimer ec =>
      have h := failovertimer_switches s ec
      show (failovertimer_elapsed s ec).m_connectionSwitches = _ ∨ _
      by_cases hc : ec = ErrorCode.success ∧ s.m_running = true ∧ s.m_activeConnectionIdx ≠ 0
      · rw [if_pos hc] at h; exact Or.inr h
      · rw [if_neg hc] at h; exact Or.inl h
    | submithrTimer ec hashRate => exact Or.inl (submithrtimer_switches s ec hashRate)
    | onConnected ep paused => exact Or.inl (onConnected_switches s ep paused)
    | onDisconnected => exact Or.inl (onDisconnected_switches s)
    | onWorkReceived wp => exact Or.inl (onWorkReceived_switches findEpoch s wp)
  obtain ⟨r1, r2, r3⟩ := rotateConnect_switches s
  refine ⟨?_, fun h => Nat.mod_eq_of_lt h, rfl, setActiveConnection_switches s, r1, r2, r3,
    failovertimer_switches s, fun _ => rfl, removeConnection_switches s,
    clearConnections_switches s, stop_switches s, submithrtimer_switches s,
    onConnected_switches s, onDisconnected_switches s, onWorkReceived_switches findEpoch s⟩
  intro op
  refine ⟨hstep op, ?_⟩
  intro hlt
  have hm : (s.m_connectionSwitches + 1) % UINT_MOD = s.m_connectionSwitches + 1 :=
    Nat.mod_eq_of_lt hlt
  rcases hstep op with h | h
  · rw [h]; omega
  · rw [h, hm]; omega

theorem connectionSwitches_step_witness :
    (stepOp (fun _ => 0) sampleOnBackup (PMOp.failoverTimer ErrorCode.success)).m_connectionSwitches
      = 1 ∧
    (stepOp (fun _ => 0) sampleOnBackup (PMOp.removeConnection 0)).m_connectionSwitches = 0 := by
  obtain ⟨_, _, _, _, _, _, _, hf, _, hr, _⟩ := connectionSwitches_step (fun _ => 0) sampleOnBackup
  exact ⟨(hf ErrorCode.success).trans (by decide), (hr 0).trans (by decide)⟩

/-! ### The index invariant over all operations -/

theorem IdxOk_congr (a b : PoolManager) (h1 : a.m_connections = b.m_connections)
    (h2 : a.m_activeConnectionIdx = b.m_activeConnectionIdx) (h : IdxOk b) : IdxOk a := by
  unfold IdxOk at *
  rw [h1, h2]
  exact h

theorem normalizeIdx_IdxOk (s : PoolManager) : IdxOk (normalizeIdx s) := by
  unfold IdxOk normalizeIdx
  by_cases h : s.m_activeConnectionIdx ≥ s.m_connections.length
  · rw [if_pos h]
    by_cases h0 : s.m_connections.length = 0
    · right
      exact ⟨List.length_eq_zero.mp h0, rfl⟩
    · left
      show 0 < s.m_connections.length
      omega
  · rw [if_neg h]
    left
    omega

theorem rotateDiscard_IdxOk (s : PoolManager) : IdxOk (rotateDiscard s) := by
  unfold rotateDiscard
  exact IdxOk_congr _ _ rfl rfl (normalizeIdx_IdxOk _)

theorem rotateExhausted_IdxOk (s : PoolManager) (h : IdxOk s) : IdxOk (rotateExhausted s) := by
  unfold rotateExhausted
  by_cases h1 : s.m_connections.length = 1
  · rw [if_pos h1]
    unfold IdxOk at *
    have hi : s.m_activeConnectionIdx = 0 := by
      rcases h with h | ⟨_, h⟩
      · omega
      · exact h
    right
    refine ⟨?_, hi⟩
    apply List.length_eq_zero.mp
    show (s.m_connections.eraseIdx s.m_activeConnectionIdx).length = 0
    rw [List.length_eraseIdx, hi, h1]
    simp
  · rw [if_neg h1]
    exact IdxOk_congr _ _ rfl rfl (normalizeIdx_IdxOk _)

theorem rotateSelect_IdxOk (s : PoolManager) (h : IdxOk s) : IdxOk (rotateSelect s).state :=
  IdxOk_congr _ _ (rotateSelect_fields s).1 (rotateSelect_fields s).2.1 h

theorem rotateConnect_IdxOk (s : PoolManager) (hc : s.clientConnected = false) :
    IdxOk (rotateConnect s).state := by
  have hn := normalizeIdx_IdxOk s
  unfold rotateConnect
  simp only [hc, Bool.false_eq_true, if_false]
  cases hu : (normalizeIdx s).m_connections[(normalizeIdx s).m_activeConnectionIdx]? with
  | none => exact hn
  | some u =>
    simp only []
    by_cases hr : u.IsUnrecoverable = true
    · rw [if_pos hr]
      exact rotateSelect_IdxOk _ (rotateDiscard_IdxOk _)
    · rw [if_neg hr]
      by_cases ha : (normalizeIdx s).m_connectionAttempt ≥ (normalizeIdx s).m_maxConnectionAttempts
      · rw [if_pos ha]
        exact rotateSelect_IdxOk _ (rotateExhausted_IdxOk _ hn)
      · rw [if_neg ha]
        exact rotateSelect_IdxOk _ hn

theorem onWorkReceived_idx (findEpoch : Nat → Int) (s : PoolManager) (wp : WorkPackage) :
    (onWorkReceived findEpoch s wp).state.m_connections = s.m_connections ∧
    (onWorkReceived findEpoch s wp).state.m_activeConnectionIdx = s.m_activeConnectionIdx := by
  have hu : ∀ t : PoolManager,
      (updateEpoch findEpoch t).m_connections = t.m_connections ∧
      (updateEpoch findEpoch t).m_activeConnectionIdx = t.m_activeConnectionIdx := by
    intro t
    unfold updateEpoch
    by_cases hb : t.m_currentWp.block > 0 <;> simp [hb]
  have hd : ∀ t : PoolManager,
      (deliverWork t).m_connections = t.m_connections ∧
      (deliverWork t).m_activeConnectionIdx = t.m_activeConnectionIdx := by
    intro t
    unfold deliverWork
    split <;> exact ⟨rfl, rfl⟩
  have h2 : (if (wp.seed != s.m_currentWp.seed) = true then
      updateEpoch findEpoch { s with m_currentWp := wp }
      else { s with m_currentWp := wp }).m_connections = s.m_connections ∧
      (if (wp.seed != s.m_currentWp.seed) = true then
      updateEpoch findEpoch { s with m_currentWp := wp }
      else { s with m_currentWp := wp }).m_activeConnectionIdx = s.m_activeConnectionIdx := by
    split
    · exact hu _
    · exact ⟨rfl, rfl⟩
  unfold onWorkReceived
  split
  · exact ⟨rfl, rfl⟩
  · simp only []
    split
    · split
      · exact h2
      · exact ⟨(hd _).1.trans h2.1, (hd _).2.trans h2.2⟩
    · exact ⟨(hd _).1.trans h2.1, (hd _).2.trans h2.2⟩

theorem stepOp_IdxOk (findEpoch : Nat → Int) (s : PoolManager) (op : PMOp) (h : IdxOk s)
    (hop : op ≠ PMOp.clearConnections) : IdxOk (stepOp findEpoch s op) := by
  cases op with
  | addConnection conn => exact applyOp_IdxOk s (Op.add conn) h
  | removeConnection idx => exact applyOp_IdxOk s (Op.remove idx) h
  | clearConnections => exact absurd rfl hop
  | setActiveConnection idx => exact applyOp_IdxOk s (Op.setActive idx) h
  | start => exact IdxOk_congr _ _ rfl rfl h
  | stop =>
    refine IdxOk_congr _ s ?_ ?_ h
    · show (stop s).m_connections = _
      unfold stop
      cases h1 : s.m_running <;> cases h2 : s.clientConnected <;> cases h3 : s.farmMining <;>
        simp [h1, h2, h3]
    · show (stop s).m_activeConnectionIdx = _
      unfold stop
      cases h1 : s.m_running <;> cases h2 : s.clientConnected <;> cases h3 : s.farmMining <;>
        simp [h1, h2, h3]
  | rotateConnect =>
    show IdxOk (rotateConnect s).state
    cases hc : s.clientConnected
    · exact rotateConnect_IdxOk s hc
    · have : rotateConnect s = ⟨s, none⟩ := by simp only [rotateConnect, hc, if_true]
      rw [this]
      exact h
  | failoverTimer ec =>
    show IdxOk (failovertimer_elapsed s ec)
    unfold failovertimer_elapsed
    by_cases h1 : ec = ErrorCode.success
    · rw [if_pos h1]
      cases h2 : s.m_running
      · simpa using h
      · by_cases h3 : s.m_activeConnectionIdx ≠ 0
        · simp only [if_true, if_pos h3]
          unfold IdxOk at *
          show 0 < s.m_connections.length ∨ (s.m_connections = [] ∧ 0 = 0)
          rcases h with h | ⟨h, _⟩
          · left; omega
          · right; exact ⟨h, rfl⟩
        · simp only [if_true, if_neg h3]
          exact h
    · rw [if_neg h1]
      exact h
  | submithrTimer ec hashRate =>
    refine IdxOk_congr _ s ?_ ?_ h
    · show (submithrtimer_elapsed s ec hashRate).m_connections = _
      unfold submithrtimer_elapsed
      split
      · split <;> rfl
      · rfl
    · show (submithrtimer_elapsed s ec hashRate).m_activeConnectionIdx = _
      unfold submithrtimer_elapsed
      split
      · split <;> rfl
      · rfl
  | onConnected ep paused =>
    exact IdxOk_congr _ s (onConnected_fields s ep paused).2.1
      (onConnected_fields s ep paused).2.2 h
  | onDisconnected =>
    refine IdxOk_congr _ s ?_ ?_ h
    · show (onDisconnected s).m_connections = _
      unfold onDisconnected
      cases h1 : s.m_stopping <;> cases h2 : s.farmMining <;> simp [h1, h2]
    · show (onDisconnected s).m_activeConnectionIdx = _
      unfold onDisconnected
      cases h1 : s.m_stopping <;> cases h2 : s.farmMining <;> simp [h1, h2]
  | onWorkReceived wp =>
    exact IdxOk_congr _ s (onWorkReceived_idx findEpoch s wp).1
      (onWorkReceived_idx findEpoch s wp).2 h

theorem runOps_IdxOk (findEpoch : Nat → Int) (ops : List PMOp) (s : PoolManager)
    (h : IdxOk s) (hops : ∀ op ∈ ops, op ≠ PMOp.clearConnections) :
    IdxOk (runOps findEpoch s ops) := by
  induction ops generalizing s with
  | nil => exact h
  | cons op rest ih =>
    exact ih (stepOp findEpoch s op)
      (stepOp_IdxOk findEpoch s op h (hops op (List.mem_cons_self _ _)))
      (fun o ho => hops o (List.mem_cons_of_mem _ ho))

/-- C21 (counterexample): from the initial state, after `addConnection(a)`,
`addConnection(b)`, `setActiveConnection(1)`, `clearConnections()`,
`addConnection(c)` the list is `[c]` (non-empty, size 1) and `activeIdx` is 1:
`clearConnections` empties the list without resetting the index. -/
theorem clearConnections_stale_idx :
    (runOps (fun _ => 0) (init 3 0 0) opsClearThenAdd).m_connections = [sampleURI "c"] ∧
    (runOps (fun _ => 0) (init 3 0 0) opsClearThenAdd).m_activeConnectionIdx = 1 ∧
    ¬ ((runOps (fun _ => 0) (init 3 0 0) opsClearThenAdd).m_activeConnectionIdx <
        (runOps (fun _ => 0) (init 3 0 0) opsClearThenAdd).m_connections.length) := by
  decide

/-- C21 (amended): from the initial state, after every finite sequence of
operations of the manager other than `clearConnections` (`addConnection`,
`removeConnection`, `setActiveConnection`, `rotateConnect`, the failover timer,
and also `start`, `stop`, the hash-rate timer and the client handlers), in any
order, `activeIdx < connections.size()` holds whenever the list is non-empty
(and `activeIdx = 0` when it is empty). `clearConnections` empties the list and
leaves `activeIdx` as it was; from any state, a `rotateConnect` that runs with
the client not connected ends with the index in range again. -/
theorem activeIdx_in_range_without_clear (findEpoch : Nat → Int)
    (maxTries failoverTimeout ergodicity : Nat) (ops : List PMOp)
    (hops : ∀ op ∈ ops, op ≠ PMOp.clearConnections) :
    IdxOk (runOps findEpoch (init maxTries failoverTimeout ergodicity) ops) ∧
    ((runOps findEpoch (init maxTries failoverTimeout ergodicity) ops).m_connections ≠ [] →
      (runOps findEpoch (init maxTries failoverTimeout ergodicity) ops).m_activeConnectionIdx <
        (runOps findEpoch (init maxTries failoverTimeout ergodicity) ops).m_connections.length) ∧
    (∀ s : PoolManager, (clearConnections s).m_connections = [] ∧
      (clearConnections s).m_activeConnectionIdx = s.m_activeConnectionIdx) ∧
    (∀ s : PoolManager, s.clientConnected = false → IdxOk (rotateConnect s).state) := by
  have h0 : IdxOk (init maxTries failoverTimeout ergodicity) := Or.inr ⟨rfl, rfl⟩
  have h := runOps_IdxOk findEpoch ops _ h0 hops
  refine ⟨h, ?_, ?_, rotateConnect_IdxOk⟩
  · intro hne
    rcases h with h | ⟨h, _⟩
    · exact h
    · exact absurd h hne
  · intro s
    unfold clearConnections
    cases hc : s.clientConnected <;> simp [hc]

theorem activeIdx_in_range_without_clear_witness :
    IdxOk (runOps (fun _ => 0) (init 3 1 0)
      [PMOp.addConnection (sampleURI "a"), PMOp.addConnection (sampleURI "b"),
       PMOp.setActiveConnection 1, PMOp.start, PMOp.rotateConnect,
       PMOp.failoverTimer ErrorCode.success, PMOp.removeConnection 1]) :=
  (activeIdx_in_range_without_clear (fun _ => 0) 3 1 0 _ (by decide)).1

/-- C22: when the failover timer fires (no error code) while the manager is
running and `activeIdx` is not 0, the new state is the old one with
`activeIdx = 0`, `attempts = 0`, `connectionSwitches` replaced by its unsigned
successor (the old value plus 1 below the top of the range) and exactly one
`client.disconnect()` appended to the calls; in every other case (the timer
was cancelled or failed, the manager is not running, or `activeIdx = 0`) the
state, calls included, is unchanged. -/
theorem failovertimer_elapsed_result (s : PoolManager) (ec : ErrorCode) :
    (ec = ErrorCode.success → s.m_running = true → s.m_activeConnectionIdx ≠ 0 →
      failovertimer_elapsed s ec =
        { s with
            m_activeConnectionIdx := 0
            m_connectionAttempt := 0
            m_connectionSwitches := (s.m_connectionSwitches + 1) % UINT_MOD
            trace := s.trace ++ [Call.clientDisconnect] } ∧
      (s.m_connectionSwitches + 1 < UINT_MOD →
        (failovertimer_elapsed s ec).m_connectionSwitches = s.m_connectionSwitches + 1)) ∧
    (ec ≠ ErrorCode.success ∨ s.m_running = false ∨ s.m_activeConnectionIdx = 0 →
      failovertimer_elapsed s ec = s) := by
  constructor
  · intro h1 h2 h3
    have he : failovertimer_elapsed s ec =
        { s with
            m_activeConnectionIdx := 0
            m_connectionAttempt := 0
            m_connectionSwitches := (s.m_connectionSwitches + 1) % UINT_MOD
            trace := s.trace ++ [Call.clientDisconnect] } := by
      unfold failovertimer_elapsed
      rw [if_pos h1, if_pos h2, if_pos h3]
    refine ⟨he, ?_⟩
    intro hlt
    rw [he]
    exact Nat.mod_eq_of_lt hlt
  · intro h
    unfold failovertimer_elapsed
    by_cases h1 : ec = ErrorCode.success
    · rw [if_pos h1]
      cases h2 : s.m_running
      · simp
      · by_cases h3 : s.m_activeConnectionIdx = 0
        · simp [h3]
        · rcases h with h | h | h
          · exact absurd h1 h
          · rw [h2] at h; exact absurd h (by simp)
          · exact absurd h h3
    · rw [if_neg h1]

theorem failovertimer_elapsed_result_witness :
    (failovertimer_elapsed sampleOnBackup ErrorCode.success).m_activeConnectionIdx = 0 ∧
    (failovertimer_elapsed sampleOnBackup ErrorCode.success).m_connectionSwitches = 1 ∧
    (failovertimer_elapsed sampleOnBackup ErrorCode.success).trace = [Call.clientDisconnect] ∧
    failovertimer_elapsed sampleOnBackup ErrorCode.operationAborted = sampleOnBackup := by
  obtain ⟨h1, h2⟩ := failovertimer_elapsed_result sampleOnBackup ErrorCode.success
  obtain ⟨he, hs⟩ := h1 rfl rfl (by decide)
  refine ⟨by rw [he], hs (by decide), by rw [he]; rfl, ?_⟩
  exact (failovertimer_elapsed_result sampleOnBackup ErrorCode.operationAborted).2
    (Or.inl (by decide))

/-- C29 (evaluation at the failing input): a present package (header 3) with
boundary 0 is accepted by the `onWorkReceived` handler. (1) Delivered first, it
becomes the current package (the boundary equals the initial one, so the
difficulty is not shown), and `getCurrentDifficulty` then divides by zero;
(2) delivered after a package with boundary 5, the handler itself leaves
through the division by zero of `showDifficulty`, the package already stored
and `Farm::setWork` not reached. -/
theorem onWorkReceived_zero_boundary :
    ((onWorkReceived (fun _ => 0) (init 3 0 0) sampleWpZeroBoundary).raised = none ∧
      (onWorkReceived (fun _ => 0) (init 3 0 0) sampleWpZeroBoundary).state.m_currentWp.header
        ≠ 0 ∧
      (onWorkReceived (fun _ => 0) (init 3 0 0) sampleWpZeroBoundary).state.m_currentWp.boundary
        = 0 ∧
      getCurrentDifficulty (onWorkReceived (fun _ => 0) (init 3 0 0) sampleWpZeroBoundary).state
        = .error Exn.divisionByZero) ∧
    ((onWorkReceived (fun _ => 0) (onWorkReceived (fun _ => 0) (init 3 0 0) sampleWp).state
        sampleWpZeroBoundary).raised = some Exn.divisionByZero ∧
      (onWorkReceived (fun _ => 0) (onWorkReceived (fun _ => 0) (init 3 0 0) sampleWp).state
        sampleWpZeroBoundary).state.m_currentWp = sampleWpZeroBoundary ∧
      Call.farmSetWork sampleWpZeroBoundary ∉
        (onWorkReceived (fun _ => 0) (onWorkReceived (fun _ => 0) (init 3 0 0) sampleWp).state
          sampleWpZeroBoundary).state.trace) := by
  refine ⟨⟨by decide, by decide, by decide, rfl⟩, by decide, by decide, by decide⟩

/-- C30: for every state with `activeIdx < connections.size()` and every `idx`
for which `removeConnection(idx)` returns 0, the URI at the new `activeIdx` in
the new list is the URI that was at the old `activeIdx` in the old list (and
the new index is in range). -/
theorem removeConnection_keeps_active (s : PoolManager) (idx : Nat)
    (hi : s.m_activeConnectionIdx < s.m_connections.length)
    (h0 : (removeConnection s idx).1 = 0) :
    (removeConnection s idx).2.m_connections[(removeConnection s idx).2.m_activeConnectionIdx]?
      = s.m_connections[s.m_activeConnectionIdx]? ∧
    (removeConnection s idx).2.m_activeConnectionIdx <
      (removeConnection s idx).2.m_connections.length ∧
    s.m_connections[s.m_activeConnectionIdx]? ≠ none := by
  have hsome : s.m_connections[s.m_activeConnectionIdx]? ≠ none := by
    rw [List.getElem?_eq_getElem hi]
    simp
  by_cases h1 : idx ≥ s.m_connections.length
  · have : (removeConnection s idx).1 = -1 := by
      unfold removeConnection
      rw [if_pos h1]
    rw [this] at h0
    exact absurd h0 (by decide)
  · by_cases h2 : idx = s.m_activeConnectionIdx
    · have : (removeConnection s idx).1 = -2 := by
        unfold removeConnection
        rw [if_neg h1, if_pos h2]
      rw [this] at h0
      exact absurd h0 (by decide)
    · by_cases h3 : s.m_activeConnectionIdx > idx
      · have he : (removeConnection s idx).2 =
            { s with
                m_connections := s.m_connections.eraseIdx idx
                m_activeConnectionIdx := s.m_activeConnectionIdx - 1 } := by
          unfold removeConnection
          rw [if_neg h1, if_neg h2]
          simp only [h3, if_true]
        rw [he]
        refine ⟨?_, ?_, hsome⟩
        · show (s.m_connections.eraseIdx idx)[s.m_activeConnectionIdx - 1]? = _
          rw [List.getElem?_eraseIdx, if_neg (by omega)]
          congr 1
          omega
        · show s.m_activeConnectionIdx - 1 < (s.m_connections.eraseIdx idx).length
          rw [List.length_eraseIdx]
          split <;> omega
      · have he : (removeConnection s idx).2 =
            { s with m_connections := s.m_connections.eraseIdx idx } := by
          unfold removeConnection
          rw [if_neg h1, if_neg h2]
          simp only [h3, if_false]
        rw [he]
        refine ⟨?_, ?_, hsome⟩
        · show (s.m_connections.eraseIdx idx)[s.m_activeConnectionIdx]? = _
          rw [List.getElem?_eraseIdx, if_pos (by omega)]
        · show s.m_activeConnectionIdx < (s.m_connections.eraseIdx idx).length
          rw [List.length_eraseIdx]
          split <;> omega

theorem removeConnection_keeps_active_witness :
    (removeConnection sampleOnBackup 0).2.m_connections[
        (removeConnection sampleOnBackup 0).2.m_activeConnectionIdx]? =
      some (sampleURI "b") :=
  ((removeConnection_keeps_active sampleOnBackup 0 (by decide) (by decide)).1).trans
    (by decide)

/-! ### The hash rate in hexadecimal -/

theorem hexDigit_spec : ∀ k, k < 16 →
    hexDigitValue (hexDigit k) = k ∧ hexDigit k ∈ hexDigits := by
  decide

theorem hexFold_zeros (k : Nat) (l : List Char) :
    (List.replicate k '0' ++ l).foldl (fun acc c => 16 * acc + hexDigitValue c) 0 =
      l.foldl (fun acc c => 16 * acc + hexDigitValue c) 0 := by
  induction k with
  | zero => rfl
  | succ k ih =>
    rw [List.replicate_succ, List.cons_append, List.foldl_cons]
    have : 16 * 0 + hexDigitValue '0' = 0 := by decide
    rw [this]
    exact ih

theorem hexFold_toHex (bytes : List Nat) (hb : ∀ b ∈ bytes, b < 256) :
    ∀ acc, (toHex bytes).foldl (fun acc c => 16 * acc + hexDigitValue c) acc =
      bytes.foldl (fun acc b => 256 * acc + b) acc := by
  induction bytes with
  | nil => intro acc; rfl
  | cons b bs ih =>
    intro acc
    have hlt : b < 256 := hb b (List.mem_cons_self _ _)
    have h1 := (hexDigit_spec (b / 16) (by omega)).1
    have h2 := (hexDigit_spec (b % 16) (Nat.mod_lt _ (by decide))).1
    have he : toHex (b :: bs) = hexDigit (b / 16) :: hexDigit (b % 16) :: toHex bs := by
      simp [toHex]
    rw [he, List.foldl_cons, List.foldl_cons, List.foldl_cons, h1, h2,
      ih (fun x hx => hb x (List.mem_cons_of_mem _ hx))]
    congr 1
    omega

theorem toHex_length (bytes : List Nat) : (toHex bytes).length = 2 * bytes.length := by
  induction bytes with
  | nil => rfl
  | cons b bs ih =>
    have he : toHex (b :: bs) = hexDigit (b / 16) :: hexDigit (b % 16) :: toHex bs := by
      simp [toHex]
    rw [he]
    simp only [List.length_cons, ih]
    omega

theorem toHex_digits (bytes : List Nat) (hb : ∀ b ∈ bytes, b < 256) :
    ∀ c ∈ toHex bytes, c ∈ hexDigits := by
  induction bytes with
  | nil => intro c hc; simp [toHex] at hc
  | cons b bs ih =>
    intro c hc
    have hlt : b < 256 := hb b (List.mem_cons_self _ _)
    have he : toHex (b :: bs) = hexDigit (b / 16) :: hexDigit (b % 16) :: toHex bs := by
      simp [toHex]
    rw [he] at hc
    rcases List.mem_cons.mp hc with e | hc
    · rw [e]; exact (hexDigit_spec (b / 16) (by omega)).2
    · rcases List.mem_cons.mp hc with e | hc
      · rw [e]; exact (hexDigit_spec (b % 16) (Nat.mod_lt _ (by decide))).2
      · exact ih (fun x hx => hb x (List.mem_cons_of_mem _ hx)) c hc

theorem bigEndian_fold (v : Nat) : ∀ n acc,
    ((List.range n).reverse.map fun i => (v / 256 ^ i) % 256).foldl
        (fun acc b => 256 * acc + b) acc =
      acc * 256 ^ n + v % 256 ^ n := by
  intro n
  induction n with
  | zero => intro acc; simp [Nat.mod_one]
  | succ n ih =>
    intro acc
    rw [List.range_succ, List.reverse_append, List.reverse_singleton, List.singleton_append,
      List.map_cons, List.foldl_cons, ih, Nat.mod_pow_succ, Nat.pow_succ]
    ring

theorem byteLength_le : ∀ fuel v, byteLength fuel v ≤ fuel := by
  intro fuel
  induction fuel with
  | zero => intro v; simp [byteLength]
  | succ f ih =>
    intro v
    unfold byteLength
    split
    · omega
    · have := ih (v / 256); omega

theorem byteLength_spec : ∀ fuel v, v < 256 ^ fuel → v < 256 ^ byteLength fuel v := by
  intro fuel
  induction fuel with
  | zero => intro v h; simpa [byteLength] using h
  | succ f ih =>
    intro v h
    unfold byteLength
    split
    · rename_i h0
      rw [h0]; simp
    · have hd : v / 256 < 256 ^ f := by
        rw [Nat.div_lt_iff_lt_mul (by decide)]
        rw [Nat.pow_succ] at h
        exact h
      have := ih (v / 256) hd
      rw [Nat.pow_succ]
      rw [Nat.div_lt_iff_lt_mul (by decide)] at this
      exact this

theorem toCompactBigEndian_spec (r : Nat) (hr : r < 2 ^ 64) :
    (toCompactBigEndian r 1).length ≤ 8 ∧
    (∀ b ∈ toCompactBigEndian r 1, b < 256) ∧
    (toCompactBigEndian r 1).foldl (fun acc b => 256 * acc + b) 0 = r := by
  have hle := byteLength_le 8 r
  have hsp := byteLength_spec 8 r (by simpa using hr)
  refine ⟨?_, ?_, ?_⟩
  · simp only [toCompactBigEndian, List.length_map, List.length_reverse, List.length_range]
    omega
  · intro b hb
    simp only [toCompactBigEndian, List.mem_map] at hb
    obtain ⟨i, _, hi⟩ := hb
    rw [← hi]
    exact Nat.mod_lt _ (by decide)
  · unfold toCompactBigEndian
    rw [bigEndian_fold, Nat.zero_mul, Nat.zero_add]
    apply Nat.mod_eq_of_lt
    exact lt_of_lt_of_le hsp (Nat.pow_le_pow_right (by decide) (le_max_right _ _))

/-- C25: for every 64-bit hash rate `r`, the string the hash-rate timer passes
to `client.submitHashrate` is `0x` followed by exactly 64 hexadecimal digits (66
characters in total) whose big-endian value is `r`, `r = 0` included; and when
the timer fires with no error while the manager is running and the client is
connected, that string is the argument of the one `submitHashrate` call made,
followed by the re-arming of the timer. -/
theorem hashrateHex_value (r : Nat) (hr : r < 2 ^ 64) :
    (∃ digits, (hashrateHex r).data = '0' :: 'x' :: digits ∧ digits.length = 64 ∧
      (∀ c ∈ digits, c ∈ hexDigits) ∧ hexValue digits = r) ∧
    (hashrateHex r).length = 66 ∧
    (∀ s : PoolManager, s.m_running = true → s.clientConnected = true →
      (submithrtimer_elapsed s ErrorCode.success r).trace =
        s.trace ++ [Call.clientSubmitHashrate (hashrateHex r),
          Call.submithrTimerArm s.m_hrReportingInterval]) := by
  obtain ⟨c1, c2, c3⟩ := toCompactBigEndian_spec r hr
  have hlen := toHex_length (toCompactBigEndian r 1)
  have hdig := toHex_digits (toCompactBigEndian r 1) c2
  have hval : hexValue (toHex (toCompactBigEndian r 1)) = r := by
    unfold hexValue
    rw [hexFold_toHex _ c2, c3]
  -- the string without its leading zero digit
  have hres : ∃ res : List Char,
      res = (if (toHex (toCompactBigEndian r 1)).head? ≠ some '0'
        then toHex (toCompactBigEndian r 1) else (toHex (toCompactBigEndian r 1)).drop 1) ∧
      res.length ≤ 16 ∧ (∀ c ∈ res, c ∈ hexDigits) ∧ hexValue res = r := by
    refine ⟨_, rfl, ?_, ?_, ?_⟩
    · split
      · omega
      · rw [List.length_drop]; omega
    · intro c hc
      split at hc
      · exact hdig c hc
      · exact hdig c (List.mem_of_mem_drop hc)
    · split
      · exact hval
      · rename_i hh
        cases ht : toHex (toCompactBigEndian r 1) with
        | nil => rw [ht] at hval; rw [← hval]; rfl
        | cons d ds =>
          rw [ht] at hh hval
          have hd : d = '0' := by
            simp only [List.head?_cons, ne_eq, Option.some.injEq, not_not] at hh
            exact hh
          rw [hd] at hval
          rw [← hval]
          show hexValue ds = hexValue ('0' :: ds)
          unfold hexValue
          rw [List.foldl_cons]
          rfl
  obtain ⟨res, hre, hrl, hrd, hrv⟩ := hres
  have hstr : hashrateHex r =
      "0x" ++ String.mk (List.replicate (64 - res.length) '0' ++ res) := by
    rw [hre]
    rfl
  have hdata : (hashrateHex r).data =
      '0' :: 'x' :: (List.replicate (64 - res.length) '0' ++ res) := by
    rw [hstr, String.data_append]
    rfl
  have hl64 : (List.replicate (64 - res.length) '0' ++ res).length = 64 := by
    rw [List.length_append, List.length_replicate]
    omega
  refine ⟨⟨_, hdata, hl64, ?_, ?_⟩, ?_, ?_⟩
  · intro c hc
    rcases List.mem_append.mp hc with h | h
    · rw [(List.mem_replicate.mp h).2]
      decide
    · exact hrd c h
  · unfold hexValue
    rw [hexFold_zeros]
    exact hrv
  · show (hashrateHex r).data.length = 66
    rw [hdata]
    simp only [List.length_cons, hl64]
  · intro s h1 h2
    simp [submithrtimer_elapsed, h1, h2]

theorem hashrateHex_value_witness :
    (hashrateHex 4660).length = 66 ∧
    hashrateHex 0 =
      "0x0000000000000000000000000000000000000000000000000000000000000000" :=
  ⟨(hashrateHex_value 4660 (by decide)).2.1, by decide⟩
end PoolManager

namespace GetworkClient

theorem stop_work_fields (s : GetworkClient) :
    (stop_work s).m_session = s.m_session ∧
    (stop_work s).m_txQueue = s.m_txQueue ∧
    (stop_work s).m_solution_submitted_max_id = s.m_solution_submitted_max_id ∧
    (stop_work s).m_txPending = s.m_txPending ∧
    (stop_work s).m_endpoints = s.m_endpoints ∧
    (stop_work s).zilMode = s.zilMode ∧
    (stop_work s).m_conn = s.m_conn ∧
    (stop_work s).handlerWorkReceived = s.handlerWorkReceived := by
  unfold stop_work
  split <;> simp

theorem stop_work_calls (s : GetworkClient) (h : s.handlerWorkReceived = true) :
    (stop_work s).calls =
      s.calls ++ [ClientCall.onWorkReceived { s.m_current with header := 0 }] := by
  simp [stop_work, h]

theorem stop_work_calls_mono (s : GetworkClient) :
    ∃ rest, (stop_work s).calls = s.calls ++ rest := by
  unfold stop_work
  split
  · exact ⟨_, rfl⟩
  · exact ⟨[], by simp⟩

theorem disconnect_fields (s : GetworkClient) :
    (disconnect s).m_solution_submitted_max_id = s.m_solution_submitted_max_id ∧
    ∃ rest, (disconnect s).calls = s.calls ++ rest := by
  unfold disconnect
  cases hs : s.m_session <;> cases hd : s.handlerDisconnected <;>
    simp [hs, hd]

theorem begin_connect_fields (s : GetworkClient) :
    (begin_connect s).m_solution_submitted_max_id = s.m_solution_submitted_max_id ∧
    (∃ rest, (begin_connect s).calls = s.calls ++ rest) ∧
    (s.m_endpoints ≠ [] → (begin_connect s).m_txQueue = s.m_txQueue) := by
  obtain ⟨d1, d2⟩ := disconnect_fields s
  cases he : s.m_endpoints with
  | nil =>
    have : begin_connect s = disconnect s := by simp only [begin_connect, he]
    rw [this]
    exact ⟨d1, d2, fun h => absurd rfl h⟩
  | cons ep rest =>
    have : begin_connect s =
        { s with
            m_endpoint := ep
            socketOpen := true
            calls := s.calls ++
              [ClientCall.connectTimerCancel, ClientCall.connectTimerArm 10,
               ClientCall.asyncConnect ep] } := by
      simp only [begin_connect, he]
    rw [this]
    exact ⟨rfl, ⟨_, rfl⟩, fun _ => rfl⟩

theorem send_fields (s : GetworkClient) (req : Request) :
    (send s req).m_solution_submitted_max_id = s.m_solution_submitted_max_id ∧
    (∃ rest, (send s req).calls = s.calls ++ rest) ∧
    (s.m_txPending = true ∨ s.m_endpoints ≠ [] →
      (send s req).m_txQueue = s.m_txQueue ++ [req]) := by
  cases hp : s.m_txPending with
  | false =>
    have : send s req =
        begin_connect { s with m_txQueue := s.m_txQueue ++ [req], m_txPending := true } := by
      simp only [send, hp, if_true]
    rw [this]
    obtain ⟨b1, b2, b3⟩ := begin_connect_fields
      { s with m_txQueue := s.m_txQueue ++ [req], m_txPending := true }
    refine ⟨b1, b2, ?_⟩
    intro h
    rcases h with h | h
    · exact absurd h (by simp)
    · exact b3 h
  | true =>
    have : send s req = { s with m_txQueue := s.m_txQueue ++ [req] } := by
      simp only [send, hp, Bool.true_eq_false, if_false]
    rw [this]
    exact ⟨rfl, ⟨[], by simp⟩, fun _ => rfl⟩

theorem sendSolution_fields (s : GetworkClient) (solution : Solution) :
    (∃ rest, (sendSolution s solution).calls = s.calls ++ rest) ∧
    (s.m_session = none → sendSolution s solution = s) ∧
    (s.m_session ≠ none →
      (sendSolution s solution).m_solution_submitted_max_id =
        max s.m_solution_submitted_max_id ((40 + solution.midx) % UINT_MOD) ∧
      (s.m_txPending = true ∨ s.m_endpoints ≠ [] →
        (sendSolution s solution).m_txQueue =
          s.m_txQueue ++ [submitWorkRequest s solution])) := by
  cases hs : s.m_session with
  | none =>
    have : sendSolution s solution = s := by simp only [sendSolution, hs]
    rw [this]
    exact ⟨⟨[], by simp⟩, fun _ => rfl, fun h => absurd rfl h⟩
  | some sess =>
    have : sendSolution s solution =
        send { s with
                 m_solution_submitted_max_id :=
                   max s.m_solution_submitted_max_id ((40 + solution.midx) % UINT_MOD) }
          (submitWorkRequest s solution) := by
      simp only [sendSolution, hs]
    rw [this]
    obtain ⟨g1, g2, g3⟩ := send_fields
      { s with
          m_solution_submitted_max_id :=
            max s.m_solution_submitted_max_id ((40 + solution.midx) % UINT_MOD) }
      (submitWorkRequest s solution)
    exact ⟨g2, fun h => by simp at h, fun _ => ⟨g1, g3⟩⟩

/-- C4 (counterexample): in ZIL mode outside the PoW window, with a session, a
solution of a real package (header 5, miner 3) is enqueued as an
`eth_submitWork` request with id 43, and `solutionSubmittedMaxId` goes from 0
to 43. -/
theorem submitSolution_off_window_enqueues :
    sampleClient.zilMode = true ∧ sampleClient.m_zil_pow_running = false ∧
    (submitSolution sampleClient sampleSolution).m_txQueue ≠ sampleClient.m_txQueue ∧
    (submitSolution sampleClient sampleSolution).m_txQueue =
      [⟨43, "eth_submitWork", [Param.hex 99, Param.hex 5, Param.hex 77, Param.hex 5,
        Param.str "wallet", Param.str "rig"]⟩] ∧
    (submitSolution sampleClient sampleSolution).m_solution_submitted_max_id ≠
      sampleClient.m_solution_submitted_max_id := by
  decide

/-- C4 (amended): in ZIL mode, for every solution submitted while no PoW window
is running, `submitSolution` first stops work (with the work handler installed,
the first thing it does is emit the current package with its header cleared).
The solution is dropped (nothing enqueued, `solutionSubmittedMaxId` unchanged)
when its header is the dummy `0xDEADBEEF` or when there is no session. With a
session and a real header the `eth_submitWork` request with id `40 + minerIndex`
is sent as inside a window: `solutionSubmittedMaxId` becomes the maximum of its
old value and that id, and the request is appended to `txQueue` (when a request
is in flight or an endpoint remains). -/
theorem submitSolution_off_window (s : GetworkClient) (solution : Solution)
    (hz : s.zilMode = true) (hr : s.m_zil_pow_running = false) :
    (s.handlerWorkReceived = true →
      ∃ rest, (submitSolution s solution).calls =
        s.calls ++ [ClientCall.onWorkReceived { s.m_current with header := 0 }] ++ rest) ∧
    (solution.work.header = dummyHeader ∨ s.m_session = none →
      (submitSolution s solution).m_txQueue = s.m_txQueue ∧
      (submitSolution s solution).m_solution_submitted_max_id =
        s.m_solution_submitted_max_id) ∧
    (solution.work.header ≠ dummyHeader → s.m_session ≠ none →
      (submitSolution s solution).m_solution_submitted_max_id =
        max s.m_solution_submitted_max_id ((40 + solution.midx) % UINT_MOD) ∧
      (s.m_txPending = true ∨ s.m_endpoints ≠ [] →
        (submitSolution s solution).m_txQueue =
          s.m_txQueue ++
            [⟨(40 + solution.midx) % UINT_MOD, "eth_submitWork",
              [Param.hex solution.nonce, Param.hex solution.work.header,
               Param.hex solution.mixHash, Param.hex solution.work.boundary,
               Param.str s.m_conn.User, Param.str s.m_conn.Workername]⟩])) := by
  obtain ⟨f1, f2, f3, f4, f5, f6, f7, f8⟩ := stop_work_fields s
  have hcond : (s.zilMode && !s.m_zil_pow_running) = true := by simp [hz, hr]
  have hdummy : solution.work.header = dummyHeader →
      submitSolution s solution = stop_work (stop_work s) := by
    intro hd
    simp only [submitSolution, hcond, if_true, hd]
  have hreal : solution.work.header ≠ dummyHeader →
      submitSolution s solution = sendSolution (stop_work s) solution := by
    intro hd
    simp only [submitSolution, hcond, if_true, hd, if_false]
  have hc1 := stop_work_calls s
  refine ⟨?_, ?_, ?_⟩
  · intro hh
    by_cases hd : solution.work.header = dummyHeader
    · rw [hdummy hd]
      obtain ⟨rest, hrest⟩ := stop_work_calls_mono (stop_work s)
      exact ⟨rest, by rw [hrest, hc1 hh]⟩
    · rw [hreal hd]
      obtain ⟨rest, hrest⟩ := sendSolution_fields (stop_work s) solution |>.1
      exact ⟨rest, by rw [hrest, hc1 hh]⟩
  · intro hcase
    by_cases hd : solution.work.header = dummyHeader
    · rw [hdummy hd]
      obtain ⟨_, g2, g3, _⟩ := stop_work_fields (stop_work s)
      exact ⟨by rw [g2, f2], by rw [g3, f3]⟩
    · have hs : s.m_session = none := by
        rcases hcase with h | h
        · exact absurd h hd
        · exact h
      rw [hreal hd]
      have hn := (sendSolution_fields (stop_work s) solution).2.1 (by rw [f1, hs])
      rw [hn]
      exact ⟨f2, f3⟩
  · intro hd hs
    rw [hreal hd]
    obtain ⟨g1, g2⟩ := (sendSolution_fields (stop_work s) solution).2.2 (by rw [f1]; exact hs)
    refine ⟨by rw [g1, f3], ?_⟩
    intro hq
    rw [g2 (by simpa only [f4, f5] using hq)]
    simp only [f2, submitWorkRequest, f6, hz, f7, if_true, List.cons_append,
      List.nil_append]

/-- Instance of the off-window behaviour on the sample client: a real solution
raises the maximum id to 43, the dummy one leaves the queue empty. -/
theorem submitSolution_off_window_witness :
    (submitSolution sampleClient sampleSolution).m_solution_submitted_max_id = 43 ∧
    (submitSolution sampleClient
      { sampleSolution with work := { sampleSolution.work with header := dummyHeader } }).m_txQueue
      = [] :=
  ⟨((submitSolution_off_window sampleClient sampleSolution rfl rfl).2.2
      (by decide) (by decide)).1,
   ((submitSolution_off_window sampleClient
      { sampleSolution with work := { sampleSolution.work with header := dummyHeader } }
      rfl rfl).2.1 (Or.inl rfl)).1⟩

theorem strFind_bound (pattern : List Char) :
    ∀ (l : List Char) (off : Nat), strFind pattern l = some off →
      off + pattern.length ≤ l.length := by
  intro l
  induction l with
  | nil =>
    intro off h
    unfold strFind at h
    split at h
    · rename_i hp
      simp only [Option.some.injEq] at h
      subst h
      simp [hp]
    · exact absurd h (by simp)
  | cons c cs ih =>
    intro off h
    unfold strFind at h
    split at h
    · rename_i hp
      simp only [Option.some.injEq] at h
      subst h
      have := hp.length_le
      simpa using this
    · cases hr : strFind pattern cs with
      | none => simp [hr] at h
      | some k =>
        simp only [hr, Option.map_some', Option.some.injEq] at h
        subst h
        have := ih k hr
        simp only [List.length_cons]
        omega

theorem readLoop_total {J : Type} (parse : List Char → Option J)
    (processResponse : GetworkClient → J → GetworkClient) :
    ∀ (fuel : Nat) (s : GetworkClient) (rx : List Char) (off : Option Nat) (linenum : Nat)
      (isHeader : Bool), rx.length < fuel →
      (readLoop parse processResponse fuel s rx off linenum isHeader).isSome = true := by
  intro fuel
  induction fuel with
  | zero => intro s rx off linenum isHeader h; exact absurd h (Nat.not_lt_zero _)
  | succ fuel ih =>
    intro s rx off linenum isHeader h
    unfold readLoop
    cases off with
    | none => rfl
    | some k =>
      simp only []
      by_cases h0 : rx.length = 0
      · simp only [h0, if_true, Option.isSome_some]
      · simp only [h0, if_false]
        have hd : (rx.drop (k + 2)).length < fuel := by
          rw [List.length_drop]
          omega
        have hf : ((rx.drop (k + 2)).filter (· ≠ '\n')).length < fuel :=
          lt_of_le_of_lt (List.length_filter_le _ _) hd
        split
        · split
          · exact ih _ _ _ _ _ hd
          · exact ih _ _ _ _ _ hf
        · split
          · split
            · exact ih _ _ _ _ _ hd
            · rfl
          · split
            · exact ih _ _ _ _ _ hd
            · exact ih _ _ _ _ _ hd

/-- `handle_read` always returns: the fuel given to the loop covers it. -/
theorem handle_read_total {J : Type} (parse : List Char → Option J)
    (processResponse : GetworkClient → J → GetworkClient) (s : GetworkClient)
    (ec : ErrorCode) (rx_message : List Char) :
    (handle_read parse processResponse s ec rx_message).isSome = true := by
  unfold handle_read
  split
  · split
    · rfl
    · have h := readLoop_total parse processResponse (rx_message.length + 1) (readPrologue s)
        rx_message (strFind linedelimiter rx_message) 0 true (Nat.lt_succ_self _)
      simp only []
      cases hr : readLoop parse processResponse (rx_message.length + 1) (readPrologue s)
          rx_message (strFind linedelimiter rx_message) 0 true with
      | none =>
        rw [hr] at h
        exact absurd h (by simp)
      | some r =>
        obtain ⟨s2, b⟩ := r
        cases b <;> rfl
  · split <;> rfl

/-- The check of the status line where the code performs it: when the response
contains a CRLF, its first line (up to the first CRLF) is not empty and is not
an accepted status line, `handle_read` ends in `disconnect()` and processes no
document. -/
theorem handle_read_bad_status {J : Type} (parse : List Char → Option J)
    (processResponse : GetworkClient → J → GetworkClient) (s : GetworkClient)
    (rx_message : List Char) (off : Nat)
    (hoff : strFind linedelimiter rx_message = some off) (hne : off ≠ 0)
    (hbad : statusLineOk (rx_message.take off) = false) :
    handle_read parse processResponse s ErrorCode.success rx_message =
      some (disconnect (readPrologue s)) ∧
    handle_read parse processResponse s ErrorCode.eof rx_message =
      some (disconnect (readPrologue s)) := by
  have hb := strFind_bound linedelimiter rx_message off hoff
  have hlen : rx_message.length ≠ 0 := by
    simp only [linedelimiter, List.length_cons, List.length_nil] at hb
    omega
  have hline : (rx_message.take off).isEmpty = false := by
    cases hr : rx_message with
    | nil => simp [hr] at hlen
    | cons c cs =>
      cases off with
      | zero => exact absurd rfl hne
      | succ k => rfl
  have hloop : readLoop parse processResponse (rx_message.length + 1) (readPrologue s)
      rx_message (some off) 0 true = some (disconnect (readPrologue s), true) := by
    unfold readLoop
    simp only [hlen, if_false, hline, Bool.false_eq_true, hbad]
    rfl
  constructor
  · unfold handle_read
    simp only [true_or, if_true, hlen, if_false, hoff, hloop]
  · unfold handle_read
    simp only [or_true, if_true, hlen, if_false, hoff, hloop]

/-- C5 (evaluation at failing inputs): for every JSON parser, response handler
and client state, on a read completed by end of file, (1) the response `HTTP/1.1 500 Internal Server Error` received
without a line end (status not 200) is neither processed nor followed by
`disconnect()`: the handler goes on to flush the queue, and the sample client
stays connected with no `onDisconnected` raised; (2) the response made of an
empty first line followed by a JSON text is handed to the JSON parser and, when
it parses, to `processResponse`, with no status check and no `disconnect()`. -/
theorem handle_read_status_unchecked {J : Type} (parse : List Char → Option J)
    (processResponse : GetworkClient → J → GetworkClient) (s : GetworkClient) :
    handle_read parse processResponse s ErrorCode.eof
        "HTTP/1.1 500 Internal Server Error".toList =
      some (readEpilogue (readPrologue s)) ∧
    (handle_read parse processResponse sampleClient ErrorCode.eof
        "HTTP/1.1 500 Internal Server Error".toList).map (fun c => (c.m_connected, c.calls)) =
      some (true, [ClientCall.connectTimerCancel, ClientCall.socketClose]) ∧
    handle_read parse processResponse s ErrorCode.eof "\r\n\x7b\"id\":1\x7d".toList =
      some (readEpilogue
        (processBody parse processResponse (readPrologue s) "\x7b\"id\":1\x7d".toList)) :=
  ⟨rfl, rfl, rfl⟩



theorem countWorkReceived_append (a b : List ClientCall) :
    countWorkReceived (a ++ b) = countWorkReceived a + countWorkReceived b := by
  simp [countWorkReceived, List.filter_append]

theorem processResponse_getWork (s : GetworkClient) (r : Response) (v : ResultView)
    (hid : pendingId s = 0 ∨ pendingId s = 1) (hidm : r.id ≠ none)
    (herr : r.errorEmpty = true) (hres : r.result = some v) :
    processResponse s r = processGetWork s v.work := by
  unfold processResponse
  cases hi : r.id with
  | none => exact absurd hi hidm
  | some x =>
    simp only [hid, if_true, herr, Bool.not_true, Bool.false_eq_true, if_false, hres]

theorem forwardWork_same (s : GetworkClient) (wp : WorkPackage)
    (h1 : s.m_current.header = wp.header) (h2 : s.m_current.boundary = wp.boundary) :
    forwardWork s wp = s := by
  unfold forwardWork
  have hd : ¬ (s.m_current.header ≠ wp.header ∨ s.m_current.boundary ≠ wp.boundary) := by
    intro h
    rcases h with h | h
    · exact h h1
    · exact h h2
  simp only [hd, if_false]

/-- The three outcomes of `forwardWork`: nothing, the package stored, the package
stored and raised. -/
theorem forwardWork_cases (s : GetworkClient) (wp : WorkPackage) :
    (forwardWork s wp = s ∧
      ((s.m_current.header = wp.header ∧ s.m_current.boundary = wp.boundary) ∨
        (s.zilMode = true ∧ s.m_zil_pow_running = false))) ∨
    ((s.zilMode = false ∨ s.m_zil_pow_running = true) ∧
      (forwardWork s wp = { s with m_current := wp, m_current_tstamp := s.now } ∧
          s.handlerWorkReceived = false ∨
        forwardWork s wp =
            { s with
                m_current := wp
                m_current_tstamp := s.now
                calls := s.calls ++ [ClientCall.onWorkReceived wp] } ∧
          s.handlerWorkReceived = true)) := by
  by_cases hd : s.m_current.header ≠ wp.header ∨ s.m_current.boundary ≠ wp.boundary
  · by_cases hm : (!s.zilMode || s.m_zil_pow_running) = true
    · right
      have hm' : s.zilMode = false ∨ s.m_zil_pow_running = true := by
        cases hz : s.zilMode <;> cases hr : s.m_zil_pow_running <;> simp [hz, hr] at hm ⊢
      refine ⟨hm', ?_⟩
      cases hh : s.handlerWorkReceived
      · left
        refine ⟨?_, rfl⟩
        simp only [forwardWork, hd, if_true, hm, hh, Bool.false_eq_true, if_false]
      · right
        refine ⟨?_, rfl⟩
        simp only [forwardWork, hd, if_true, hm, hh]
    · left
      have hm' : s.zilMode = true ∧ s.m_zil_pow_running = false := by
        cases hz : s.zilMode <;> cases hr : s.m_zil_pow_running <;> simp [hz, hr] at hm ⊢
      refine ⟨?_, Or.inr hm'⟩
      simp only [forwardWork, hd, if_true, hm, Bool.false_eq_true, if_false]
  · left
    have h1 : s.m_current.header = wp.header := by
      by_contra h; exact hd (Or.inl h)
    have h2 : s.m_current.boundary = wp.boundary := by
      by_contra h; exact hd (Or.inr h)
    exact ⟨forwardWork_same s wp h1 h2, Or.inl ⟨h1, h2⟩⟩

theorem forwardWork_default (s : GetworkClient) (wp : WorkPackage) (hz : s.zilMode = false) :
    (forwardWork s wp).m_current.header = wp.header ∧
    (forwardWork s wp).m_current.boundary = wp.boundary ∧
    (forwardWork s wp).zilMode = false ∧
    (forwardWork s wp).m_pendingJReq = s.m_pendingJReq ∧
    (forwardWork s wp).m_farmRecheckPeriod = s.m_farmRecheckPeriod ∧
    countWorkReceived (forwardWork s wp).calls ≤ countWorkReceived s.calls + 1 := by
  rcases forwardWork_cases s wp with ⟨he, hc⟩ | ⟨_, ⟨he, _⟩ | ⟨he, _⟩⟩
  · rw [he]
    rcases hc with ⟨h1, h2⟩ | ⟨h1, _⟩
    · exact ⟨h1, h2, hz, rfl, rfl, Nat.le_succ _⟩
    · rw [hz] at h1
      exact absurd h1 (by simp)
  · rw [he]
    exact ⟨rfl, rfl, hz, rfl, rfl, Nat.le_succ _⟩
  · rw [he]
    refine ⟨rfl, rfl, hz, rfl, rfl, ?_⟩
    show countWorkReceived (s.calls ++ [ClientCall.onWorkReceived wp]) ≤ _
    rw [countWorkReceived_append]
    exact le_refl _

theorem processGetWork_default (s : GetworkClient) (w : GetWorkResult)
    (hz : s.zilMode = false) :
    processGetWork s w =
      armGetworkTimer (forwardWork s (newWorkPackage w)) s.m_farmRecheckPeriod := by
  obtain ⟨_, _, hf, _, hr, _⟩ := forwardWork_default s (newWorkPackage w) hz
  unfold processGetWork
  simp only [hz, Bool.false_eq_true, if_false, hf, hr]

/-- C13 (counterexample): in ZIL mode inside a running window, a reply with a
new package that also reports the window over makes `processResponse` raise
`onWorkReceived` twice (the new package, then the empty package of
`stop_work`), so two successive identical replies raise it twice in total. -/
theorem processResponse_twice_in_window :
    sampleInWindow.zilMode = true ∧ pendingId sampleInWindow = 1 ∧
    countWorkReceived sampleInWindow.calls = 0 ∧
    ¬ (countWorkReceived
        (processResponse (processResponse sampleInWindow sampleReply) sampleReply).calls ≤ 1) := by
  decide

/-- C13 (amended): in default (non-ZIL) mode, for every client state in which a
getWork request is pending (id 0 or 1), processing two successive identical
successful `eth_getWork` replies raises `onWorkReceived` at most once in total:
after the first reply the current package has the reply's header and boundary,
so the second reply does nothing but arm the getwork timer with
`farmRecheckMs`. -/
theorem processResponse_duplicate_suppressed (s : GetworkClient) (r : Response)
    (v : ResultView) (hz : s.zilMode = false)
    (hid : pendingId s = 0 ∨ pendingId s = 1) (hidm : r.id ≠ none)
    (herr : r.errorEmpty = true) (hres : r.result = some v) :
    processResponse (processResponse s r) r =
      armGetworkTimer (processResponse s r) s.m_farmRecheckPeriod ∧
    countWorkReceived (processResponse (processResponse s r) r).calls ≤
      countWorkReceived s.calls + 1 := by
  have h1 := processResponse_getWork s r v hid hidm herr hres
  obtain ⟨f1, f2, f3, f4, f5, f6⟩ := forwardWork_default s (newWorkPackage v.work) hz
  have hd := processGetWork_default s v.work hz
  have hz1 : (processResponse s r).zilMode = false := by rw [h1, hd]; exact f3
  have hp1 : pendingId (processResponse s r) = pendingId s := by
    unfold pendingId
    rw [h1, hd]
    show (match (forwardWork s (newWorkPackage v.work)).m_pendingJReq with
      | some req => req.id
      | none => 0) = _
    rw [f4]
  have hid1 : pendingId (processResponse s r) = 0 ∨ pendingId (processResponse s r) = 1 := by
    rw [hp1]; exact hid
  have h2 := processResponse_getWork (processResponse s r) r v hid1 hidm herr hres
  have hsame : forwardWork (processResponse s r) (newWorkPackage v.work) =
      processResponse s r := by
    apply forwardWork_same
    · rw [h1, hd]; exact f1
    · rw [h1, hd]; exact f2
  have hre : (processResponse s r).m_farmRecheckPeriod = s.m_farmRecheckPeriod := by
    rw [h1, hd]; exact f5
  have h3 := processGetWork_default (processResponse s r) v.work hz1
  rw [hsame, hre] at h3
  have hfirst : processResponse (processResponse s r) r =
      armGetworkTimer (processResponse s r) s.m_farmRecheckPeriod := by
    rw [h2, h3]
  refine ⟨hfirst, ?_⟩
  rw [hfirst, h1, hd]
  show countWorkReceived (((forwardWork s (newWorkPackage v.work)).calls ++
    [ClientCall.getworkTimerArm s.m_farmRecheckPeriod]) ++
    [ClientCall.getworkTimerArm s.m_farmRecheckPeriod]) ≤ _
  rw [countWorkReceived_append, countWorkReceived_append]
  have : countWorkReceived [ClientCall.getworkTimerArm s.m_farmRecheckPeriod] = 0 := rfl
  omega

/-- Instance on the sample default-mode client and the sample reply: the two
replies raise `onWorkReceived` once in all. -/
theorem processResponse_duplicate_suppressed_witness :
    countWorkReceived
      (processResponse (processResponse sampleDefault sampleReply) sampleReply).calls ≤ 1 :=
  (processResponse_duplicate_suppressed sampleDefault sampleReply
    ⟨⟨9, true, 7, 5, false, 100⟩, false, false⟩ rfl (by decide) (by decide) rfl rfl).2


theorem openWindow_eq (s : GetworkClient) (w : GetWorkResult) :
    openWindow s w =
      { s with
          m_zil_pow_running := true
          m_current_tstamp := s.now
          calls := s.calls ++ startCalls s w } := by
  unfold openWindow startCalls
  cases h1 : s.handlerPoWStart <;> cases h2 : s.handlerWorkReceived <;>
    by_cases h3 : w.header = 0 <;> first | rfl | simp [h1, h2, h3]

theorem noteWork_fields (s : GetworkClient) (w : GetWorkResult) :
    (noteWork s w).calls = s.calls ∧ (noteWork s w).zilMode = s.zilMode ∧
    (noteWork s w).m_zil_pow_running = s.m_zil_pow_running ∧
    (noteWork s w).handlerPoWStart = s.handlerPoWStart ∧
    (noteWork s w).handlerWorkReceived = s.handlerWorkReceived ∧
    (noteWork s w).m_current = s.m_current ∧
    (noteWork s w).now = s.now ∧
    (noteWork s w).m_powend_timeout = s.m_powend_timeout ∧
    (noteWork s w).m_powstart_seconds = s.m_powstart_seconds ∧
    (noteWork s w).m_pow_window_timeout =
      (if w.header ≠ 0 then false else s.m_pow_window_timeout) := by
  unfold noteWork
  by_cases h : w.header ≠ 0
  · rw [if_pos h, if_pos h]
    exact ⟨rfl, rfl, rfl, rfl, rfl, rfl, rfl, rfl, rfl, rfl⟩
  · rw [if_neg h, if_neg h]
    exact ⟨rfl, rfl, rfl, rfl, rfl, rfl, rfl, rfl, rfl, rfl⟩

/-- The window-opening test spelled out on the state before the reply. -/
theorem windowStartCond_noteWork (s : GetworkClient) (w : GetWorkResult) :
    windowStartCond (noteWork s w) w = true ↔
      ((w.powRunning = true ∨ w.secsToNextPoW ≤ s.m_powstart_seconds) ∧
        (w.header ≠ 0 ∨ s.m_pow_window_timeout = false) ∧
        s.m_zil_pow_running = false) := by
  obtain ⟨_, _, n3, _, _, _, _, _, n9, n10⟩ := noteWork_fields s w
  unfold windowStartCond
  rw [n3, n9, n10]
  by_cases h : w.header ≠ 0
  · simp [h, and_assoc]
  · simp [h, and_assoc]

theorem zilWindowEntry_fields (s : GetworkClient) (w : GetWorkResult) :
    (zilWindowEntry s w).calls =
      s.calls ++ (if windowStartCond (noteWork s w) w then startCalls s w else []) ∧
    (zilWindowEntry s w).m_zil_pow_running =
      (s.m_zil_pow_running || windowStartCond (noteWork s w) w) ∧
    (zilWindowEntry s w).zilMode = s.zilMode ∧
    (zilWindowEntry s w).now = s.now ∧
    (zilWindowEntry s w).m_powend_timeout = s.m_powend_timeout ∧
    (zilWindowEntry s w).m_powstart_seconds = s.m_powstart_seconds ∧
    (zilWindowEntry s w).handlerWorkReceived = s.handlerWorkReceived ∧
    (zilWindowEntry s w).handlerPoWEnd = s.handlerPoWEnd ∧
    (zilWindowEntry s w).m_current = s.m_current ∧
    (windowStartCond (noteWork s w) w = true →
      (zilWindowEntry s w).m_current_tstamp = s.now) := by
  obtain ⟨n1, n2, n3, n4, n5, n6, n7, n8, n9, _⟩ := noteWork_fields s w
  have hs : startCalls (noteWork s w) w = startCalls s w := by
    unfold startCalls
    rw [n4, n5, n6]
  by_cases h : windowStartCond (noteWork s w) w = true
  · have he : zilWindowEntry s w = openWindow (noteWork s w) w := by
      simp only [zilWindowEntry, h, if_true]
    rw [he, openWindow_eq, hs, h]
    refine ⟨?_, ?_, n2, n7, n8, n9, n5, ?_, n6, fun _ => n7⟩
    · show (noteWork s w).calls ++ startCalls s w = _
      rw [n1]
      rfl
    · show true = _
      simp
    · show (noteWork s w).handlerPoWEnd = _
      unfold noteWork
      split <;> rfl
  · have hf : windowStartCond (noteWork s w) w = false := by
      simpa using h
    have he : zilWindowEntry s w = noteWork s w := by
      simp only [zilWindowEntry, hf, Bool.false_eq_true, if_false]
    rw [he, hf]
    refine ⟨?_, ?_, n2, n7, n8, n9, n5, ?_, n6, fun hx => absurd hx (by simp)⟩
    · rw [n1]; simp
    · rw [n3]; simp
    · unfold noteWork
      split <;> rfl

theorem zilWindowEntry_closed (s : GetworkClient) (w : GetWorkResult)
    (h : ¬ (windowStartCond (noteWork s w) w = true)) :
    zilWindowEntry s w = noteWork s w := by
  have hf : windowStartCond (noteWork s w) w = false := by
    simpa using h
  simp only [zilWindowEntry, hf, Bool.false_eq_true, if_false]

theorem forwardWork_fields (s : GetworkClient) (wp : WorkPackage) :
    (forwardWork s wp).zilMode = s.zilMode ∧
    (forwardWork s wp).m_zil_pow_running = s.m_zil_pow_running ∧
    (forwardWork s wp).now = s.now ∧
    (forwardWork s wp).m_powend_timeout = s.m_powend_timeout ∧
    (forwardWork s wp).m_powstart_seconds = s.m_powstart_seconds ∧
    (forwardWork s wp).handlerWorkReceived = s.handlerWorkReceived ∧
    (forwardWork s wp).handlerPoWEnd = s.handlerPoWEnd ∧
    ((forwardWork s wp).m_current_tstamp = s.m_current_tstamp ∨
      (forwardWork s wp).m_current_tstamp = s.now) ∧
    ((forwardWork s wp).calls = s.calls ∨
      (forwardWork s wp).calls = s.calls ++ [ClientCall.onWorkReceived wp]) := by
  rcases forwardWork_cases s wp with ⟨he, _⟩ | ⟨_, ⟨he, _⟩ | ⟨he, _⟩⟩
  · rw [he]
    exact ⟨rfl, rfl, rfl, rfl, rfl, rfl, rfl, Or.inl rfl, Or.inl rfl⟩
  · rw [he]
    exact ⟨rfl, rfl, rfl, rfl, rfl, rfl, rfl, Or.inr rfl, Or.inl rfl⟩
  · rw [he]
    exact ⟨rfl, rfl, rfl, rfl, rfl, rfl, rfl, Or.inr rfl, Or.inr rfl⟩

theorem zilWindowExit_fields (s : GetworkClient) (w : GetWorkResult) :
    (zilWindowExit s w).1.m_zil_pow_running =
      (s.m_zil_pow_running && !windowEndCond s w) ∧
    (zilWindowExit s w).1.calls =
      s.calls ++ (if windowEndCond s w && s.m_zil_pow_running then endCalls s else []) := by
  unfold zilWindowExit windowEndCond endCalls stop_work
  cases h1 : w.powRunning <;>
    cases h2 : decide (w.secsToNextPoW > s.m_powstart_seconds) <;>
    cases h3 : decide ((elapsedSeconds s : Int) > s.m_powend_timeout) <;>
    cases h4 : s.m_zil_pow_running <;>
    cases h5 : s.handlerWorkReceived <;>
    cases h6 : s.handlerPoWEnd <;>
    simp [h1, h2, h3, h4, h5, h6]


theorem hex256_ne_empty (v : Nat) : hex256 v ≠ "" := by
  intro h
  have hl := congrArg String.length h
  simp only [hex256, String.length, List.length_append, List.length_replicate,
    List.length_nil] at hl
  omega

theorem newWorkPackage_ne_dummy (w : GetWorkResult) (x : Nat) :
    newWorkPackage w ≠ dummyWork x := by
  intro h
  have hj := congrArg WorkPackage.job h
  exact hex256_ne_empty w.header hj

theorem count_dummy_endCalls (s : GetworkClient) (x : Nat) :
    (endCalls s).count (ClientCall.onWorkReceived (dummyWork x)) = 0 ∧
    (endCalls s).count ClientCall.onPoWStart = 0 := by
  have hne : ({ s.m_current with header := 0 } : WorkPackage) ≠ dummyWork x := by
    intro h
    have hh := congrArg WorkPackage.header h
    simp [dummyWork, dummyHeader] at hh
  unfold endCalls
  cases h1 : s.handlerWorkReceived <;> cases h2 : s.handlerPoWEnd <;>
    simp [List.count_cons, hne]

/-- The calls of `processGetWork` in ZIL mode, block by block. -/
theorem processGetWork_zil_calls (s : GetworkClient) (w : GetWorkResult)
    (hz : s.zilMode = true) :
    ∃ fwL exitL ms,
      (processGetWork s w).calls =
        s.calls ++ (if windowStartCond (noteWork s w) w then startCalls s w else []) ++
          fwL ++ exitL ++ [ClientCall.getworkTimerArm ms] ∧
      (fwL = [] ∨ fwL = [ClientCall.onWorkReceived (newWorkPackage w)]) ∧
      (exitL = [] ∨
        exitL = endCalls (forwardWork (zilWindowEntry s w) (newWorkPackage w))) := by
  obtain ⟨e1, _, e3, _⟩ := zilWindowEntry_fields s w
  obtain ⟨f1, _, _, _, _, _, _, _, f9⟩ :=
    forwardWork_fields (zilWindowEntry s w) (newWorkPackage w)
  obtain ⟨_, x2⟩ := zilWindowExit_fields (forwardWork (zilWindowEntry s w) (newWorkPackage w)) w
  have hzf : (forwardWork (zilWindowEntry s w) (newWorkPackage w)).zilMode = true := by
    rw [f1, e3, hz]
  have hp : processGetWork s w =
      armGetworkTimer (zilWindowExit (forwardWork (zilWindowEntry s w) (newWorkPackage w)) w).1
        (zilWindowExit (forwardWork (zilWindowEntry s w) (newWorkPackage w)) w).2 := by
    simp only [processGetWork, hz, if_true, hzf]
  rw [hp]
  refine ⟨(forwardWork (zilWindowEntry s w) (newWorkPackage w)).calls.drop
      (zilWindowEntry s w).calls.length,
    (if windowEndCond (forwardWork (zilWindowEntry s w) (newWorkPackage w)) w &&
        (forwardWork (zilWindowEntry s w) (newWorkPackage w)).m_zil_pow_running then
      endCalls (forwardWork (zilWindowEntry s w) (newWorkPackage w)) else []),
    (zilWindowExit (forwardWork (zilWindowEntry s w) (newWorkPackage w)) w).2, ?_, ?_, ?_⟩
  · show (zilWindowExit _ w).1.calls ++ [_] = _
    rw [x2]
    rcases f9 with h | h
    · rw [h, e1]
      simp
    · rw [h, e1]
      simp
  · rcases f9 with h | h
    · left; rw [h]; simp
    · right; rw [h]; simp
  · split
    · right; rfl
    · left; rfl

theorem count_processGetWork_zil (s : GetworkClient) (w : GetWorkResult)
    (hz : s.zilMode = true) (c : ClientCall)
    (hc : c = ClientCall.onPoWStart ∨ ∃ x, c = ClientCall.onWorkReceived (dummyWork x)) :
    (processGetWork s w).calls.count c =
      s.calls.count c +
        (if windowStartCond (noteWork s w) w then startCalls s w else []).count c := by
  obtain ⟨fwL, exitL, ms, hcalls, hfw, hex⟩ := processGetWork_zil_calls s w hz
  have h1 : fwL.count c = 0 := by
    rcases hfw with h | h
    · rw [h]; rfl
    · rw [h]
      rcases hc with hc | ⟨x, hc⟩
      · rw [hc]; rfl
      · rw [hc]
        have := newWorkPackage_ne_dummy w x
        simp [List.count_cons, this]
  have h2 : exitL.count c = 0 := by
    rcases hex with h | h
    · rw [h]; rfl
    · rw [h]
      rcases hc with hc | ⟨x, hc⟩
      · rw [hc]; exact (count_dummy_endCalls _ 0).2
      · rw [hc]; exact (count_dummy_endCalls _ x).1
  have h3 : [ClientCall.getworkTimerArm ms].count c = 0 := by
    rcases hc with hc | ⟨x, hc⟩
    · rw [hc]; rfl
    · rw [hc]; rfl
  rw [hcalls]
  simp only [List.count_append, h1, h2, h3, Nat.add_zero]


/-- C14: in ZIL mode, for a successful `eth_getWork` reply processed while a
getWork request is pending, the PoW window opens exactly when (powRunning or
secondsToNextPoW ≤ powstartSec) and the window timeout is not set (a present
package clears it first) and the window is not running. When it opens,
`zilPowRunning` is set (and still set at the end of the call unless the
end-of-window timeout is negative), `onPoWStart` is raised once on its handler,
and if the received package is empty the dummy package (header `0xDEADBEEF`,
boundary zero except byte 3 = `0x04`, seed the incoming one if supplied and the
current one otherwise) is raised once on the work handler. When it does not
open, or the package is present, no dummy package is raised; when it does not
open, `onPoWStart` is not raised. -/
theorem processResponse_window_start (s : GetworkClient) (r : Response) (v : ResultView)
    (hz : s.zilMode = true)
    (hid : pendingId s = 0 ∨ pendingId s = 1) (hidm : r.id ≠ none)
    (herr : r.errorEmpty = true) (hres : r.result = some v) :
    (((v.work.powRunning = true ∨ v.work.secsToNextPoW ≤ s.m_powstart_seconds) ∧
        (v.work.header ≠ 0 ∨ s.m_pow_window_timeout = false) ∧
        s.m_zil_pow_running = false) →
      (zilWindowEntry s v.work).m_zil_pow_running = true ∧
      (0 ≤ s.m_powend_timeout → (processResponse s r).m_zil_pow_running = true) ∧
      (processResponse s r).calls.count ClientCall.onPoWStart =
        s.calls.count ClientCall.onPoWStart + (if s.handlerPoWStart then 1 else 0) ∧
      (v.work.header = 0 → s.handlerWorkReceived = true →
        (processResponse s r).calls.count
            (ClientCall.onWorkReceived
              (dummyWork (if v.work.seedGiven then v.work.seed else s.m_current.seed))) =
          s.calls.count
            (ClientCall.onWorkReceived
              (dummyWork (if v.work.seedGiven then v.work.seed else s.m_current.seed))) + 1)) ∧
    (¬ ((v.work.powRunning = true ∨ v.work.secsToNextPoW ≤ s.m_powstart_seconds) ∧
        (v.work.header ≠ 0 ∨ s.m_pow_window_timeout = false) ∧
        s.m_zil_pow_running = false) →
      zilWindowEntry s v.work = noteWork s v.work ∧
      (processResponse s r).calls.count ClientCall.onPoWStart =
        s.calls.count ClientCall.onPoWStart) ∧
    (¬ ((v.work.powRunning = true ∨ v.work.secsToNextPoW ≤ s.m_powstart_seconds) ∧
        (v.work.header ≠ 0 ∨ s.m_pow_window_timeout = false) ∧
        s.m_zil_pow_running = false) ∨ v.work.header ≠ 0 →
      ∀ x, (processResponse s r).calls.count (ClientCall.onWorkReceived (dummyWork x)) =
        s.calls.count (ClientCall.onWorkReceived (dummyWork x))) ∧
    (∀ x, (dummyWork x).header = 0xDEADBEEF ∧ (dummyWork x).seed = x ∧
      ∀ i, i < 32 → h256Byte (dummyWork x).boundary i = if i = 3 then 4 else 0) := by
  have hp := processResponse_getWork s r v hid hidm herr hres
  have hiff := windowStartCond_noteWork s v.work
  have hcnt := count_processGetWork_zil s v.work hz
  obtain ⟨e1, e2, e3, e4, e5, e6, _, _, _, e10⟩ := zilWindowEntry_fields s v.work
  refine ⟨?_, ?_, ?_, ?_⟩
  · intro hC
    have hc : windowStartCond (noteWork s v.work) v.work = true := hiff.mpr hC
    refine ⟨?_, ?_, ?_, ?_⟩
    · rw [e2, hc]; simp
    · intro h0
      obtain ⟨f1, f2, f3, f4, f5, _, _, f8, _⟩ :=
        forwardWork_fields (zilWindowEntry s v.work) (newWorkPackage v.work)
      obtain ⟨x1, _⟩ :=
        zilWindowExit_fields (forwardWork (zilWindowEntry s v.work) (newWorkPackage v.work))
          v.work
      have hzf : (forwardWork (zilWindowEntry s v.work) (newWorkPackage v.work)).zilMode
          = true := by rw [f1, e3, hz]
      have hpg : processGetWork s v.work =
          armGetworkTimer
            (zilWindowExit (forwardWork (zilWindowEntry s v.work) (newWorkPackage v.work))
              v.work).1
            (zilWindowExit (forwardWork (zilWindowEntry s v.work) (newWorkPackage v.work))
              v.work).2 := by
        simp only [processGetWork, hz, if_true, hzf]
      rw [hp, hpg]
      show (zilWindowExit _ v.work).1.m_zil_pow_running = true
      rw [x1, f2, e2, hc]
      have hts : (forwardWork (zilWindowEntry s v.work)
          (newWorkPackage v.work)).m_current_tstamp = s.now := by
        rcases f8 with h | h
        · rw [h]; exact e10 hc
        · rw [h]; exact e4
      have hel : elapsedSeconds (forwardWork (zilWindowEntry s v.work)
          (newWorkPackage v.work)) = 0 := by
        unfold elapsedSeconds
        rw [hts, f3, e4]
        simp
      have hend : windowEndCond (forwardWork (zilWindowEntry s v.work)
          (newWorkPackage v.work)) v.work = false := by
        unfold windowEndCond
        rw [hel, f4, e5, f5, e6]
        have h1 : (!v.work.powRunning &&
            decide (v.work.secsToNextPoW > s.m_powstart_seconds)) = false := by
          rcases hC.1 with h | h
          · simp [h]
          · simp [Nat.not_lt.mpr h]
        have h2 : decide (((0 : Nat) : Int) > s.m_powend_timeout) = false := by
          simp only [decide_eq_false_iff_not, Nat.cast_zero]
          omega
        rw [h1, h2]
        rfl
      rw [hend]
      simp
    · rw [hp, hcnt _ (Or.inl rfl), hc]
      simp only [if_true]
      unfold startCalls
      cases h1 : s.handlerPoWStart <;> by_cases h2 : v.work.header = 0 ∧
        s.handlerWorkReceived = true <;> simp [h1, h2, List.count_cons]
    · intro hh hw
      rw [hp, hcnt _ (Or.inr ⟨_, rfl⟩), hc]
      simp only [if_true]
      unfold startCalls
      cases h1 : s.handlerPoWStart <;> simp [h1, hh, hw, List.count_cons]
  · intro hC
    have hc : ¬ (windowStartCond (noteWork s v.work) v.work = true) :=
      fun h => hC (hiff.mp h)
    refine ⟨zilWindowEntry_closed s v.work hc, ?_⟩
    rw [hp, hcnt _ (Or.inl rfl)]
    simp [hc]
  · intro hC x
    rw [hp, hcnt _ (Or.inr ⟨x, rfl⟩)]
    rcases hC with hC | hC
    · have hc : ¬ (windowStartCond (noteWork s v.work) v.work = true) :=
        fun h => hC (hiff.mp h)
      simp [hc]
    · by_cases hc : windowStartCond (noteWork s v.work) v.work = true
      · simp only [hc, if_true]
        unfold startCalls
        cases h1 : s.handlerPoWStart <;> simp [h1, hC, List.count_cons]
      · simp [hc]
  · intro x
    refine ⟨rfl, rfl, ?_⟩
    have : (dummyWork x).boundary = 0x04 * 2 ^ (8 * 28) := rfl
    rw [this]
    decide

/-- Instance on the sample client outside the window and the reply that opens
it without work: one `onPoWStart`, one dummy package with the current seed 7. -/
theorem processResponse_window_start_witness :
    (processResponse sampleOutWindow sampleReplyStart).m_zil_pow_running = true ∧
    (processResponse sampleOutWindow sampleReplyStart).calls.count ClientCall.onPoWStart = 1 ∧
    (processResponse sampleOutWindow sampleReplyStart).calls.count
      (ClientCall.onWorkReceived (dummyWork 7)) = 1 :=
  have h := (processResponse_window_start sampleOutWindow sampleReplyStart
    ⟨⟨0, false, 0, 0, true, 0⟩, false, false⟩ rfl (by decide) (by decide) rfl rfl).1
      (by decide)
  ⟨h.2.1 (by decide), h.2.2.1, h.2.2.2 rfl rfl⟩


/-- The state `processGetWork` reaches in ZIL mode, from the state `mid` reached
after the work was forwarded. -/
theorem processGetWork_zil_exit (s : GetworkClient) (w : GetWorkResult)
    (hz : s.zilMode = true) :
    (processGetWork s w).m_zil_pow_running =
      ((forwardWork (zilWindowEntry s w) (newWorkPackage w)).m_zil_pow_running &&
        !windowEndCond (forwardWork (zilWindowEntry s w) (newWorkPackage w)) w) ∧
    ∃ ms, (processGetWork s w).calls =
      (forwardWork (zilWindowEntry s w) (newWorkPackage w)).calls ++
        (if windowEndCond (forwardWork (zilWindowEntry s w) (newWorkPackage w)) w &&
            (forwardWork (zilWindowEntry s w) (newWorkPackage w)).m_zil_pow_running then
          endCalls (forwardWork (zilWindowEntry s w) (newWorkPackage w)) else []) ++
        [ClientCall.getworkTimerArm ms] := by
  obtain ⟨_, _, e3, _⟩ := zilWindowEntry_fields s w
  obtain ⟨f1, _⟩ := forwardWork_fields (zilWindowEntry s w) (newWorkPackage w)
  obtain ⟨x1, x2⟩ :=
    zilWindowExit_fields (forwardWork (zilWindowEntry s w) (newWorkPackage w)) w
  have hzf : (forwardWork (zilWindowEntry s w) (newWorkPackage w)).zilMode = true := by
    rw [f1, e3, hz]
  have hp : processGetWork s w =
      armGetworkTimer (zilWindowExit (forwardWork (zilWindowEntry s w) (newWorkPackage w)) w).1
        (zilWindowExit (forwardWork (zilWindowEntry s w) (newWorkPackage w)) w).2 := by
    simp only [processGetWork, hz, if_true, hzf]
  rw [hp]
  refine ⟨x1, (zilWindowExit (forwardWork (zilWindowEntry s w) (newWorkPackage w)) w).2, ?_⟩
  show (zilWindowExit _ w).1.calls ++ [_] = _
  rw [x2]

/-- The window-closing test spelled out. -/
theorem windowEndCond_iff (m : GetworkClient) (w : GetWorkResult) :
    windowEndCond m w = true ↔
      ((w.powRunning = false ∧ w.secsToNextPoW > m.m_powstart_seconds) ∨
        (elapsedSeconds m : Int) > m.m_powend_timeout) := by
  unfold windowEndCond
  cases w.powRunning <;> simp

/-- A window that opens in a reply does not close in the same reply, unless the
end-of-window timeout is negative. -/
theorem no_end_after_start (s : GetworkClient) (w : GetWorkResult)
    (hc : windowStartCond (noteWork s w) w = true) (h0 : 0 ≤ s.m_powend_timeout) :
    windowEndCond (forwardWork (zilWindowEntry s w) (newWorkPackage w)) w = false := by
  obtain ⟨_, _, _, e4, e5, e6, _, _, _, e10⟩ := zilWindowEntry_fields s w
  obtain ⟨_, _, f3, f4, f5, _, _, f8, _⟩ :=
    forwardWork_fields (zilWindowEntry s w) (newWorkPackage w)
  have hC := (windowStartCond_noteWork s w).mp hc
  have hts : (forwardWork (zilWindowEntry s w) (newWorkPackage w)).m_current_tstamp
      = s.now := by
    rcases f8 with h | h
    · rw [h]; exact e10 hc
    · rw [h]; exact e4
  have hel : elapsedSeconds (forwardWork (zilWindowEntry s w) (newWorkPackage w)) = 0 := by
    unfold elapsedSeconds
    rw [hts, f3, e4]
    simp
  unfold windowEndCond
  rw [hel, f4, e5, f5, e6]
  have h1 : (!w.powRunning && decide (w.secsToNextPoW > s.m_powstart_seconds)) = false := by
    rcases hC.1 with h | h
    · simp [h]
    · simp [Nat.not_lt.mpr h]
  have h2 : decide (((0 : Nat) : Int) > s.m_powend_timeout) = false := by
    simp only [decide_eq_false_iff_not, Nat.cast_zero]
    omega
  rw [h1, h2]
  rfl


/-- C15: in ZIL mode, for a successful `eth_getWork` reply processed while a
getWork request is pending, let `mid` be the state after the window-entry check
and the forwarding of the work. When the window-end condition holds there ((not
powRunning and secondsToNextPoW > powstartSec) or whole seconds since
`currentStart` > powendTimeoutSec): if `zilPowRunning` is true it becomes false,
and with the handlers installed the calls made are exactly the empty package
(current package with header 0) on `onWorkReceived`, then `onPoWEnd` once, then
the timer; if `zilPowRunning` is false only the timer is armed. `zilPowRunning`
at that point is its value before the reply, or true if this reply opened the
window. Hence a reply meeting the end condition while the window was not
running before it (end-of-window timeout not negative) raises no `onPoWEnd`:
repeated window-end replies raise it once per window. -/
theorem processResponse_window_end (s : GetworkClient) (r : Response) (v : ResultView)
    (hz : s.zilMode = true)
    (hid : pendingId s = 0 ∨ pendingId s = 1) (hidm : r.id ≠ none)
    (herr : r.errorEmpty = true) (hres : r.result = some v) :
    (((v.work.powRunning = false ∧ v.work.secsToNextPoW > s.m_powstart_seconds) ∨
        (elapsedSeconds (forwardWork (zilWindowEntry s v.work) (newWorkPackage v.work)) : Int)
          > s.m_powend_timeout) →
      ((forwardWork (zilWindowEntry s v.work) (newWorkPackage v.work)).m_zil_pow_running
          = true →
        (processResponse s r).m_zil_pow_running = false ∧
        (s.handlerWorkReceived = true → s.handlerPoWEnd = true →
          ∃ ms, (processResponse s r).calls =
            (forwardWork (zilWindowEntry s v.work) (newWorkPackage v.work)).calls ++
              [ClientCall.onWorkReceived
                { (forwardWork (zilWindowEntry s v.work)
                    (newWorkPackage v.work)).m_current with header := 0 },
               ClientCall.onPoWEnd, ClientCall.getworkTimerArm ms])) ∧
      ((forwardWork (zilWindowEntry s v.work) (newWorkPackage v.work)).m_zil_pow_running
          = false →
        (processResponse s r).m_zil_pow_running = false ∧
        ∃ ms, (processResponse s r).calls =
          (forwardWork (zilWindowEntry s v.work) (newWorkPackage v.work)).calls ++
            [ClientCall.getworkTimerArm ms]) ∧
      (s.m_zil_pow_running = false → 0 ≤ s.m_powend_timeout →
        (processResponse s r).calls.count ClientCall.onPoWEnd =
          s.calls.count ClientCall.onPoWEnd)) ∧
    (forwardWork (zilWindowEntry s v.work) (newWorkPackage v.work)).m_zil_pow_running =
      (s.m_zil_pow_running ||
        decide ((v.work.powRunning = true ∨ v.work.secsToNextPoW ≤ s.m_powstart_seconds) ∧
          (v.work.header ≠ 0 ∨ s.m_pow_window_timeout = false) ∧
          s.m_zil_pow_running = false)) := by
  have hp := processResponse_getWork s r v hid hidm herr hres
  obtain ⟨e1, e2, _, _, e5, e6, e7, e8, _, _⟩ := zilWindowEntry_fields s v.work
  obtain ⟨_, f2, _, f4, f5, f6, f7, _, f9⟩ :=
    forwardWork_fields (zilWindowEntry s v.work) (newWorkPackage v.work)
  obtain ⟨x1, ms, x2⟩ := processGetWork_zil_exit s v.work hz
  have hiff := windowEndCond_iff (forwardWork (zilWindowEntry s v.work)
    (newWorkPackage v.work)) v.work
  rw [f4, e5, f5, e6] at hiff
  have hrun : (forwardWork (zilWindowEntry s v.work) (newWorkPackage v.work)).m_zil_pow_running
      = (s.m_zil_pow_running || windowStartCond (noteWork s v.work) v.work) := by
    rw [f2, e2]
  refine ⟨?_, ?_⟩
  · intro hE
    have hend := hiff.mpr hE
    refine ⟨?_, ?_, ?_⟩
    · intro hr
      refine ⟨?_, ?_⟩
      · rw [hp, x1, hend]; simp
      · intro hwr hpe
        refine ⟨ms, ?_⟩
        rw [hp, x2, hend, hr]
        simp only [Bool.and_self, if_true, List.append_assoc]
        have : endCalls (forwardWork (zilWindowEntry s v.work) (newWorkPackage v.work)) =
            [ClientCall.onWorkReceived
              { (forwardWork (zilWindowEntry s v.work)
                  (newWorkPackage v.work)).m_current with header := 0 },
             ClientCall.onPoWEnd] := by
          unfold endCalls
          rw [f6, e7, hwr, f7, e8, hpe]
          rfl
        rw [this]
        rfl
    · intro hr
      refine ⟨?_, ms, ?_⟩
      · rw [hp, x1, hr]; rfl
      · rw [hp, x2, hend, hr]
        simp
    · intro hs0 h0
      have hnc : windowStartCond (noteWork s v.work) v.work = false := by
        by_contra hc
        have hc' : windowStartCond (noteWork s v.work) v.work = true := by
          simpa using hc
        have := no_end_after_start s v.work hc' h0
        rw [this] at hend
        exact absurd hend (by simp)
      have hr : (forwardWork (zilWindowEntry s v.work)
          (newWorkPackage v.work)).m_zil_pow_running = false := by
        rw [hrun, hs0, hnc]; rfl
      rw [hp, x2, hend, hr]
      simp only [Bool.and_false, Bool.false_eq_true, if_false, List.append_nil,
        List.count_append]
      have h3 : [ClientCall.getworkTimerArm ms].count ClientCall.onPoWEnd = 0 := rfl
      rw [h3, Nat.add_zero]
      rcases f9 with h | h
      · rw [h, e1, hnc]
        simp
      · rw [h, e1, hnc]
        simp [List.count_cons]
  · rw [hrun]
    congr 1
    have h := windowStartCond_noteWork s v.work
    by_cases hc : windowStartCond (noteWork s v.work) v.work = true
    · rw [hc]
      exact (decide_eq_true (h.mp hc)).symm
    · have hf : windowStartCond (noteWork s v.work) v.work = false := by simpa using hc
      rw [hf]
      exact (decide_eq_false (fun hx => hc (h.mpr hx))).symm

/-- Instance on the sample client inside the window and the reply reporting the
window over: the window closes with the empty package and `onPoWEnd`; the same
reply again raises no further `onPoWEnd`. -/
theorem processResponse_window_end_witness :
    (processResponse sampleInWindow sampleReplyEnd).m_zil_pow_running = false ∧
    (processResponse (processResponse sampleInWindow sampleReplyEnd)
      sampleReplyEnd).calls.count ClientCall.onPoWEnd = 1 :=
  have h1 := ((processResponse_window_end sampleInWindow sampleReplyEnd
    ⟨⟨5, true, 7, 5, false, 100⟩, false, false⟩ rfl (by decide) (by decide) rfl rfl).1
      (Or.inl (by decide))).1 (by decide)
  have h2 := ((processResponse_window_end (processResponse sampleInWindow sampleReplyEnd)
    sampleReplyEnd ⟨⟨5, true, 7, 5, false, 100⟩, false, false⟩ (by decide) (by decide)
      (by decide) rfl rfl).1 (Or.inl (by decide))).2.2 (by decide) (by decide)
  ⟨h1.1, h2.trans (by decide)⟩


/-- The state `submitSolution` hands to `sendSolution` for a real solution: the
entry state, after `stop_work` when in ZIL mode outside the window. -/
theorem submitSolution_real (s : GetworkClient) (solution : Solution)
    (hd : solution.work.header ≠ dummyHeader) :
    ∃ s1, submitSolution s solution = sendSolution s1 solution ∧
      s1.m_session = s.m_session ∧ s1.m_txQueue = s.m_txQueue ∧
      s1.m_solution_submitted_max_id = s.m_solution_submitted_max_id ∧
      s1.m_txPending = s.m_txPending ∧ s1.m_endpoints = s.m_endpoints ∧
      s1.zilMode = s.zilMode ∧ s1.m_conn = s.m_conn := by
  obtain ⟨f1, f2, f3, f4, f5, f6, f7, _⟩ := stop_work_fields s
  by_cases hc : (s.zilMode && !s.m_zil_pow_running) = true
  · refine ⟨stop_work s, ?_, f1, f2, f3, f4, f5, f6, f7⟩
    simp only [submitSolution, hc, if_true, hd, if_false]
  · refine ⟨s, ?_, rfl, rfl, rfl, rfl, rfl, rfl, rfl⟩
    have hf : (s.zilMode && !s.m_zil_pow_running) = false := by simpa using hc
    simp only [submitSolution, hf, Bool.false_eq_true, if_false, hd]

theorem processSubmitReply_calls (t : GetworkClient) (r : Response) (_id : Nat)
    (hacc : t.handlerSolutionAccepted = true) (hrej : t.handlerSolutionRejected = true) :
    (processSubmitReply t r _id).calls =
      t.calls ++
        [if replySuccess r then ClientCall.onSolutionAccepted (_id - 40)
          else ClientCall.onSolutionRejected (_id - 40)] ++
        (if t.zilMode then
          [ClientCall.getworkTimerCancel, ClientCall.getworkTimerArm 100] else []) := by
  unfold processSubmitReply
  cases hz : t.zilMode <;> cases hs : replySuccess r <;> simp [hacc, hrej, hz, hs]

theorem submitWorkRequest_congr (s s1 : GetworkClient) (solution : Solution)
    (h1 : s1.zilMode = s.zilMode) (h2 : s1.m_conn = s.m_conn) :
    submitWorkRequest s1 solution = submitWorkRequest s solution := by
  unfold submitWorkRequest
  rw [h1, h2]

/-- C16: for every solution with miner index `m` (with `40 + m` in the range of
an `unsigned`) that `submitSolution` accepts for sending (session present, header
not the dummy), the request composed is `eth_submitWork` with id `40 + m`, it is
appended to `txQueue` (when a request is in flight or an endpoint remains), and
`solutionSubmittedMaxId` becomes the maximum of its old value and `40 + m`, hence
at least `40 + m`. And in any later state `t` in which that request is the
pending request and `solutionSubmittedMaxId` has not decreased, a response
carrying an id member raises exactly one of `onSolutionAccepted` /
`onSolutionRejected` (handlers installed), with miner index `m`, followed in ZIL
mode by the re-arming of the getwork timer. -/
theorem submitSolution_round_trip (s t : GetworkClient) (solution : Solution)
    (r : Response)
    (hs : s.m_session ≠ none) (hd : solution.work.header ≠ dummyHeader)
    (hm : 40 + solution.midx < UINT_MOD) :
    (submitWorkRequest s solution).id = 40 + solution.midx ∧
    (submitWorkRequest s solution).method = "eth_submitWork" ∧
    (s.m_txPending = true ∨ s.m_endpoints ≠ [] →
      (submitSolution s solution).m_txQueue =
        s.m_txQueue ++ [submitWorkRequest s solution]) ∧
    (submitSolution s solution).m_solution_submitted_max_id =
      max s.m_solution_submitted_max_id (40 + solution.midx) ∧
    (submitSolution s solution).m_solution_submitted_max_id ≥ 40 + solution.midx ∧
    (t.m_pendingJReq = some (submitWorkRequest s solution) →
      (submitSolution s solution).m_solution_submitted_max_id ≤
        t.m_solution_submitted_max_id →
      r.id ≠ none → t.handlerSolutionAccepted = true → t.handlerSolutionRejected = true →
      ((processResponse t r).calls =
          t.calls ++ [ClientCall.onSolutionAccepted solution.midx] ++
            (if t.zilMode then
              [ClientCall.getworkTimerCancel, ClientCall.getworkTimerArm 100] else []) ∨
        (processResponse t r).calls =
          t.calls ++ [ClientCall.onSolutionRejected solution.midx] ++
            (if t.zilMode then
              [ClientCall.getworkTimerCancel, ClientCall.getworkTimerArm 100] else []))) := by
  have hidv : (40 + solution.midx) % UINT_MOD = 40 + solution.midx := Nat.mod_eq_of_lt hm
  have hid : (submitWorkRequest s solution).id = 40 + solution.midx := hidv
  obtain ⟨s1, he, g1, g2, g3, g4, g5, g6, g7⟩ := submitSolution_real s solution hd
  obtain ⟨k1, k2⟩ := (sendSolution_fields s1 solution).2.2 (by rw [g1]; exact hs)
  have hreq := submitWorkRequest_congr s s1 solution g6 g7
  have hmax : (submitSolution s solution).m_solution_submitted_max_id =
      max s.m_solution_submitted_max_id (40 + solution.midx) := by
    rw [he, k1, g3, hidv]
  refine ⟨hid, rfl, ?_, hmax, ?_, ?_⟩
  · intro hq
    rw [he, k2 (by rw [g4, g5]; exact hq), g2, hreq]
  · rw [hmax]
    exact le_max_right _ _
  · intro hpend hle hidm hacc hrej
    have hpid : pendingId t = 40 + solution.midx := by
      unfold pendingId
      rw [hpend]
      exact hid
    have hge : 40 + solution.midx ≤ t.m_solution_submitted_max_id := by
      have : 40 + solution.midx ≤ (submitSolution s solution).m_solution_submitted_max_id := by
        rw [hmax]; exact le_max_right _ _
      omega
    have hpr : processResponse t r = processSubmitReply t r (40 + solution.midx) := by
      unfold processResponse
      cases hi : r.id with
      | none => exact absurd hi hidm
      | some x =>
        have h01 : ¬ (40 + solution.midx = 0 ∨ 40 + solution.midx = 1) := by omega
        have h9 : ¬ (40 + solution.midx = 9) := by omega
        have h40 : 40 + solution.midx ≥ 40 ∧
            40 + solution.midx ≤ t.m_solution_submitted_max_id := ⟨by omega, hge⟩
        simp only [hpid, h01, if_false, h9, h40, and_self, if_true]
    rw [hpr]
    have hsub : 40 + solution.midx - 40 = solution.midx := by omega
    have hc := processSubmitReply_calls t r (40 + solution.midx) hacc hrej
    rw [hsub] at hc
    rw [hc]
    cases replySuccess r
    · right; simp
    · left; simp

/-- Instance on the sample client and solution (miner 3): the request has id 43
and the reply `result = true` raises `onSolutionAccepted 3`. -/
theorem submitSolution_round_trip_witness :
    (submitWorkRequest sampleDefault sampleSolution).id = 43 ∧
    (submitSolution sampleDefault sampleSolution).m_solution_submitted_max_id ≥ 43 ∧
    ((processResponse samplePendingSubmit sampleReplyAccepted).calls =
        [ClientCall.onSolutionAccepted 3] ∨
      (processResponse samplePendingSubmit sampleReplyAccepted).calls =
        [ClientCall.onSolutionRejected 3]) :=
  have h := submitSolution_round_trip sampleDefault samplePendingSubmit sampleSolution
    sampleReplyAccepted (by decide) (by decide) (by decide)
  ⟨h.1, h.2.2.2.2.1, h.2.2.2.2.2 rfl (by decide) (by decide) rfl rfl⟩


/-- C17: `processResponse` reads the `id` member of a response only to check
that it is present: for every client state and every two responses that differ
only in the value of their `id` member the resulting state, its calls
included, is the same. What is done depends on the id of the pending request:
0 or 1 is a getWork reply (a reply with an error arms the timer at 30 s, one
without `result` is ignored, otherwise the work is processed), 9 is the
hashrate reply and changes nothing, 40 to `solutionSubmittedMaxId` is a
submitWork reply, any other id changes nothing. -/
theorem processResponse_id_value_irrelevant (s : GetworkClient) (r : Response)
    (a b : Nat) :
    processResponse s { r with id := some a } = processResponse s { r with id := some b } ∧
    (pendingId s = 9 → processResponse s { r with id := some a } = s) ∧
    ((pendingId s = 0 ∨ pendingId s = 1) →
      processResponse s { r with id := some a } =
        (if r.errorEmpty = false then armGetworkTimer s 30000
         else match r.result with
           | none => s
           | some v => processGetWork s v.work)) ∧
    (40 ≤ pendingId s → pendingId s ≤ s.m_solution_submitted_max_id →
      processResponse s { r with id := some a } = processSubmitReply s r (pendingId s)) ∧
    (pendingId s ≠ 0 → pendingId s ≠ 1 →
      (pendingId s < 40 ∨ s.m_solution_submitted_max_id < pendingId s) →
      processResponse s { r with id := some a } = s) := by
  refine ⟨rfl, ?_, ?_, ?_, ?_⟩
  · intro h9
    simp [processResponse, h9]
  · intro h01
    cases he : r.errorEmpty
    · simp [processResponse, h01, he]
    · simp [processResponse, h01, he]
  · intro h40 hmax
    have h01 : ¬ (pendingId s = 0 ∨ pendingId s = 1) := by omega
    have h9 : ¬ (pendingId s = 9) := by omega
    have hr : pendingId s ≥ 40 ∧ pendingId s ≤ s.m_solution_submitted_max_id := ⟨h40, hmax⟩
    simp only [processResponse, h01, if_false, h9, hr, and_self, if_true]
    rfl
  · intro h0 h1 hout
    have h01 : ¬ (pendingId s = 0 ∨ pendingId s = 1) := by omega
    have hr : ¬ (pendingId s ≥ 40 ∧ pendingId s ≤ s.m_solution_submitted_max_id) := by omega
    by_cases h9 : pendingId s = 9
    · simp [processResponse, h9]
    · simp only [processResponse, h01, if_false, h9, hr]

/-- Instance on the sample clients: with a submission pending the reply is a
submitWork reply whatever id it carries. -/
theorem processResponse_id_value_irrelevant_witness :
    processResponse samplePendingSubmit { sampleReplyAccepted with id := some 0 } =
      processSubmitReply samplePendingSubmit sampleReplyAccepted 43 :=
  (processResponse_id_value_irrelevant samplePendingSubmit sampleReplyAccepted 0 7).2.2.2.1
    (by decide) (by decide)

/-- C18: for every solution whose header is the dummy `0xDEADBEEF`, in every
mode and client state, `submitSolution` enqueues nothing and leaves
`solutionSubmittedMaxId` unchanged; on the work handler it raises the empty
package (the current package with header 0): once, or twice in ZIL mode outside
the PoW window, where `stop_work` runs a first time before the dummy test. -/
theorem submitSolution_dummy (s : GetworkClient) (solution : Solution)
    (hd : solution.work.header = dummyHeader) :
    (submitSolution s solution).m_txQueue = s.m_txQueue ∧
    (submitSolution s solution).m_solution_submitted_max_id =
      s.m_solution_submitted_max_id ∧
    (s.handlerWorkReceived = true →
      (submitSolution s solution).m_current.header = 0 ∧
      (submitSolution s solution).calls =
        s.calls ++
          (if s.zilMode = true ∧ s.m_zil_pow_running = false then
            [ClientCall.onWorkReceived { s.m_current with header := 0 },
             ClientCall.onWorkReceived { s.m_current with header := 0 }]
          else [ClientCall.onWorkReceived { s.m_current with header := 0 }])) := by
  obtain ⟨_, f2, f3, _⟩ := stop_work_fields s
  obtain ⟨_, g2, g3, _⟩ := stop_work_fields (stop_work s)
  by_cases hc : s.zilMode = true ∧ s.m_zil_pow_running = false
  · have hb : (s.zilMode && !s.m_zil_pow_running) = true := by simp [hc.1, hc.2]
    have he : submitSolution s solution = stop_work (stop_work s) := by
      simp only [submitSolution, hb, if_true, hd]
    rw [he]
    refine ⟨by rw [g2, f2], by rw [g3, f3], ?_⟩
    intro hh
    have h1 := stop_work_calls s hh
    have hh' : (stop_work s).handlerWorkReceived = true := by
      rw [(stop_work_fields s).2.2.2.2.2.2.2, hh]
    have h2 := stop_work_calls (stop_work s) hh'
    have hcur : (stop_work s).m_current = { s.m_current with header := 0 } := by
      simp [stop_work, hh]
    refine ⟨?_, ?_⟩
    · simp [stop_work, hh]
    · rw [h2, h1, hcur]
      simp [hc]
  · have hb : (s.zilMode && !s.m_zil_pow_running) = false := by
      cases hz : s.zilMode <;> cases hr : s.m_zil_pow_running <;> simp [hz, hr] at hc ⊢
    have he : submitSolution s solution = stop_work s := by
      simp only [submitSolution, hb, Bool.false_eq_true, if_false, hd, if_true]
    rw [he]
    refine ⟨f2, f3, ?_⟩
    intro hh
    refine ⟨?_, ?_⟩
    · simp [stop_work, hh]
    · rw [stop_work_calls s hh]
      simp [hc]

/-- Instance on the sample client (ZIL mode, outside the window) and the dummy
solution: nothing is enqueued and the empty package is raised. -/
theorem submitSolution_dummy_witness :
    (submitSolution sampleClient sampleDummySolution).m_txQueue = [] ∧
    (submitSolution sampleClient sampleDummySolution).m_solution_submitted_max_id = 0 ∧
    (submitSolution sampleClient sampleDummySolution).m_current.header = 0 :=
  have h := submitSolution_dummy sampleClient sampleDummySolution rfl
  ⟨h.1, h.2.1, (h.2.2 rfl).1⟩


/-! ### Transient failures -/

theorem disconnect_endpoints (s : GetworkClient) :
    (disconnect s).m_endpoints = s.m_endpoints ∧
    (disconnect s).calls =
      s.calls ++ [ClientCall.getworkTimerCancel, ClientCall.connectTimerCancel] ++
        (if s.handlerDisconnected then [ClientCall.onDisconnected] else []) := by
  unfold disconnect
  cases hs : s.m_session <;> cases hd : s.handlerDisconnected <;>
    simp [hs, hd]

theorem disconnect_queue (s : GetworkClient) :
    (disconnect s).m_txQueue = [] ∧ (disconnect s).m_connected = false ∧
    (disconnect s).m_session = none := by
  unfold disconnect
  cases hs : s.m_session <;> cases hd : s.handlerDisconnected <;> simp [hs, hd]

theorem readPrologue_endpoints (s : GetworkClient) :
    (readPrologue s).m_endpoints = s.m_endpoints ∧
    (readPrologue s).handlerDisconnected = s.handlerDisconnected ∧
    (readPrologue s).calls =
      s.calls ++ [ClientCall.connectTimerCancel] ++
        (if s.socketOpen then [ClientCall.socketClose] else []) := by
  unfold readPrologue
  cases ho : s.socketOpen <;> simp [ho]

/-- C19 (counterexample): on the sample client in default mode, whose endpoint
queue is `[1, 2]`, (1) a response with status 500 ends in `disconnect()`
(`onDisconnected` is raised) although endpoints remain, the queue is still
`[1, 2]` and no connection is started; (2) the connect timeout drops the
endpoint (queue `[2]`) and calls `disconnect()` although endpoint 2 remains,
without connecting to it; (3) an empty response behaves as (1). -/
theorem handle_read_status_keeps_endpoint :
    (handle_read (fun _ => (none : Option Response)) processResponse sampleDefault
        ErrorCode.eof "HTTP/1.1 500 Internal Server Error\r\n\r\n".toList).map
      (fun c => (c.m_endpoints, c.calls)) =
      some ([1, 2],
        [ClientCall.connectTimerCancel, ClientCall.socketClose,
         ClientCall.getworkTimerCancel, ClientCall.connectTimerCancel,
         ClientCall.onDisconnected]) ∧
    ((connect_timer_elapsed sampleDefault ErrorCode.success).m_endpoints,
     (connect_timer_elapsed sampleDefault ErrorCode.success).calls) =
      ([2],
        [ClientCall.socketClose, ClientCall.getworkTimerCancel,
         ClientCall.connectTimerCancel, ClientCall.onDisconnected]) ∧
    (handle_read (fun _ => (none : Option Response)) processResponse sampleDefault
        ErrorCode.eof []).map (fun c => (c.m_endpoints, c.calls)) =
      some ([1, 2],
        [ClientCall.connectTimerCancel, ClientCall.socketClose,
         ClientCall.getworkTimerCancel, ClientCall.connectTimerCancel,
         ClientCall.onDisconnected]) := by
  refine ⟨by decide, by decide, by decide⟩

/-- C19 (amended): for every client state and every error code other than
operation-aborted, (1) a connect error and a write error (the code is not
success) drop the front endpoint and run `begin_connect()`: when another
endpoint `e1` remains the queue becomes `e1 :: rest` and the calls added are
exactly the connect-timer cancel, the 10-second connect timer and the
asynchronous connect to `e1`; when none remains the result is `disconnect()`;
(2) the connect timer, on its expiry (success) as on any code other than
operation-aborted, closes the socket, drops the front endpoint and calls
`disconnect()` directly, whether or not another endpoint remains: the calls
added are the socket close, the two timer cancels of `disconnect()` and
`onDisconnected` on the installed handler, and no connect is started; (3) an
empty response, and a response whose non-empty first line is not an accepted
status line, read with success or end of file, end in `disconnect()` with the
endpoint queue unchanged and the calls added being the connect-timer cancel,
the socket close if it was open, the two timer cancels of `disconnect()` and
`onDisconnected` on the installed handler. -/
theorem transient_failure_handling (parse : List Char → Option Response)
    (s : GetworkClient) (ec : ErrorCode) (hab : ec ≠ ErrorCode.operationAborted) :
    (ec ≠ ErrorCode.success →
      handle_connect s ec = begin_connect (popEndpoint s) ∧
      handle_write s ec = begin_connect (popEndpoint s)) ∧
    (∀ e0 e1 rest, s.m_endpoints = e0 :: e1 :: rest →
      (begin_connect (popEndpoint s)).m_endpoints = e1 :: rest ∧
      (begin_connect (popEndpoint s)).m_endpoint = e1 ∧
      (begin_connect (popEndpoint s)).calls =
        s.calls ++ [ClientCall.connectTimerCancel, ClientCall.connectTimerArm 10,
                    ClientCall.asyncConnect e1]) ∧
    (s.m_endpoints.tail = [] →
      begin_connect (popEndpoint s) = disconnect (popEndpoint s)) ∧
    connect_timer_elapsed s ec =
      disconnect (popEndpoint
        { s with socketOpen := false, calls := s.calls ++ [ClientCall.socketClose] }) ∧
    (connect_timer_elapsed s ec).m_endpoints = s.m_endpoints.tail ∧
    (connect_timer_elapsed s ec).m_connected = false ∧
    (connect_timer_elapsed s ec).calls =
      s.calls ++ [ClientCall.socketClose, ClientCall.getworkTimerCancel,
        ClientCall.connectTimerCancel] ++
        (if s.handlerDisconnected then [ClientCall.onDisconnected] else []) ∧
    (∀ er, er = ErrorCode.success ∨ er = ErrorCode.eof →
      handle_read parse processResponse s er [] = some (disconnect (readPrologue s))) ∧
    (∀ er rx_message off, er = ErrorCode.success ∨ er = ErrorCode.eof →
      strFind linedelimiter rx_message = some off → off ≠ 0 →
      statusLineOk (rx_message.take off) = false →
      handle_read parse processResponse s er rx_message =
        some (disconnect (readPrologue s))) ∧
    (disconnect (readPrologue s)).m_endpoints = s.m_endpoints ∧
    (disconnect (readPrologue s)).calls =
      s.calls ++ [ClientCall.connectTimerCancel] ++
        (if s.socketOpen then [ClientCall.socketClose] else []) ++
        [ClientCall.getworkTimerCancel, ClientCall.connectTimerCancel] ++
        (if s.handlerDisconnected then [ClientCall.onDisconnected] else []) := by
  have ht : connect_timer_elapsed s ec =
      disconnect (popEndpoint
        { s with socketOpen := false, calls := s.calls ++ [ClientCall.socketClose] }) := by
    simp [connect_timer_elapsed, hab]
  obtain ⟨p1, p2, p3⟩ := readPrologue_endpoints s
  obtain ⟨d1, d2⟩ := disconnect_endpoints (readPrologue s)
  obtain ⟨t1, t2⟩ := disconnect_endpoints (popEndpoint
    { s with socketOpen := false, calls := s.calls ++ [ClientCall.socketClose] })
  obtain ⟨_, t3, _⟩ := disconnect_queue (popEndpoint
    { s with socketOpen := false, calls := s.calls ++ [ClientCall.socketClose] })
  refine ⟨?_, ?_, ?_, ht, ?_, ?_, ?_, ?_, ?_, d1.trans p1, ?_⟩
  · intro hec
    exact ⟨by simp [handle_connect, hec, hab], by simp [handle_write, hec, hab]⟩
  · intro e0 e1 rest he
    simp [begin_connect, popEndpoint, he]
  · intro he
    simp [begin_connect, popEndpoint, he]
  · rw [ht, t1]
    rfl
  · rw [ht, t3]
  · rw [ht, t2]
    show (s.calls ++ [ClientCall.socketClose]) ++ _ ++ _ = _
    simp only [List.append_assoc, List.singleton_append, List.cons_append, List.nil_append]
    rfl
  · intro er her
    rcases her with h | h <;> subst h <;> simp [handle_read]
  · intro er rx off her hoff hne hbad
    have hb := handle_read_bad_status parse processResponse s rx off hoff hne hbad
    rcases her with h | h <;> subst h
    · exact hb.1
    · exact hb.2
  · rw [d2, p2, p3]

theorem transient_failure_handling_witness :
    (connect_timer_elapsed sampleDefault ErrorCode.success).m_endpoints = [2] ∧
    (connect_timer_elapsed sampleDefault ErrorCode.success).calls =
      [ClientCall.socketClose, ClientCall.getworkTimerCancel,
       ClientCall.connectTimerCancel, ClientCall.onDisconnected] ∧
    (handle_connect sampleDefault ErrorCode.failure).m_endpoints = [2] ∧
    (handle_connect sampleDefault ErrorCode.failure).calls =
      [ClientCall.connectTimerCancel, ClientCall.connectTimerArm 10,
       ClientCall.asyncConnect 2] ∧
    (handle_write sampleDefault ErrorCode.failure).m_endpoints = [2] := by
  obtain ⟨_, _, _, _, k1, _, k2, _⟩ :=
    transient_failure_handling (fun _ => none) sampleDefault ErrorCode.success (by decide)
  obtain ⟨h1, h3, _⟩ :=
    transient_failure_handling (fun _ => none) sampleDefault ErrorCode.failure (by decide)
  obtain ⟨hc, hw⟩ := h1 (by decide)
  obtain ⟨a, _, c⟩ := h3 1 2 [] rfl
  rw [hc, hw]
  exact ⟨k1, k2, a, c, a⟩

/-! ### The getwork timer and the hash-rate report -/

theorem send_eq (s : GetworkClient) (req : Request) :
    (s.m_txPending = true →
      send s req = { s with m_txQueue := s.m_txQueue ++ [req] }) ∧
    (∀ ep rest, s.m_txPending = false → s.m_endpoints = ep :: rest →
      send s req =
        { s with
            m_txQueue := s.m_txQueue ++ [req]
            m_txPending := true
            m_endpoint := ep
            socketOpen := true
            calls := s.calls ++
              [ClientCall.connectTimerCancel, ClientCall.connectTimerArm 10,
               ClientCall.asyncConnect ep] }) := by
  constructor
  · intro hp
    simp only [send, hp, Bool.true_eq_false, if_false]
  · intro ep rest hp he
    simp only [send, hp, if_true, begin_connect, he]

/-- C23: when the getwork timer fires with no error: if the whole seconds
elapsed since `m_current_tstamp` exceed `worktimeoutSec`, the client drops the
front endpoint and runs `disconnect()`: the queue of requests is empty
afterwards, nothing is enqueued or sent, and the calls added are the two timer
cancels and `onDisconnected` (installed handler); otherwise the result is
`send(getWork)`: exactly one `eth_getWork` request (id 1, no parameter) is
appended to `txQueue`, and, a request being in flight or an endpoint remaining,
there is no disconnect (no call at all when a request is in flight, else the
connect-timer cancel, the 10-second connect timer and the asynchronous connect
to the front endpoint); the endpoint queue is unchanged. With an error code
(cancelled timer) the state is unchanged. -/
theorem getwork_timer_elapsed_result (s : GetworkClient) (ec : ErrorCode) :
    (ec = ErrorCode.success → (elapsedSeconds s : Int) > s.m_worktimeout →
      getwork_timer_elapsed s ec = disconnect (popEndpoint s) ∧
      (getwork_timer_elapsed s ec).m_endpoints = s.m_endpoints.tail ∧
      (getwork_timer_elapsed s ec).m_txQueue = [] ∧
      (getwork_timer_elapsed s ec).m_connected = false ∧
      (getwork_timer_elapsed s ec).calls =
        s.calls ++ [ClientCall.getworkTimerCancel, ClientCall.connectTimerCancel] ++
          (if s.handlerDisconnected then [ClientCall.onDisconnected] else [])) ∧
    (ec = ErrorCode.success → (elapsedSeconds s : Int) ≤ s.m_worktimeout →
      getwork_timer_elapsed s ec = send s getWorkRequest ∧
      getWorkRequest.method = "eth_getWork" ∧
      (s.m_txPending = true →
        getwork_timer_elapsed s ec =
          { s with m_txQueue := s.m_txQueue ++ [getWorkRequest] }) ∧
      (∀ ep rest, s.m_txPending = false → s.m_endpoints = ep :: rest →
        getwork_timer_elapsed s ec =
          { s with
              m_txQueue := s.m_txQueue ++ [getWorkRequest]
              m_txPending := true
              m_endpoint := ep
              socketOpen := true
              calls := s.calls ++
                [ClientCall.connectTimerCancel, ClientCall.connectTimerArm 10,
                 ClientCall.asyncConnect ep] })) ∧
    (ec ≠ ErrorCode.success → getwork_timer_elapsed s ec = s) := by
  refine ⟨?_, ?_, ?_⟩
  · intro h1 h2
    have he : getwork_timer_elapsed s ec = disconnect (popEndpoint s) := by
      unfold getwork_timer_elapsed
      rw [if_pos h1, if_pos h2]
    obtain ⟨d1, d2⟩ := disconnect_endpoints (popEndpoint s)
    obtain ⟨q1, q2, _⟩ := disconnect_queue (popEndpoint s)
    rw [he]
    exact ⟨rfl, d1, q1, q2, d2⟩
  · intro h1 h2
    have he : getwork_timer_elapsed s ec = send s getWorkRequest := by
      unfold getwork_timer_elapsed
      rw [if_pos h1, if_neg (by omega)]
    obtain ⟨a, b⟩ := send_eq s getWorkRequest
    rw [he]
    exact ⟨rfl, rfl, a, b⟩
  · intro h1
    unfold getwork_timer_elapsed
    rw [if_neg h1]

theorem getwork_timer_elapsed_result_witness :
    (getwork_timer_elapsed sampleStalled ErrorCode.success).m_endpoints = [2] ∧
    (getwork_timer_elapsed sampleStalled ErrorCode.success).m_connected = false ∧
    (getwork_timer_elapsed sampleIdle ErrorCode.success).m_txQueue = [getWorkRequest] ∧
    (getwork_timer_elapsed sampleIdle ErrorCode.success).calls =
      [ClientCall.connectTimerCancel, ClientCall.connectTimerArm 10,
       ClientCall.asyncConnect 1] ∧
    getwork_timer_elapsed sampleIdle ErrorCode.operationAborted = sampleIdle := by
  obtain ⟨a1, _, _⟩ := getwork_timer_elapsed_result sampleStalled ErrorCode.success
  obtain ⟨_, a2, a3, a4, _⟩ := a1 rfl (by decide)
  obtain ⟨_, b1, b2⟩ := getwork_timer_elapsed_result sampleIdle ErrorCode.success
  obtain ⟨_, _, _, b3⟩ := b1 rfl (by decide)
  have hb := b3 1 [2] rfl rfl
  refine ⟨a2, a4, by rw [hb]; rfl, by rw [hb]; rfl, ?_⟩
  exact (getwork_timer_elapsed_result sampleIdle ErrorCode.operationAborted).2.2 (by decide)

/-- C24: `submitHashrate` leaves the client unchanged (nothing enqueued, no
call) in ZIL mode with no PoW window running, and when there is no session;
otherwise the result is `send` of exactly one request, `eth_submitHashrate`
with id 9, whose parameters are `[rateHex, id]` in default mode and
`[rateHex, user, workerName]` in ZIL mode, appended to `txQueue` (a request
being in flight or an endpoint remaining). -/
theorem submitHashrate_result (s : GetworkClient) (rate : Nat) (id : String) :
    (s.zilMode = true → s.m_zil_pow_running = false → submitHashrate s rate id = s) ∧
    (s.m_session = none → submitHashrate s rate id = s) ∧
    (s.m_session ≠ none → (s.zilMode = false ∨ s.m_zil_pow_running = true) →
      submitHashrate s rate id = send s (submitHashrateRequest s rate id) ∧
      (s.m_txPending = true ∨ s.m_endpoints ≠ [] →
        (submitHashrate s rate id).m_txQueue =
          s.m_txQueue ++ [submitHashrateRequest s rate id])) ∧
    (submitHashrateRequest s rate id).id = 9 ∧
    (submitHashrateRequest s rate id).method = "eth_submitHashrate" ∧
    (s.zilMode = false →
      (submitHashrateRequest s rate id).params = [Param.hex rate, Param.str id]) ∧
    (s.zilMode = true →
      (submitHashrateRequest s rate id).params =
        [Param.hex rate, Param.str s.m_conn.User, Param.str s.m_conn.Workername]) := by
  refine ⟨?_, ?_, ?_, rfl, rfl, ?_, ?_⟩
  · intro h1 h2
    simp [submitHashrate, h1, h2]
  · intro h
    unfold submitHashrate
    split
    · rfl
    · simp only [h]
  · intro hs hm
    have hc : (s.zilMode && !s.m_zil_pow_running) = false := by
      rcases hm with h | h <;> simp [h]
    have he : submitHashrate s rate id = send s (submitHashrateRequest s rate id) := by
      cases hss : s.m_session with
      | none => exact absurd hss hs
      | some sess => simp only [submitHashrate, hc, Bool.false_eq_true, if_false, hss]
    rw [he]
    exact ⟨rfl, (send_fields s _).2.2⟩
  · intro h
    simp [submitHashrateRequest, h]
  · intro h
    simp [submitHashrateRequest, h]

theorem submitHashrate_result_witness :
    submitHashrate sampleClient 4660 "0x01" = sampleClient ∧
    (submitHashrate sampleDefault 4660 "0x01").m_txQueue =
      [⟨9, "eth_submitHashrate", [Param.hex 4660, Param.str "0x01"]⟩] ∧
    (submitHashrate sampleInWindow 4660 "0x01").m_txQueue =
      [⟨9, "eth_submitHashrate", [Param.hex 4660, Param.str "wallet", Param.str "rig"]⟩] := by
  obtain ⟨a, _, _⟩ := submitHashrate_result sampleClient 4660 "0x01"
  obtain ⟨_, _, b, _⟩ := submitHashrate_result sampleDefault 4660 "0x01"
  obtain ⟨_, _, c, _⟩ := submitHashrate_result sampleInWindow 4660 "0x01"
  exact ⟨a rfl rfl, ((b (by decide) (Or.inl rfl)).2 (Or.inl rfl)).trans (by decide),
    ((c (by decide) (Or.inr rfl)).2 (Or.inl rfl)).trans (by decide)⟩

/-! ### The recheck delay -/

theorem noteWork_recheck (s : GetworkClient) (w : GetWorkResult) :
    (noteWork s w).m_farmRecheckPeriod = s.m_farmRecheckPeriod := by
  unfold noteWork
  split <;> rfl

theorem zilWindowEntry_recheck (s : GetworkClient) (w : GetWorkResult) :
    (zilWindowEntry s w).m_farmRecheckPeriod = s.m_farmRecheckPeriod := by
  by_cases h : windowStartCond (noteWork s w) w = true
  · have he : zilWindowEntry s w = openWindow (noteWork s w) w := by
      simp only [zilWindowEntry, h, if_true]
    rw [he, openWindow_eq]
    exact noteWork_recheck s w
  · have he : zilWindowEntry s w = noteWork s w := by
      simp [zilWindowEntry, h]
    rw [he]
    exact noteWork_recheck s w

theorem forwardWork_recheck (s : GetworkClient) (wp : WorkPackage) :
    (forwardWork s wp).m_farmRecheckPeriod = s.m_farmRecheckPeriod := by
  rcases forwardWork_cases s wp with ⟨he, _⟩ | ⟨_, ⟨he, _⟩ | ⟨he, _⟩⟩ <;> rw [he]

theorem zilWindowExit_delay (m : GetworkClient) (w : GetWorkResult) :
    (zilWindowExit m w).2 =
      (if windowEndCond m w = true ∧ w.secsToNextPoW > 0 then
        min ((w.secsToNextPoW * 1000) % UINT_MOD) m.m_farmRecheckPeriod
       else m.m_farmRecheckPeriod) := by
  unfold zilWindowExit windowEndCond
  cases h1 : w.powRunning <;>
    cases h2 : decide (w.secsToNextPoW > m.m_powstart_seconds) <;>
    cases h3 : decide ((elapsedSeconds m : Int) > m.m_powend_timeout) <;>
    cases h4 : m.m_zil_pow_running <;>
    by_cases h5 : w.secsToNextPoW > 0 <;>
    simp [h1, h2, h3, h4, h5]

/-- C26 (counterexample): (1) in a running window whose last work is 400 seconds
old (timeout 300 seconds), a reply without work reporting 0 seconds to the next
PoW ends the window (`onPoWEnd` is raised) and the timer is armed with
`farmRecheckMs = 500`, not with `min(0 * 1000, 500) = 0`; (2) a reply reporting
the PoW over and 4294968 seconds to the next one, with `farmRecheckMs = 2000`,
arms the timer with 704 (`4294968 * 1000` wraps in 32 bits), not with 2000. -/
theorem processResponse_delay_zero_seconds :
    (processResponse sampleTimedOut sampleReplyNoWork).calls =
      [ClientCall.onWorkReceived ⟨0, 7, 5, "", -1, 0, 0⟩, ClientCall.onPoWEnd,
       ClientCall.getworkTimerArm 500] ∧
    (processResponse sampleSlowPoll sampleReplyFar).calls.getLast? =
      some (ClientCall.getworkTimerArm 704) := by
  refine ⟨by decide, by decide⟩

/-- C26 (amended): in ZIL mode, for every client state with a getWork request
pending and every successful `eth_getWork` reply, the last call made is the
arming of the getwork timer, and its delay is
`min((secondsToNextPoW * 1000) mod 2^32, farmRecheckMs)` when the window is
ending (the end condition holds on the state reached after the window-entry
check and the forwarding of the work) and `secondsToNextPoW > 0`, which is
`min(secondsToNextPoW * 1000, farmRecheckMs)` when the product fits in 32 bits;
it is `farmRecheckMs` otherwise, that is when the window is not ending or
`secondsToNextPoW = 0`. -/
theorem processResponse_recheck_delay (s : GetworkClient) (r : Response) (v : ResultView)
    (hz : s.zilMode = true)
    (hid : pendingId s = 0 ∨ pendingId s = 1) (hidm : r.id ≠ none)
    (herr : r.errorEmpty = true) (hres : r.result = some v) :
    ∃ delay,
      (processResponse s r).calls.getLast? = some (ClientCall.getworkTimerArm delay) ∧
      (windowEndCond (forwardWork (zilWindowEntry s v.work) (newWorkPackage v.work)) v.work
          = true → v.work.secsToNextPoW > 0 →
        delay = min ((v.work.secsToNextPoW * 1000) % UINT_MOD) s.m_farmRecheckPeriod ∧
        (v.work.secsToNextPoW * 1000 < UINT_MOD →
          delay = min (v.work.secsToNextPoW * 1000) s.m_farmRecheckPeriod)) ∧
      (windowEndCond (forwardWork (zilWindowEntry s v.work) (newWorkPackage v.work)) v.work
          = true → v.work.secsToNextPoW = 0 → delay = s.m_farmRecheckPeriod) ∧
      (windowEndCond (forwardWork (zilWindowEntry s v.work) (newWorkPackage v.work)) v.work
          = false → delay = s.m_farmRecheckPeriod) := by
  obtain ⟨_, _, e3, _⟩ := zilWindowEntry_fields s v.work
  obtain ⟨f1, _⟩ := forwardWork_fields (zilWindowEntry s v.work) (newWorkPackage v.work)
  have hzf : (forwardWork (zilWindowEntry s v.work) (newWorkPackage v.work)).zilMode = true := by
    rw [f1, e3, hz]
  have hp : processGetWork s v.work =
      armGetworkTimer
        (zilWindowExit (forwardWork (zilWindowEntry s v.work) (newWorkPackage v.work)) v.work).1
        (zilWindowExit (forwardWork (zilWindowEntry s v.work) (newWorkPackage v.work)) v.work).2
      := by
    simp only [processGetWork, hz, if_true, hzf]
  have hrc : (forwardWork (zilWindowEntry s v.work) (newWorkPackage v.work)).m_farmRecheckPeriod
      = s.m_farmRecheckPeriod := by
    rw [forwardWork_recheck, zilWindowEntry_recheck]
  have hd := zilWindowExit_delay
    (forwardWork (zilWindowEntry s v.work) (newWorkPackage v.work)) v.work
  rw [hrc] at hd
  refine ⟨(zilWindowExit (forwardWork (zilWindowEntry s v.work) (newWorkPackage v.work))
    v.work).2, ?_, ?_, ?_, ?_⟩
  · rw [processResponse_getWork s r v hid hidm herr hres, hp]
    show (_ ++ [ClientCall.getworkTimerArm _]).getLast? = _
    rw [List.getLast?_append]
    rfl
  · intro hc hs
    rw [if_pos ⟨hc, hs⟩] at hd
    refine ⟨hd, ?_⟩
    intro hlt
    rw [hd, Nat.mod_eq_of_lt hlt]
  · intro hc hs
    rw [if_neg (by intro h; omega)] at hd
    exact hd
  · intro hc
    rw [if_neg (by intro h; rw [hc] at h; exact absurd h.1 (by simp))] at hd
    exact hd

theorem processResponse_recheck_delay_witness :
    ∃ delay,
      (processResponse sampleInWindow sampleReply).calls.getLast? =
        some (ClientCall.getworkTimerArm delay) ∧ delay = 500 := by
  obtain ⟨d, h1, h2, _⟩ := processResponse_recheck_delay sampleInWindow sampleReply
    ⟨⟨9, true, 7, 5, false, 100⟩, false, false⟩ rfl (by decide) (by decide) rfl rfl
  exact ⟨d, h1, ((h2 (by decide) (by decide)).2 (by decide)).trans (by decide)⟩

/-! ### Forwarding of work in ZIL mode -/

theorem zilWindowExit_idle (m : GetworkClient) (w : GetWorkResult)
    (hr : m.m_zil_pow_running = false) :
    (zilWindowExit m w).1.m_current = m.m_current ∧
    (zilWindowExit m w).1.calls = m.calls := by
  unfold zilWindowExit
  cases h1 : w.powRunning <;>
    cases h2 : decide (w.secsToNextPoW > m.m_powstart_seconds) <;>
    cases h3 : decide ((elapsedSeconds m : Int) > m.m_powend_timeout) <;>
    simp [h1, h2, h3, hr]

theorem stop_work_emits_empty (t : GetworkClient) :
    ∃ new, (stop_work t).calls = t.calls ++ new ∧
      ∀ wp, ClientCall.onWorkReceived wp ∈ new → wp.header = 0 := by
  unfold stop_work
  cases h : t.handlerWorkReceived
  · exact ⟨[], by simp, by simp⟩
  · refine ⟨[ClientCall.onWorkReceived { t.m_current with header := 0 }], by simp, ?_⟩
    intro wp hwp
    simp only [List.mem_singleton, ClientCall.onWorkReceived.injEq] at hwp
    rw [hwp]

theorem endCalls_emits_empty (m : GetworkClient) (wp : WorkPackage)
    (h : ClientCall.onWorkReceived wp ∈ endCalls m) : wp.header = 0 := by
  unfold endCalls at h
  cases h1 : m.handlerWorkReceived <;> cases h2 : m.handlerPoWEnd <;>
    simp [h1, h2] at h <;> rw [h]

/-- C27: in ZIL mode, for a successful `eth_getWork` reply answering a pending
getWork request: every package with `header != 0` among the `onWorkReceived`
calls added by the reply (the dummy package of the window start, the received
package) is emitted with `zilPowRunning` true: the flag is true after the
window-entry check, the only place of the reply that sets it, and it is
cleared only after those emissions, when the window closes; and when
`zilPowRunning` is false after the window-entry check, the reply adds a single
call, the arming of the getwork timer, hence emits no package, and leaves the
current package unchanged. The other emitter, `stop_work`, emits only a
package with header 0. -/
theorem processResponse_forwards_in_window (s : GetworkClient) (r : Response)
    (v : ResultView) (hz : s.zilMode = true)
    (hid : pendingId s = 0 ∨ pendingId s = 1) (hidm : r.id ≠ none)
    (herr : r.errorEmpty = true) (hres : r.result = some v) :
    (∃ new, (processResponse s r).calls = s.calls ++ new ∧
      ∀ wp, ClientCall.onWorkReceived wp ∈ new → wp.header ≠ 0 →
        (zilWindowEntry s v.work).m_zil_pow_running = true) ∧
    ((zilWindowEntry s v.work).m_zil_pow_running = false →
      (processResponse s r).m_current = s.m_current ∧
      (∃ ms, (processResponse s r).calls = s.calls ++ [ClientCall.getworkTimerArm ms]) ∧
      countWorkReceived (processResponse s r).calls = countWorkReceived s.calls) ∧
    (∀ t : GetworkClient, ∃ new, (stop_work t).calls = t.calls ++ new ∧
      ∀ wp, ClientCall.onWorkReceived wp ∈ new → wp.header = 0) := by
  obtain ⟨e1, e2, e3, _, _, _, _, _, e9, _⟩ := zilWindowEntry_fields s v.work
  obtain ⟨ex1, ms, ex2⟩ := processGetWork_zil_exit s v.work hz
  have hpr := processResponse_getWork s r v hid hidm herr hres
  refine ⟨?_, ?_, stop_work_emits_empty⟩
  · rcases forwardWork_cases (zilWindowEntry s v.work) (newWorkPackage v.work) with
      ⟨he, _⟩ | ⟨hrun, ⟨he, _⟩ | ⟨he, _⟩⟩
    · -- nothing forwarded
      rw [he] at ex2
      rw [e1] at ex2
      refine ⟨_, by rw [hpr, ex2, List.append_assoc, List.append_assoc], ?_⟩
      intro wp hwp hne
      simp only [List.mem_append, List.mem_singleton] at hwp
      rcases hwp with hwp | hwp | hwp
      · by_cases hc : windowStartCond (noteWork s v.work) v.work = true
        · rw [e2, hc]; simp
        · rw [if_neg hc] at hwp
          simp at hwp
      · by_cases hc2 : (windowEndCond (zilWindowEntry s v.work) v.work &&
            (zilWindowEntry s v.work).m_zil_pow_running) = true
        · rw [if_pos hc2] at hwp
          exact absurd (endCalls_emits_empty _ wp hwp) hne
        · rw [if_neg hc2] at hwp
          simp at hwp
      · exact absurd hwp (by simp)
    · -- stored without a handler
      have hrun' : (zilWindowEntry s v.work).m_zil_pow_running = true := by
        rcases hrun with h | h
        · rw [e3, hz] at h; exact absurd h (by simp)
        · exact h
      rw [hpr]
      obtain ⟨fwL, exitL, ms2, c4, _⟩ := processGetWork_zil_calls s v.work hz
      exact ⟨_, by rw [c4, List.append_assoc, List.append_assoc, List.append_assoc],
        fun _ _ _ => hrun'⟩
    · have hrun' : (zilWindowEntry s v.work).m_zil_pow_running = true := by
        rcases hrun with h | h
        · rw [e3, hz] at h; exact absurd h (by simp)
        · exact h
      rw [hpr]
      obtain ⟨fwL, exitL, ms2, c4, _⟩ := processGetWork_zil_calls s v.work hz
      exact ⟨_, by rw [c4, List.append_assoc, List.append_assoc, List.append_assoc],
        fun _ _ _ => hrun'⟩
  · intro hrun
    have hcond : windowStartCond (noteWork s v.work) v.work = false := by
      rw [e2] at hrun
      cases hc : windowStartCond (noteWork s v.work) v.work
      · rfl
      · rw [hc] at hrun; simp at hrun
    have hfw : forwardWork (zilWindowEntry s v.work) (newWorkPackage v.work) =
        zilWindowEntry s v.work := by
      rcases forwardWork_cases (zilWindowEntry s v.work) (newWorkPackage v.work) with
        ⟨he, _⟩ | ⟨hr2, _⟩
      · exact he
      · rcases hr2 with h | h
        · rw [e3, hz] at h; exact absurd h (by simp)
        · rw [hrun] at h; exact absurd h (by simp)
    have hzf : (forwardWork (zilWindowEntry s v.work) (newWorkPackage v.work)).zilMode
        = true := by
      rw [hfw, e3, hz]
    have hp : processGetWork s v.work =
        armGetworkTimer
          (zilWindowExit (forwardWork (zilWindowEntry s v.work) (newWorkPackage v.work))
            v.work).1
          (zilWindowExit (forwardWork (zilWindowEntry s v.work) (newWorkPackage v.work))
            v.work).2 := by
      simp only [processGetWork, hz, if_true, hzf]
    obtain ⟨i1, i2⟩ := zilWindowExit_idle (zilWindowEntry s v.work) v.work hrun
    have hcalls : (processResponse s r).calls = s.calls ++
        [ClientCall.getworkTimerArm (zilWindowExit (zilWindowEntry s v.work) v.work).2] := by
      rw [hpr, hp, hfw]
      show (zilWindowExit _ v.work).1.calls ++ [_] = _
      rw [i2, e1, hcond]
      simp
    refine ⟨?_, ⟨_, hcalls⟩, ?_⟩
    · rw [hpr, hp, hfw]
      show (zilWindowExit _ v.work).1.m_current = _
      rw [i1, e9]
    · rw [hcalls, countWorkReceived_append]
      rfl

theorem processResponse_forwards_in_window_witness :
    (processResponse sampleOutWindow sampleReply).m_current = sampleOutWindow.m_current ∧
    countWorkReceived (processResponse sampleOutWindow sampleReply).calls = 0 := by
  obtain ⟨_, h, _⟩ := processResponse_forwards_in_window sampleOutWindow sampleReply
    ⟨⟨9, true, 7, 5, false, 100⟩, false, false⟩ rfl (by decide) (by decide) rfl rfl
  obtain ⟨a, _, c⟩ := h (by decide)
  exact ⟨a, c⟩

/-! ### The body of a response -/

theorem strFind_no_lf (l : List Char) (h : ∀ c ∈ l, c ≠ '\n') :
    strFind linedelimiter l = none := by
  induction l with
  | nil => simp [strFind, linedelimiter]
  | cons c cs ih =>
    have hcs : strFind linedelimiter cs = none :=
      ih (fun d hd => h d (List.mem_cons_of_mem _ hd))
    have hp : ¬ linedelimiter <+: (c :: cs) := by
      intro hp
      cases cs with
      | nil => simp [linedelimiter] at hp
      | cons d ds =>
        simp only [linedelimiter, List.cons_prefix_cons] at hp
        exact h d (by simp) hp.2.1.symm
    unfold strFind
    rw [if_neg hp, hcs]
    rfl

theorem strFind_filter_lf (l : List Char) :
    strFind linedelimiter (l.filter (· ≠ '\n')) = none := by
  apply strFind_no_lf
  intro c hc
  have := (List.mem_filter.mp hc).2
  simpa using this

theorem strFind_line (h rest : List Char) (hn : strFind linedelimiter h = none) :
    strFind linedelimiter (h ++ (linedelimiter ++ rest)) = some h.length := by
  induction h with
  | nil => simp [strFind, linedelimiter]
  | cons c cs ih =>
    unfold strFind at hn
    have hp0 : ¬ linedelimiter <+: (c :: cs) := by
      intro hp
      rw [if_pos hp] at hn
      exact absurd hn (by simp)
    rw [if_neg hp0] at hn
    have hcs : strFind linedelimiter cs = none := by
      cases hx : strFind linedelimiter cs with
      | none => rfl
      | some k => rw [hx] at hn; exact absurd hn (by simp)
    have hp : ¬ linedelimiter <+: (c :: (cs ++ (linedelimiter ++ rest))) := by
      intro hp
      cases cs with
      | nil =>
        simp [linedelimiter] at hp
      | cons d ds =>
        apply hp0
        simp only [linedelimiter, List.cons_append, List.cons_prefix_cons] at hp ⊢
        exact ⟨hp.1, hp.2.1, List.nil_prefix⟩
    show strFind linedelimiter (c :: (cs ++ (linedelimiter ++ rest))) = _
    unfold strFind
    rw [if_neg hp, ih hcs]
    rfl

theorem line_take_drop (h rest : List Char) :
    (h ++ (linedelimiter ++ rest)).take h.length = h ∧
    (h ++ (linedelimiter ++ rest)).drop (h.length + 2) = rest ∧
    (h ++ (linedelimiter ++ rest)).length = h.length + 2 + rest.length := by
  refine ⟨List.take_left' rfl, ?_, ?_⟩
  · rw [List.drop_append]
    rfl
  · simp [linedelimiter]
    omega

/-- One iteration of the loop on a header line. -/
theorem readLoop_header {J : Type} (parse : List Char → Option J)
    (processResponse : GetworkClient → J → GetworkClient) (fuel : Nat) (s : GetworkClient)
    (h rest : List Char) (linenum : Nat) (hne : h ≠ [])
    (hst : linenum = 0 → statusLineOk h = true) :
    readLoop parse processResponse (fuel + 1) s (h ++ (linedelimiter ++ rest))
        (some h.length) linenum true =
      readLoop parse processResponse fuel s rest (strFind linedelimiter rest)
        (linenum + 1) true := by
  obtain ⟨t1, t2, t3⟩ := line_take_drop h rest
  have hlen : (h ++ (linedelimiter ++ rest)).length ≠ 0 := by omega
  have hemp : h.isEmpty = false := by
    cases h with
    | nil => exact absurd rfl hne
    | cons c cs => rfl
  rw [readLoop]
  simp only [hlen, if_false, t1, t2, hemp, Bool.false_eq_true, Bool.true_and]
  by_cases h0 : linenum = 0
  · subst h0
    simp [hst rfl]
  · have : (linenum + 1 == 1) = false := by simp [h0]
    simp [this]

/-- One iteration of the loop on a chunk of the body. -/
theorem readLoop_chunk {J : Type} (parse : List Char → Option J)
    (processResponse : GetworkClient → J → GetworkClient) (fuel : Nat) (s : GetworkClient)
    (h rest : List Char) (linenum : Nat) (hne : h ≠ []) :
    readLoop parse processResponse (fuel + 1) s (h ++ (linedelimiter ++ rest))
        (some h.length) linenum false =
      readLoop parse processResponse fuel (processBody parse processResponse s h) rest
        (strFind linedelimiter rest) (linenum + 1) false := by
  obtain ⟨t1, t2, t3⟩ := line_take_drop h rest
  have hlen : (h ++ (linedelimiter ++ rest)).length ≠ 0 := by omega
  have hemp : h.isEmpty = false := by
    cases h with
    | nil => exact absurd rfl hne
    | cons c cs => rfl
  rw [readLoop]
  simp only [hlen, if_false, t1, t2, hemp, Bool.false_eq_true, Bool.false_and,
    Bool.not_false, if_true]

/-- The iteration on the empty line when the rest holds no CRLF: the rest,
line feeds removed, is the document, and the loop ends. -/
theorem readLoop_blank_last {J : Type} (parse : List Char → Option J)
    (processResponse : GetworkClient → J → GetworkClient) (fuel : Nat) (s : GetworkClient)
    (body : List Char) (linenum : Nat) (isHeader : Bool)
    (hb : strFind linedelimiter body = none) :
    readLoop parse processResponse (fuel + 2) s (linedelimiter ++ body) (some 0) linenum
        isHeader =
      some (processBody parse processResponse s (body.filter (· ≠ '\n')), false) := by
  have hd : (linedelimiter ++ body).drop (0 + 2) = body := rfl
  have ht : ((linedelimiter ++ body).take 0).isEmpty = true := rfl
  have hlen : (linedelimiter ++ body).length ≠ 0 := by simp [linedelimiter]
  rw [readLoop]
  simp only [hlen, if_false, hd, ht, if_true, hb, strFind_filter_lf]
  rw [readLoop]

/-- The iteration on the empty line when the rest holds a CRLF: the loop goes on
chunk by chunk. -/
theorem readLoop_blank_more {J : Type} (parse : List Char → Option J)
    (processResponse : GetworkClient → J → GetworkClient) (fuel : Nat) (s : GetworkClient)
    (body : List Char) (linenum off : Nat) (isHeader : Bool)
    (hb : strFind linedelimiter body = some off) :
    readLoop parse processResponse (fuel + 1) s (linedelimiter ++ body) (some 0) linenum
        isHeader =
      readLoop parse processResponse fuel s body (some off) (linenum + 1) false := by
  have hd : (linedelimiter ++ body).drop (0 + 2) = body := rfl
  have ht : ((linedelimiter ++ body).take 0).isEmpty = true := rfl
  have hlen : (linedelimiter ++ body).length ≠ 0 := by simp [linedelimiter]
  rw [readLoop]
  simp only [hlen, if_false, hd, ht, if_true, hb]

theorem linesText_cons (h : List Char) (hs : List (List Char)) (tail : List Char) :
    linesText (h :: hs) ++ tail = h ++ (linedelimiter ++ (linesText hs ++ tail)) := by
  simp [linesText, List.append_assoc]

/-- The loop over the status line and the header lines, up to the body. -/
theorem readLoop_lines {J : Type} (parse : List Char → Option J)
    (processResponse : GetworkClient → J → GetworkClient) (tail : List Char) :
    ∀ (lines : List (List Char)) (fuel : Nat) (s : GetworkClient) (linenum : Nat),
      (∀ h ∈ lines, h ≠ [] ∧ strFind linedelimiter h = none) →
      (∀ st rest, lines = st :: rest → linenum = 0 → statusLineOk st = true) →
      readLoop parse processResponse (fuel + lines.length) s
          (linesText lines ++ (linedelimiter ++ tail))
          (strFind linedelimiter (linesText lines ++ (linedelimiter ++ tail))) linenum true =
        readLoop parse processResponse fuel s (linedelimiter ++ tail) (some 0)
          (linenum + lines.length) true := by
  intro lines
  induction lines with
  | nil =>
    intro fuel s linenum _ _
    have : strFind linedelimiter (linedelimiter ++ tail) = some 0 :=
      strFind_line [] tail (by simp [strFind, linedelimiter])
    simp only [linesText, List.map_nil, List.flatten_nil, List.nil_append, List.length_nil,
      Nat.add_zero, this]
  | cons h hs ih =>
    intro fuel s linenum hl hst
    obtain ⟨hne, hno⟩ := hl h (List.mem_cons_self _ _)
    rw [linesText_cons, strFind_line h _ hno]
    have hf : fuel + (h :: hs).length = (fuel + hs.length) + 1 := by
      simp only [List.length_cons]; omega
    rw [hf, readLoop_header parse processResponse _ s h _ linenum hne
      (fun h0 => hst h hs rfl h0)]
    rw [ih fuel s (linenum + 1) (fun x hx => hl x (List.mem_cons_of_mem _ hx))
      (fun _ _ _ h0 => absurd h0 (Nat.succ_ne_zero _))]
    have : linenum + 1 + hs.length = linenum + (h :: hs).length := by
      simp only [List.length_cons]; omega
    rw [this]

theorem linesText_length (lines : List (List Char)) :
    lines.length ≤ (linesText lines).length := by
  induction lines with
  | nil => simp [linesText]
  | cons h hs ih =>
    have := linesText_cons h hs []
    simp only [List.append_nil] at this
    rw [this]
    simp only [List.length_append, List.length_cons, linedelimiter, List.length_nil]
    omega

theorem handle_read_loop {J : Type} (parse : List Char → Option J)
    (processResponse : GetworkClient → J → GetworkClient) (s : GetworkClient)
    (er : ErrorCode) (rx : List Char) (res : GetworkClient)
    (her : er = ErrorCode.success ∨ er = ErrorCode.eof) (hlen : rx.length ≠ 0)
    (hloop : readLoop parse processResponse (rx.length + 1) (readPrologue s) rx
      (strFind linedelimiter rx) 0 true = some (res, false)) :
    handle_read parse processResponse s er rx = some (readEpilogue res) := by
  unfold handle_read
  rw [if_pos her]
  simp only [hlen, if_false, hloop]

theorem strFind_split : ∀ (l : List Char) (off : Nat),
    strFind linedelimiter l = some off →
      strFind linedelimiter (l.take off) = none ∧
      l = l.take off ++ (linedelimiter ++ l.drop (off + 2)) := by
  intro l
  induction l with
  | nil =>
    intro off h
    simp [strFind, linedelimiter] at h
  | cons c cs ih =>
    intro off h
    unfold strFind at h
    by_cases hp : linedelimiter <+: (c :: cs)
    · rw [if_pos hp] at h
      simp only [Option.some.injEq] at h
      subst h
      obtain ⟨t, ht⟩ := hp
      refine ⟨by simp [strFind, linedelimiter], ?_⟩
      rw [← ht]
      rfl
    · rw [if_neg hp] at h
      cases hk : strFind linedelimiter cs with
      | none => rw [hk] at h; exact absurd h (by simp)
      | some k =>
        rw [hk] at h
        simp only [Option.map_some', Option.some.injEq] at h
        subst h
        obtain ⟨i1, i2⟩ := ih k hk
        constructor
        · show strFind linedelimiter (c :: cs.take k) = none
          have hp2 : ¬ linedelimiter <+: (c :: cs.take k) := by
            intro hq
            exact hp (hq.trans ((List.cons_prefix_cons).mpr ⟨rfl, List.take_prefix k cs⟩))
          unfold strFind
          rw [if_neg hp2, i1]
          rfl
        · show c :: cs = c :: (cs.take k ++ (linedelimiter ++ cs.drop (k + 2)))
          rw [← i2]

/-- Every text is a sequence of chunks ended by CRLF followed by a tail, chunks
and tail holding no CRLF. -/
theorem body_chunks : ∀ (n : Nat) (body : List Char), body.length ≤ n →
    ∃ chunks tail, body = linesText chunks ++ tail ∧
      (∀ c ∈ chunks, strFind linedelimiter c = none) ∧
      strFind linedelimiter tail = none := by
  intro n
  induction n with
  | zero =>
    intro body h
    have : body = [] := List.length_eq_zero.mp (Nat.le_zero.mp h)
    subst this
    exact ⟨[], [], rfl, by simp, by simp [strFind, linedelimiter]⟩
  | succ n ih =>
    intro body h
    cases hs : strFind linedelimiter body with
    | none => exact ⟨[], body, rfl, by simp, hs⟩
    | some off =>
      obtain ⟨s1, s2⟩ := strFind_split body off hs
      have hb := strFind_bound linedelimiter body off hs
      have hl : (body.drop (off + 2)).length ≤ n := by
        rw [List.length_drop]
        simp only [linedelimiter, List.length_cons, List.length_nil] at hb
        omega
      obtain ⟨cs, t, e1, e2, e3⟩ := ih (body.drop (off + 2)) hl
      refine ⟨body.take off :: cs, t, ?_, ?_, e3⟩
      · rw [linesText_cons, ← e1]
        exact s2
      · intro c hc
        rcases List.mem_cons.mp hc with e | e
        · rw [e]; exact s1
        · exact e2 c e

/-- The loop over the body, chunk by chunk. -/
theorem readLoop_body {J : Type} (parse : List Char → Option J)
    (processResponse : GetworkClient → J → GetworkClient) (tail : List Char)
    (ht : strFind linedelimiter tail = none) :
    ∀ (chunks : List (List Char)) (fuel : Nat) (s : GetworkClient) (linenum : Nat),
      (∀ c ∈ chunks, strFind linedelimiter c = none) → chunks.length + 1 ≤ fuel →
      readLoop parse processResponse fuel s (linesText chunks ++ tail)
          (strFind linedelimiter (linesText chunks ++ tail)) linenum false =
        some ((bodyDocuments chunks tail).foldl (processBody parse processResponse) s,
          false) := by
  intro chunks
  induction chunks with
  | nil =>
    intro fuel s linenum _ hf
    obtain ⟨f, rfl⟩ : ∃ f, fuel = f + 1 := ⟨fuel - 1, by simp at hf; omega⟩
    have e : linesText [] ++ tail = tail := rfl
    rw [e, ht, readLoop]
    rfl
  | cons c cs ih =>
    intro fuel s linenum hc hf
    have hcs : ∀ x ∈ cs, strFind linedelimiter x = none :=
      fun x hx => hc x (List.mem_cons_of_mem _ hx)
    have hfl : cs.length + 2 ≤ fuel := by
      simp only [List.length_cons] at hf; omega
    obtain ⟨f, rfl⟩ : ∃ f, fuel = f + 1 := ⟨fuel - 1, by omega⟩
    rw [linesText_cons, strFind_line c _ (hc c (List.mem_cons_self _ _))]
    by_cases hce : c = []
    · subst hce
      rw [List.nil_append]
      by_cases hn : cs = []
      · subst hn
        obtain ⟨g, rfl⟩ : ∃ g, f = g + 1 := ⟨f - 1, by simp at hfl; omega⟩
        have e : linesText [] ++ tail = tail := rfl
        rw [e]
        have hb := readLoop_blank_last parse processResponse g s tail linenum false ht
        rw [show ([] : List Char).length = 0 from rfl, hb]
        simp [bodyDocuments]
      · cases cs with
        | nil => exact absurd rfl hn
        | cons d ds =>
          have hbody : strFind linedelimiter (linesText (d :: ds) ++ tail) =
              some d.length := by
            rw [linesText_cons]
            exact strFind_line d _ (hcs d (List.mem_cons_self _ _))
          rw [show ([] : List Char).length = 0 from rfl,
            readLoop_blank_more parse processResponse f s _ linenum d.length false hbody,
            ← hbody, ih f s (linenum + 1) hcs (by omega)]
          simp [bodyDocuments]
    · rw [readLoop_chunk parse processResponse f s c _ linenum hce,
        ih f _ (linenum + 1) hcs (by omega)]
      simp [bodyDocuments, hce]

/-- C28 (counterexample): on the sample client, with a parser accepting the
sample error reply, (1) the response with a 200 status line whose body is two
CRLF-terminated copies of the reply invokes `processResponse` twice (the 30
second timer is armed twice); (2) the response whose body is the reply written
on two lines separated by CRLF, a remainder that is valid JSON once the line
feed is removed, invokes it not at all: the calls are those of the opening and
closing of `handle_read` on any response. -/
theorem handle_read_body_chunks :
    (handle_read parseSample processResponse sampleDefault ErrorCode.eof
        ("HTTP/1.1 200 OK\r\n\r\n".toList ++ sampleErrorDoc ++ "\r\n".toList ++
          sampleErrorDoc ++ "\r\n".toList)).map (fun c => c.calls) =
      some [ClientCall.connectTimerCancel, ClientCall.socketClose,
        ClientCall.getworkTimerArm 30000, ClientCall.getworkTimerArm 30000] ∧
    parseSample
        (("\x7b\"id\":0,\r\n\"error\":\"busy\"\x7d".toList).filter (· ≠ '\n')) ≠ none ∧
    (handle_read parseSample processResponse sampleDefault ErrorCode.eof
        ("HTTP/1.1 200 OK\r\n\r\n".toList ++
          "\x7b\"id\":0,\r\n\"error\":\"busy\"\x7d".toList)).map (fun c => c.calls) =
      some [ClientCall.connectTimerCancel, ClientCall.socketClose] := by
  refine ⟨by decide, by decide, by decide⟩

/-- C28 (amended): for every response read with success or end of file that is
made of a valid 200 status line, any number of header lines (each non-empty,
each ended by CRLF), an empty line and a remainder, the remainder being written
as chunks each ended by CRLF followed by a tail (chunks and tail holding no
CRLF, which every text admits): the documents handed to the JSON parser are, in
order, every non-empty chunk, and the tail with every line feed removed when
there is no chunk or the last chunk is empty (an empty chunk followed by
another chunk is skipped, and after a last chunk that is not empty the tail is
ignored); `processResponse` is invoked once for each document that is valid
JSON, an invalid document is skipped, and the handler then flushes the queue as
after any response, with no `disconnect()` of its own. In particular a
remainder without CRLF is a single document: `processResponse` is invoked
exactly once when it is valid JSON and not at all when it is invalid. -/
theorem handle_read_body (parse : List Char → Option Response) (s : GetworkClient)
    (er : ErrorCode) (status : List Char) (headers chunks : List (List Char))
    (tail : List Char)
    (her : er = ErrorCode.success ∨ er = ErrorCode.eof)
    (hst : status ≠ [] ∧ strFind linedelimiter status = none ∧ statusLineOk status = true)
    (hh : ∀ h ∈ headers, h ≠ [] ∧ strFind linedelimiter h = none)
    (hc : ∀ c ∈ chunks, strFind linedelimiter c = none)
    (ht : strFind linedelimiter tail = none) :
    handle_read parse processResponse s er
        (linesText (status :: headers) ++ (linedelimiter ++ (linesText chunks ++ tail))) =
      some (readEpilogue
        ((bodyDocuments ([] :: chunks) tail).foldl (processBody parse processResponse)
          (readPrologue s))) ∧
    (∀ (st : GetworkClient) (doc : List Char),
      (∀ j, parse doc = some j →
        processBody parse processResponse st doc = processResponse st j) ∧
      (parse doc = none → processBody parse processResponse st doc = st)) ∧
    (chunks = [] →
      (∀ j, parse (tail.filter (· ≠ '\n')) = some j →
        handle_read parse processResponse s er
            (linesText (status :: headers) ++ (linedelimiter ++ tail)) =
          some (readEpilogue (processResponse (readPrologue s) j))) ∧
      (parse (tail.filter (· ≠ '\n')) = none →
        handle_read parse processResponse s er
            (linesText (status :: headers) ++ (linedelimiter ++ tail)) =
          some (readEpilogue (readPrologue s)))) ∧
    (∀ body : List Char, ∃ cs t, body = linesText cs ++ t ∧
      (∀ c ∈ cs, strFind linedelimiter c = none) ∧ strFind linedelimiter t = none) := by
  have hl : ∀ h ∈ status :: headers, h ≠ [] ∧ strFind linedelimiter h = none := by
    intro h hm
    rcases List.mem_cons.mp hm with e | e
    · rw [e]; exact ⟨hst.1, hst.2.1⟩
    · exact hh h e
  have hs0 : ∀ st rest, status :: headers = st :: rest → (0 : Nat) = 0 →
      statusLineOk st = true := by
    intro st rest e _
    have : status = st := (List.cons.inj e).1
    rw [← this]
    exact hst.2.2
  have hlt := linesText_length (status :: headers)
  have hlc := linesText_length chunks
  have hrx : (linesText (status :: headers) ++
      (linedelimiter ++ (linesText chunks ++ tail))).length =
      (linesText (status :: headers)).length + 2 + (linesText chunks).length + tail.length := by
    simp only [List.length_append, linedelimiter, List.length_cons, List.length_nil]
    omega
  have hlen : (linesText (status :: headers) ++
      (linedelimiter ++ (linesText chunks ++ tail))).length ≠ 0 := by
    omega
  obtain ⟨k, hk⟩ : ∃ k, (linesText (status :: headers) ++
      (linedelimiter ++ (linesText chunks ++ tail))).length + 1
      = (k + chunks.length + 3) + (status :: headers).length :=
    ⟨(linesText (status :: headers)).length + (linesText chunks).length + tail.length
      - (status :: headers).length - chunks.length, by omega⟩
  have hlines := readLoop_lines parse processResponse (linesText chunks ++ tail)
    (status :: headers) (k + chunks.length + 3) (readPrologue s) 0 hl hs0
  rw [← hk] at hlines
  have hmain : handle_read parse processResponse s er
        (linesText (status :: headers) ++ (linedelimiter ++ (linesText chunks ++ tail))) =
      some (readEpilogue
        ((bodyDocuments ([] :: chunks) tail).foldl (processBody parse processResponse)
          (readPrologue s))) := by
    apply handle_read_loop parse processResponse s er _ _ her hlen
    rw [hlines]
    cases chunks with
    | nil =>
      have e : linesText [] ++ tail = tail := rfl
      rw [e]
      have hb := readLoop_blank_last parse processResponse (k + 1) (readPrologue s) tail
        (0 + (status :: headers).length) true ht
      have hf : k + ([] : List (List Char)).length + 3 = k + 1 + 2 := rfl
      rw [hf, hb]
      simp [bodyDocuments]
    | cons d ds =>
      have hbody : strFind linedelimiter (linesText (d :: ds) ++ tail) = some d.length := by
        rw [linesText_cons]
        exact strFind_line d _ (hc d (List.mem_cons_self _ _))
      have hf : k + (d :: ds).length + 3 = (k + (d :: ds).length + 2) + 1 := rfl
      rw [hf, readLoop_blank_more parse processResponse _ (readPrologue s) _ _ d.length true
        hbody, ← hbody,
        readLoop_body parse processResponse tail ht (d :: ds) _ (readPrologue s) _ hc
          (by omega)]
      simp [bodyDocuments]
  refine ⟨hmain, ?_, ?_, ?_⟩
  · intro st doc
    constructor
    · intro j hj
      simp only [processBody, hj]
    · intro hj
      simp only [processBody, hj]
  · intro hn
    subst hn
    have e : linesText [] ++ tail = tail := rfl
    rw [e] at hmain
    have hd : bodyDocuments [[]] tail = [tail.filter (· ≠ '\n')] := by
      simp [bodyDocuments]
    rw [hd] at hmain
    constructor
    · intro j hj
      rw [hmain]
      simp only [List.foldl_cons, List.foldl_nil, processBody, hj]
    · intro hj
      rw [hmain]
      simp only [List.foldl_cons, List.foldl_nil, processBody, hj]
  · intro body
    exact body_chunks body.length body (le_refl _)

theorem handle_read_body_witness :
    (handle_read parseSample processResponse sampleDefault ErrorCode.success
        ("HTTP/1.1 200 OK\r\nContent-Type: application/json\r\n\r\n".toList ++
          sampleErrorDoc ++ "\r\n\r\n".toList ++ sampleErrorDoc ++ ['\n'])).map
      (fun c => c.calls) =
      some [ClientCall.connectTimerCancel, ClientCall.socketClose,
        ClientCall.getworkTimerArm 30000, ClientCall.getworkTimerArm 30000] := by
  have h := (handle_read_body parseSample sampleDefault ErrorCode.success
    "HTTP/1.1 200 OK".toList ["Content-Type: application/json".toList]
    [sampleErrorDoc, []] (sampleErrorDoc ++ ['\n']) (Or.inl rfl)
    ⟨by decide, by decide, by decide⟩ (by decide) (by decide) (by decide)).1
  have e : "HTTP/1.1 200 OK\r\nContent-Type: application/json\r\n\r\n".toList ++
      sampleErrorDoc ++ "\r\n\r\n".toList ++ sampleErrorDoc ++ ['\n'] =
      linesText ["HTTP/1.1 200 OK".toList, "Content-Type: application/json".toList] ++
        (linedelimiter ++ (linesText [sampleErrorDoc, []] ++ (sampleErrorDoc ++ ['\n']))) := by
    decide
  rw [e, h]
  decide

/-! ### Alternation of the PoW window events -/

theorem powEvents_append (a b : List ClientCall) :
    powEvents (a ++ b) = powEvents a ++ powEvents b := by
  unfold powEvents
  exact List.filterMap_append _ _ _

theorem followWindow_append : ∀ (l1 l2 : List Bool) (b : Bool),
    followWindow b (l1 ++ l2) = (followWindow b l1).bind fun b1 => followWindow b1 l2 := by
  intro l1
  induction l1 with
  | nil => intro l2 b; rfl
  | cons e es ih =>
    intro l2 b
    have hcons : ∀ (c d : Bool) (l : List Bool),
        followWindow c (d :: l) = if d = c then none else followWindow d l :=
      fun _ _ _ => rfl
    show followWindow b (e :: (es ++ l2)) = _
    rw [hcons, hcons]
    by_cases h : e = b
    · rw [if_pos h, if_pos h]; rfl
    · rw [if_neg h, if_neg h]
      exact ih l2 e

theorem followWindow_count : ∀ (l : List Bool) (b b1 : Bool),
    followWindow b l = some b1 →
      l.count true + (if b then 1 else 0) = l.count false + (if b1 then 1 else 0) := by
  intro l
  induction l with
  | nil =>
    intro b b1 h
    unfold followWindow at h
    simp only [Option.some.injEq] at h
    rw [h]
    rfl
  | cons e es ih =>
    intro b b1 h
    unfold followWindow at h
    by_cases he : e = b
    · rw [if_pos he] at h
      exact absurd h (by simp)
    · rw [if_neg he] at h
      have := ih e b1 h
      cases e <;> cases b <;> simp at he <;> simp at this ⊢ <;> omega

theorem powEvents_startCalls (s : GetworkClient) (w : GetWorkResult)
    (h : s.handlerPoWStart = true) : powEvents (startCalls s w) = [true] := by
  unfold startCalls
  by_cases hc : w.header = 0 ∧ s.handlerWorkReceived = true
  · rw [if_pos hc]; simp [powEvents, h]
  · rw [if_neg hc]; simp [powEvents, h]

theorem powEvents_endCalls (m : GetworkClient) (h : m.handlerPoWEnd = true) :
    powEvents (endCalls m) = [false] := by
  unfold endCalls
  cases hw : m.handlerWorkReceived <;> simp [powEvents, h]

theorem zilWindowEntry_handlers (s : GetworkClient) (w : GetWorkResult) :
    (zilWindowEntry s w).handlerPoWStart = s.handlerPoWStart := by
  obtain ⟨_, _, _, n4, _⟩ := noteWork_fields s w
  by_cases h : windowStartCond (noteWork s w) w = true
  · have he : zilWindowEntry s w = openWindow (noteWork s w) w := by
      simp only [zilWindowEntry, h, if_true]
    rw [he, openWindow_eq]
    exact n4
  · rw [zilWindowEntry_closed s w h]
    exact n4

theorem forwardWork_handlers (s : GetworkClient) (wp : WorkPackage) :
    (forwardWork s wp).handlerPoWStart = s.handlerPoWStart := by
  rcases forwardWork_cases s wp with ⟨he, _⟩ | ⟨_, ⟨he, _⟩ | ⟨he, _⟩⟩ <;> rw [he]

theorem zilWindowExit_handlers (m : GetworkClient) (w : GetWorkResult) :
    (zilWindowExit m w).1.zilMode = m.zilMode ∧
    (zilWindowExit m w).1.handlerPoWStart = m.handlerPoWStart ∧
    (zilWindowExit m w).1.handlerPoWEnd = m.handlerPoWEnd := by
  unfold zilWindowExit stop_work
  cases h1 : w.powRunning <;>
    cases h2 : decide (w.secsToNextPoW > m.m_powstart_seconds) <;>
    cases h3 : decide ((elapsedSeconds m : Int) > m.m_powend_timeout) <;>
    cases h4 : m.m_zil_pow_running <;>
    cases h5 : m.handlerWorkReceived <;>
    cases h6 : m.handlerPoWEnd <;>
    simp [h1, h2, h3, h4, h5, h6]

theorem processSubmitReply_window (t : GetworkClient) (r : Response) (_id : Nat) :
    ∃ new, (processSubmitReply t r _id).calls = t.calls ++ new ∧ powEvents new = [] ∧
      (processSubmitReply t r _id).m_zil_pow_running = t.m_zil_pow_running ∧
      (processSubmitReply t r _id).zilMode = t.zilMode ∧
      (processSubmitReply t r _id).handlerPoWStart = t.handlerPoWStart ∧
      (processSubmitReply t r _id).handlerPoWEnd = t.handlerPoWEnd := by
  refine ⟨(if replySuccess r then
      (if t.handlerSolutionAccepted then [ClientCall.onSolutionAccepted (_id - 40)] else [])
    else
      (if t.handlerSolutionRejected then [ClientCall.onSolutionRejected (_id - 40)] else [])) ++
    (if t.zilMode then [ClientCall.getworkTimerCancel, ClientCall.getworkTimerArm 100]
     else []), ?_, ?_, ?_, ?_, ?_, ?_⟩ <;>
  · cases hz : t.zilMode <;> cases hs : replySuccess r <;>
      cases ha : t.handlerSolutionAccepted <;> cases hj : t.handlerSolutionRejected <;>
      simp [processSubmitReply, hz, hs, ha, hj, powEvents]

/-- The window events of one successful getWork reply in ZIL mode follow the
window flag. -/
theorem processGetWork_window (s : GetworkClient) (w : GetWorkResult)
    (hz : s.zilMode = true) (h1 : s.handlerPoWStart = true) (h2 : s.handlerPoWEnd = true) :
    ∃ new, (processGetWork s w).calls = s.calls ++ new ∧
      followWindow s.m_zil_pow_running (powEvents new) =
        some (processGetWork s w).m_zil_pow_running ∧
      (processGetWork s w).zilMode = true ∧
      (processGetWork s w).handlerPoWStart = true ∧
      (processGetWork s w).handlerPoWEnd = true := by
  obtain ⟨e1, e2, e3, _, _, _, _, e8, _, _⟩ := zilWindowEntry_fields s w
  obtain ⟨f1, f2, _, _, _, _, f7, _, f9⟩ :=
    forwardWork_fields (zilWindowEntry s w) (newWorkPackage w)
  obtain ⟨x1, x2⟩ :=
    zilWindowExit_fields (forwardWork (zilWindowEntry s w) (newWorkPackage w)) w
  obtain ⟨y1, y2, y3⟩ :=
    zilWindowExit_handlers (forwardWork (zilWindowEntry s w) (newWorkPackage w)) w
  have hzf : (forwardWork (zilWindowEntry s w) (newWorkPackage w)).zilMode = true := by
    rw [f1, e3, hz]
  have hp : processGetWork s w =
      armGetworkTimer (zilWindowExit (forwardWork (zilWindowEntry s w) (newWorkPackage w)) w).1
        (zilWindowExit (forwardWork (zilWindowEntry s w) (newWorkPackage w)) w).2 := by
    simp only [processGetWork, hz, if_true, hzf]
  have hend : (forwardWork (zilWindowEntry s w) (newWorkPackage w)).handlerPoWEnd = true := by
    rw [f7, e8, h2]
  have hst : (forwardWork (zilWindowEntry s w) (newWorkPackage w)).handlerPoWStart = true := by
    rw [forwardWork_handlers, zilWindowEntry_handlers, h1]
  have hrun : (forwardWork (zilWindowEntry s w) (newWorkPackage w)).m_zil_pow_running =
      (s.m_zil_pow_running || windowStartCond (noteWork s w) w) := by
    rw [f2, e2]
  have hexcl : windowStartCond (noteWork s w) w = true → s.m_zil_pow_running = false :=
    fun h => ((windowStartCond_noteWork s w).mp h).2.2
  -- the calls added by the forwarding block hold no window event
  obtain ⟨fw, hfw, hfwe⟩ : ∃ fw,
      (forwardWork (zilWindowEntry s w) (newWorkPackage w)).calls =
        (zilWindowEntry s w).calls ++ fw ∧ powEvents fw = [] := by
    rcases f9 with h | h
    · exact ⟨[], by rw [h, List.append_nil], rfl⟩
    · exact ⟨_, h, rfl⟩
  refine ⟨(if windowStartCond (noteWork s w) w then startCalls s w else []) ++ fw ++
      (if windowEndCond (forwardWork (zilWindowEntry s w) (newWorkPackage w)) w &&
          (forwardWork (zilWindowEntry s w) (newWorkPackage w)).m_zil_pow_running then
        endCalls (forwardWork (zilWindowEntry s w) (newWorkPackage w)) else []) ++
      [ClientCall.getworkTimerArm
        (zilWindowExit (forwardWork (zilWindowEntry s w) (newWorkPackage w)) w).2],
    ?_, ?_, ?_, ?_, ?_⟩
  · rw [hp]
    show (zilWindowExit _ w).1.calls ++ [_] = _
    rw [x2, hfw, e1]
    simp only [List.append_assoc]
  · rw [hp]
    show _ = some (zilWindowExit _ w).1.m_zil_pow_running
    rw [x1, hrun]
    simp only [powEvents_append, hfwe, List.append_nil]
    have harm : ∀ ms, powEvents [ClientCall.getworkTimerArm ms] = [] := fun _ => rfl
    rw [harm, List.append_nil]
    cases hc : windowStartCond (noteWork s w) w
    · cases he : windowEndCond (forwardWork (zilWindowEntry s w) (newWorkPackage w)) w
      · cases hr : s.m_zil_pow_running <;> simp [powEvents, followWindow]
      · cases hr : s.m_zil_pow_running
        · simp [powEvents, followWindow]
        · simp only [Bool.or_false, Bool.and_self, if_true, Bool.false_eq_true, if_false,
            List.nil_append, powEvents_endCalls _ hend]
          simp [followWindow]
    · have hr := hexcl hc
      rw [hr]
      cases he : windowEndCond (forwardWork (zilWindowEntry s w) (newWorkPackage w)) w
      · simp only [if_true, powEvents_startCalls s w h1, Bool.false_or, Bool.false_and,
          Bool.false_eq_true, if_false]
        simp [powEvents, followWindow]
      · simp only [if_true, powEvents_startCalls s w h1, Bool.false_or, Bool.and_self,
          powEvents_endCalls _ hend]
        simp [followWindow]
  · rw [hp]
    show (zilWindowExit _ w).1.zilMode = true
    rw [y1, hzf]
  · rw [hp]
    show (zilWindowExit _ w).1.handlerPoWStart = true
    rw [y2, hst]
  · rw [hp]
    show (zilWindowExit _ w).1.handlerPoWEnd = true
    rw [y3, hend]

/-- The window events of one response, of any kind, follow the window flag. -/
theorem processResponse_window (s : GetworkClient) (r : Response)
    (hz : s.zilMode = true) (h1 : s.handlerPoWStart = true) (h2 : s.handlerPoWEnd = true) :
    ∃ new, (processResponse s r).calls = s.calls ++ new ∧
      followWindow s.m_zil_pow_running (powEvents new) =
        some (processResponse s r).m_zil_pow_running ∧
      (processResponse s r).zilMode = true ∧
      (processResponse s r).handlerPoWStart = true ∧
      (processResponse s r).handlerPoWEnd = true := by
  have hsame : ∃ new, s.calls = s.calls ++ new ∧
      followWindow s.m_zil_pow_running (powEvents new) = some s.m_zil_pow_running ∧
      s.zilMode = true ∧ s.handlerPoWStart = true ∧ s.handlerPoWEnd = true :=
    ⟨[], by rw [List.append_nil], rfl, hz, h1, h2⟩
  unfold processResponse
  cases hi : r.id with
  | none => exact hsame
  | some x =>
    simp only []
    by_cases h01 : pendingId s = 0 ∨ pendingId s = 1
    · rw [if_pos h01]
      cases he : r.errorEmpty
      · exact ⟨[ClientCall.getworkTimerArm 30000], rfl, rfl, hz, h1, h2⟩
      · simp only [Bool.not_true, Bool.false_eq_true, if_false]
        cases hres : r.result with
        | none => exact hsame
        | some v => exact processGetWork_window s v.work hz h1 h2
    · rw [if_neg h01]
      by_cases h9 : pendingId s = 9
      · rw [if_pos h9]; exact hsame
      · rw [if_neg h9]
        by_cases hr : pendingId s ≥ 40 ∧ pendingId s ≤ s.m_solution_submitted_max_id
        · rw [if_pos hr]
          obtain ⟨new, c1, c2, c3, c4, c5, c6⟩ := processSubmitReply_window s r (pendingId s)
          refine ⟨new, c1, ?_, by rw [c4, hz], by rw [c5, h1], by rw [c6, h2]⟩
          rw [c2, c3]
          rfl
        · rw [if_neg hr]; exact hsame

theorem receiveAll_window : ∀ (arrivals : List Arrival) (s : GetworkClient),
    s.zilMode = true → s.handlerPoWStart = true → s.handlerPoWEnd = true →
    ∃ new, (receiveAll s arrivals).calls = s.calls ++ new ∧
      followWindow s.m_zil_pow_running (powEvents new) =
        some (receiveAll s arrivals).m_zil_pow_running := by
  intro arrivals
  induction arrivals with
  | nil =>
    intro s _ _ _
    exact ⟨[], by simp [receiveAll], rfl⟩
  | cons a rest ih =>
    intro s hz h1 h2
    obtain ⟨n1, c1, c2, c3, c4, c5⟩ :=
      processResponse_window { s with now := a.now, m_pendingJReq := a.pending } a.reply
        hz h1 h2
    obtain ⟨n2, d1, d2⟩ := ih (receive s a) c3 c4 c5
    refine ⟨n1 ++ n2, ?_, ?_⟩
    · show (receiveAll (receive s a) rest).calls = _
      rw [d1]
      show (processResponse _ a.reply).calls ++ n2 = _
      rw [c1, List.append_assoc]
    · show _ = some (receiveAll (receive s a) rest).m_zil_pow_running
      rw [powEvents_append, followWindow_append]
      have c2' : followWindow s.m_zil_pow_running (powEvents n1) =
          some (receive s a).m_zil_pow_running := c2
      rw [c2']
      exact d2

/-- C31: in ZIL mode, with the `onPoWStart` and `onPoWEnd` handlers installed,
from every state with `zilPowRunning = false` and over every sequence of
responses (the getWork responses, and any other response in between; the clock
and the request in flight are arbitrary at each response), the `onPoWStart` and
`onPoWEnd` events raised strictly alternate beginning with `onPoWStart`, the
number of starts minus the number of ends is 0 or 1, and `zilPowRunning` is true
at the end exactly when that difference is 1. -/
theorem pow_events_alternate (s : GetworkClient) (arrivals : List Arrival)
    (hz : s.zilMode = true) (h1 : s.handlerPoWStart = true) (h2 : s.handlerPoWEnd = true)
    (hr : s.m_zil_pow_running = false) :
    ∃ new, (receiveAll s arrivals).calls = s.calls ++ new ∧
      followWindow false (powEvents new) = some (receiveAll s arrivals).m_zil_pow_running ∧
      ((powEvents new).count true = (powEvents new).count false ∨
        (powEvents new).count true = (powEvents new).count false + 1) ∧
      ((receiveAll s arrivals).m_zil_pow_running = true ↔
        (powEvents new).count true = (powEvents new).count false + 1) ∧
      ((receiveAll s arrivals).m_zil_pow_running = false ↔
        (powEvents new).count true = (powEvents new).count false) := by
  obtain ⟨new, c1, c2⟩ := receiveAll_window arrivals s hz h1 h2
  rw [hr] at c2
  have hc := followWindow_count (powEvents new) false _ c2
  refine ⟨new, c1, c2, ?_, ?_, ?_⟩
  · cases hf : (receiveAll s arrivals).m_zil_pow_running <;> rw [hf] at hc <;>
      simp at hc <;> omega
  · cases hf : (receiveAll s arrivals).m_zil_pow_running <;> rw [hf] at hc <;>
      simp at hc ⊢ <;> omega
  · cases hf : (receiveAll s arrivals).m_zil_pow_running <;> rw [hf] at hc <;>
      simp at hc ⊢ <;> omega

theorem pow_events_alternate_witness :
    powEvents (receiveAll sampleOutWindow sampleArrivals).calls = [true, false, true] ∧
    ∃ new, (receiveAll sampleOutWindow sampleArrivals).calls = sampleOutWindow.calls ++ new ∧
      followWindow false (powEvents new) =
        some (receiveAll sampleOutWindow sampleArrivals).m_zil_pow_running := by
  obtain ⟨new, c1, c2, _⟩ :=
    pow_events_alternate sampleOutWindow sampleArrivals rfl rfl rfl rfl
  exact ⟨by decide, new, c1, c2⟩
end GetworkClient
end ZILMiner
